import Mathlib

/-!
# CityLink: the report lifecycle

A shallow embedding of the backend of the CityLink issue-reporting service:
the `Report` schema (`models/Report.js`), report creation, listing and search
(`controllers/reportController.js`), and the administrative mutations of
reports and users and the two dashboards (`controllers/adminController.js`),
the access guards (`middleware/admin.js`) and the tokens (`utils/jwt.js`).

Conventions of the embedding

* A handler is a function from the request and the store to the response and
  the store afterwards; the clock value read by `new Date()` and by the
  timestamp plugin is the argument `now` (milliseconds since the epoch).
* A stored ObjectId is a natural number. An id that a request carries is a
  string; the cast of a string to an ObjectId and the string of an ObjectId are
  the parameter `ObjectIds`, and `hexIds` is the codec of 24 hexadecimal digits.
  `updateReportStatusRoute`, `assignReportRoute` and `updateUserStatus` are the
  handlers on the strings of the request; a cast that fails throws, and the
  handler answers 500. `updateReportStatus` and `assignReport` are the same
  handlers from the point where the ids have been cast.
* A request field that may be missing is an `Option`; `none` is JavaScript's
  `undefined`.
* A coordinate is a whole number of millionths of a degree (`degree` is one
  degree). The schema counts string lengths in UTF-16 code units (`jsLength`),
  the validation chain in characters.
* The two e-mail functions of the validation library are not part of the
  repository; they are the parameter `Lib`. The regular-expression engine of
  the data layer is the parameter `Engine`.
* `page` and `limit` of a query are the natural numbers that `parseInt` reads;
  parameters that are negative or not numbers are outside the model.
* The data layer sorts with a stable sort: reports with equal sort keys keep
  the order in which they were inserted. A `$group` stage yields its groups in
  the order in which their keys first occur.
* The averages of the aggregation are exact rational numbers; the rounding of
  floating-point arithmetic is outside the model.
* The day string `%Y-%m-%d` of a date is represented by the index of the UTC
  day since the epoch, which orders as the string does.
* A signed token is its payload, issuer, audience, expiry and the secret that
  signed it; a string that is no token at all is `none`. The secret of the
  environment is not empty.
-/

namespace CityLink

/-! ## Strings and patterns -/

/-- White space removed by `trim()`: the white-space and line-terminator
characters of JavaScript (tab to carriage return, space, no-break space, ogham
space mark, en quad to hair space, line and paragraph separator, narrow no-break
space, medium mathematical space, ideographic space, byte order mark). -/
def isSpace (c : Char) : Bool :=
  (9 ≤ c.toNat && c.toNat ≤ 13) || c.toNat = 32 || c.toNat = 160 || c.toNat = 5760
    || (8192 ≤ c.toNat && c.toNat ≤ 8202) || c.toNat = 8232 || c.toNat = 8233
    || c.toNat = 8239 || c.toNat = 8287 || c.toNat = 12288 || c.toNat = 65279

/-- The property `length` of a JavaScript string: the number of UTF-16 code
units, two for a character outside the basic plane. -/
def jsLength (s : String) : Nat :=
  (s.data.map (fun c => if c.toNat < 65536 then 1 else 2)).sum

/-- The sanitizer `trim()`: white space is dropped at both ends. -/
def trim (s : String) : String :=
  String.mk ((s.data.dropWhile isSpace).reverse.dropWhile isSpace).reverse

/-- The class `\w` of a regular expression. -/
def isWord (c : Char) : Bool :=
  (48 ≤ c.toNat && c.toNat ≤ 57) || (65 ≤ c.toNat && c.toNat ≤ 90)
    || (97 ≤ c.toNat && c.toNat ≤ 122) || c.toNat = 95

/-- The class `\d` of a regular expression. -/
def isDigit (c : Char) : Bool := 48 ≤ c.toNat && c.toNat ≤ 57

/-- Regular expressions, as far as the schema uses them. -/
inductive Pat where
  | fail : Pat
  | eps : Pat
  | cls : (Char → Bool) → Pat
  | seq : Pat → Pat → Pat
  | alt : Pat → Pat → Pat
  | star : Pat → Pat

/-- Whether a pattern matches the empty string. -/
def Pat.nullable : Pat → Bool
  | .fail => false
  | .eps => true
  | .cls _ => false
  | .seq a b => a.nullable && b.nullable
  | .alt a b => a.nullable || b.nullable
  | .star _ => true

/-- The derivative of a pattern by one character. -/
def Pat.deriv (c : Char) : Pat → Pat
  | .fail => .fail
  | .eps => .fail
  | .cls p => if p c then .eps else .fail
  | .seq a b => if a.nullable then .alt (.seq (a.deriv c) b) (b.deriv c) else .seq (a.deriv c) b
  | .alt a b => .alt (a.deriv c) (b.deriv c)
  | .star a => .seq (a.deriv c) (.star a)

/-- Anchored match (`^...$`) of a pattern against a list of characters. -/
def Pat.test : Pat → List Char → Bool
  | p, [] => p.nullable
  | p, c :: cs => Pat.test (p.deriv c) cs

/-- One or more repetitions. -/
def Pat.plus (p : Pat) : Pat := .seq p (.star p)

/-- Zero or one occurrence. -/
def Pat.opt (p : Pat) : Pat := .alt .eps p

/-- The pattern `^\w+([.-]?\w+)*@\w+([.-]?\w+)*(\.\w{2,3})+$` of `reportedBy.email`. -/
def emailPattern : Pat :=
  let w := Pat.cls isWord
  let dotDash := Pat.cls (fun c => c.toNat = 46 || c.toNat = 45)
  let dot := Pat.cls (fun c => c.toNat = 46)
  let part := Pat.seq w.plus (Pat.star (Pat.seq dotDash.opt w.plus))
  Pat.seq part (Pat.seq (Pat.cls (fun c => c.toNat = 64))
    (Pat.seq part (Pat.plus (Pat.seq dot (Pat.seq w (Pat.seq w w.opt))))))

/-- The pattern `^\d{10}$` of `reportedBy.phone`. -/
def isTenDigits (s : String) : Bool := s.length = 10 && s.data.all isDigit

/-! ## The data model (`models/Report.js`) -/

/-- One element of `images`. -/
structure Image where
  filename : String
  originalName : String
  path : String
  size : Nat
  uploadedAt : Nat
  deriving DecidableEq, Repr

/-- A `Report` document. A required string path that is missing is the empty
string (the `required` validator rejects both alike). -/
structure Report where
  id : Nat
  title : String
  description : String
  category : String
  issueType : String
  status : String
  address : String
  latitude : Option Int
  longitude : Option Int
  images : List Image
  reporterName : String
  reporterEmail : String
  reporterPhone : Option String
  assignedTo : Option Nat
  adminNotes : Option String
  resolvedAt : Option Nat
  priority : Int
  tags : List String
  upvotes : Int
  downvotes : Int
  createdAt : Nat
  updatedAt : Nat
  deriving DecidableEq, Repr

/-- A `User` document, as far as the report handlers read it. -/
structure User where
  id : Nat
  name : String
  email : String
  role : String
  isActive : Bool
  deriving DecidableEq, Repr

/-- The two collections. -/
structure Store where
  reports : List Report
  users : List User
  deriving DecidableEq, Repr

/-- The two directions between id strings and ObjectIds: `cast` is the cast that
`findById` and the setter of an ObjectId path apply to a string (`none` when it
throws), and `toString` is `_id.toString()`. -/
structure ObjectIds where
  cast : String → Option Nat
  toString : Nat → String

/-- The value of a hexadecimal digit, in either case. -/
def hexDigit (c : Char) : Option Nat :=
  if 48 ≤ c.toNat ∧ c.toNat ≤ 57 then some (c.toNat - 48)
  else if 97 ≤ c.toNat ∧ c.toNat ≤ 102 then some (c.toNat - 87)
  else if 65 ≤ c.toNat ∧ c.toNat ≤ 70 then some (c.toNat - 55)
  else none

/-- The number that a list of hexadecimal digits writes, after the digits read so far. -/
def hexValue (acc : Nat) : List Char → Option Nat
  | [] => some acc
  | c :: cs =>
    match hexDigit c with
    | some d => hexValue (16 * acc + d) cs
    | none => none

/-- The last `count` hexadecimal digits of a number, in lower case. -/
def hexChars : Nat → Nat → List Char
  | 0, _ => []
  | count + 1, n =>
    hexChars count (n / 16)
      ++ [if n % 16 < 10 then Char.ofNat (48 + n % 16) else Char.ofNat (87 + n % 16)]

/-- The ObjectIds of the driver, which tests a string for 24 characters of the
class `[0-9a-fA-F]`: a string of 24 hexadecimal digits, in upper or lower case,
is cast to the id it writes, every other string is refused, and the string of an
id is its 24 digits in lower case. -/
def hexIds : ObjectIds :=
  ⟨fun x => if x.length = 24 then hexValue 0 x.data else none,
   fun n => String.mk (hexChars 24 n)⟩

/-- One degree, in the unit of the coordinates. -/
def degree : Int := 1000000

/-- The `enum` of `category`. -/
def categories : List String :=
  ["pothole", "streetlight", "waste_management", "water_leak", "traffic_signal",
   "road_damage", "public_safety", "noise_complaint", "other"]

/-- The `enum` of `issueType`. -/
def issueTypes : List String := ["emergency", "high", "medium", "low"]

/-- The `enum` of `status`. -/
def statuses : List String := ["pending", "in_progress", "resolved", "rejected"]

/-- The validator `maxlength: 500` of `adminNotes`; a missing value passes. -/
def notesFit (n : Option String) : Bool :=
  match n with
  | some x => jsLength x ≤ 500
  | none => true

/-- Schema validation of a document: the `required`, `enum`, `maxlength`,
`min`/`max` and `match` validators of `reportSchema`. -/
def Report.validate (r : Report) : Bool :=
  (r.title ≠ "" && jsLength r.title ≤ 100)
  && (r.description ≠ "" && jsLength r.description ≤ 1000)
  && (r.category ≠ "" && categories.contains r.category)
  && (r.issueType ≠ "" && issueTypes.contains r.issueType)
  && statuses.contains r.status
  && r.address ≠ ""
  && (match r.latitude with
      | some x => -90 * degree ≤ x && x ≤ 90 * degree
      | none => false)
  && (match r.longitude with
      | some x => -180 * degree ≤ x && x ≤ 180 * degree
      | none => false)
  && r.reporterName ≠ ""
  && (r.reporterEmail ≠ "" && emailPattern.test r.reporterEmail.data)
  && (match r.reporterPhone with
      | some p => p = "" || isTenDigits p
      | none => true)
  && notesFit r.adminNotes
  && (1 ≤ r.priority && r.priority ≤ 5)

/-- The `pre('save')` middleware of the schema: on a new document a category
in `highPriorityCategories` raises the priority to 5. -/
def preSave (isNew : Bool) (r : Report) : Report :=
  if isNew then
    let highPriorityCategories := ["emergency", "water_leak", "public_safety"]
    if highPriorityCategories.contains r.category then { r with priority := 5 } else r
  else r

/-- `Report.findById` for an id that has been cast. -/
def Store.findReport (s : Store) (id : Nat) : Option Report :=
  s.reports.find? (fun r => r.id = id)

/-- `User.findById` for an id that has been cast; an `undefined` id finds nothing. -/
def Store.findUser (s : Store) (id : Option Nat) : Option User :=
  match id with
  | some i => s.users.find? (fun u => u.id = i)
  | none => none

/-- The write of an existing document: the first document with the id is replaced. -/
def replaceReport (r : Report) : List Report → List Report
  | [] => []
  | x :: xs => if x.id = r.id then r :: xs else x :: replaceReport r xs

/-- An id that no stored report has. -/
def Store.freshId (s : Store) : Nat := (s.reports.map (fun r => r.id)).foldr max 0 + 1

/-- A new document as it is written: after the schema middleware, with both
timestamps set by the timestamp plugin. -/
def insertedDocument (now : Nat) (r : Report) : Report :=
  { preSave true r with createdAt := now, updatedAt := now }

/-- The method `save()` of a document. `loaded` is the document as it was read
from the store (`none` for a new document). Validation runs first and throws on
failure; then the schema middleware and the timestamp plugin run, and the
document is written. The result is the stored document and the new store. -/
def save (now : Nat) (loaded : Option Report) (r : Report) (s : Store) :
    Except String (Report × Store) :=
  if !r.validate then .error "Report validation failed"
  else
    match loaded with
    | none =>
      let doc := insertedDocument now r
      .ok (doc, { s with reports := s.reports ++ [doc] })
    | some old =>
      let r1 := preSave false r
      if r1 = old then .ok (old, s)
      else
        let doc := { r1 with updatedAt := now }
        .ok (doc, { s with reports := replaceReport doc s.reports })

/-! ## Responses -/

/-- An entry of the `errors` array of a failed validation. -/
structure FieldError where
  path : String
  msg : String
  deriving DecidableEq, Repr

/-- The projection `name email` that `populate` puts in place of `assignedTo`. -/
structure Assignee where
  name : String
  email : String
  deriving DecidableEq, Repr

/-- A JSON answer: HTTP status, the envelope fields, and the report in `data`. -/
structure Response where
  code : Nat
  success : Bool
  message : String
  report : Option Report
  assignee : Option Assignee
  errors : List FieldError
  deriving DecidableEq, Repr

/-- An answer without data. -/
def Response.plain (code : Nat) (message : String) : Response :=
  ⟨code, false, message, none, none, []⟩

/-- `populate('assignedTo', 'name email')`. -/
def populate (s : Store) (r : Report) : Option Assignee :=
  (s.findUser r.assignedTo).map (fun u => ⟨u.name, u.email⟩)

/-- A successful answer carrying a report. -/
def Response.withReport (code : Nat) (message : String) (s : Store) (r : Report) : Response :=
  ⟨code, true, message, some r, populate s r, []⟩

/-! ## Report creation (`controllers/reportController.js`) -/

/-- The two e-mail functions of the validation library. -/
structure Lib where
  isEmail : String → Bool
  normalizeEmail : String → String

/-- A file accepted by the upload middleware. -/
structure UploadedFile where
  filename : String
  originalname : String
  path : String
  size : Nat
  deriving DecidableEq, Repr

/-- The image record made of an uploaded file; `uploadedAt` defaults to the current time. -/
def UploadedFile.toImage (now : Nat) (f : UploadedFile) : Image :=
  ⟨f.filename, f.originalname, f.path, f.size, now⟩

/-- The body of `POST /reports`: the paths that the validation chain reads, and
the further schema paths that the document constructor takes from the body
(missing tags are the empty list). -/
structure ReportBody where
  title : Option String
  description : Option String
  category : Option String
  issueType : Option String
  address : Option String
  latitude : Option Int
  longitude : Option Int
  reporterName : Option String
  reporterEmail : Option String
  reporterPhone : Option String
  status : Option String
  priority : Option Int
  assignedTo : Option Nat
  adminNotes : Option String
  resolvedAt : Option Nat
  images : List Image
  tags : List String
  upvotes : Option Int
  downvotes : Option Int
  deriving DecidableEq, Repr

/-- The request of `POST /reports`. -/
structure CreateRequest where
  body : ReportBody
  files : List UploadedFile
  deriving DecidableEq, Repr

/-- The string a validator sees: a missing field is the empty string. -/
def fieldString (v : Option String) : String := v.getD ""

/-- One rule of the chain: an error entry when the check fails. -/
def check (ok : Bool) (path msg : String) : List FieldError :=
  if ok then [] else [⟨path, msg⟩]

/-- The chain `createReportValidation`: the errors it records, in order. -/
def createReportValidation (lib : Lib) (b : ReportBody) : List FieldError :=
  check (trim (fieldString b.title) ≠ "") "title" "Title is required"
  ++ check ((trim (fieldString b.title)).length ≤ 100) "title" "Title cannot exceed 100 characters"
  ++ check (trim (fieldString b.description) ≠ "") "description" "Description is required"
  ++ check ((trim (fieldString b.description)).length ≤ 1000) "description"
      "Description cannot exceed 1000 characters"
  ++ check (categories.contains (fieldString b.category)) "category" "Invalid category"
  ++ check (issueTypes.contains (fieldString b.issueType)) "issueType" "Invalid issue type"
  ++ check (trim (fieldString b.address) ≠ "") "location.address" "Address is required"
  ++ check (match b.latitude with
            | some x => -90 * degree ≤ x && x ≤ 90 * degree
            | none => false) "location.coordinates.latitude" "Invalid latitude"
  ++ check (match b.longitude with
            | some x => -180 * degree ≤ x && x ≤ 180 * degree
            | none => false) "location.coordinates.longitude" "Invalid longitude"
  ++ check (trim (fieldString b.reporterName) ≠ "") "reportedBy.name" "Reporter name is required"
  ++ check (lib.isEmail (fieldString b.reporterEmail)) "reportedBy.email" "Valid email is required"
  ++ check (match b.reporterPhone with
            | some p => isTenDigits p
            | none => true) "reportedBy.phone" "Phone number must be 10 digits"

/-- The body after the sanitizers of the chain (`trim`, `normalizeEmail`) have run. -/
def sanitize (lib : Lib) (b : ReportBody) : ReportBody :=
  { b with
    title := some (trim (fieldString b.title))
    description := some (trim (fieldString b.description))
    address := some (trim (fieldString b.address))
    reporterName := some (trim (fieldString b.reporterName))
    reporterEmail := some (lib.normalizeEmail (fieldString b.reporterEmail)) }

/-- The constructor `new Report(reportData)`: every schema path the data carries
is taken over; `issueType`, `status`, `priority` and the two vote counts get
their schema default when the data has none, and the tags are trimmed. -/
def Report.new (id : Nat) (d : ReportBody) : Report :=
  { id := id
    title := trim (fieldString d.title)
    description := fieldString d.description
    category := fieldString d.category
    issueType := d.issueType.getD "medium"
    status := d.status.getD "pending"
    address := fieldString d.address
    latitude := d.latitude
    longitude := d.longitude
    images := d.images
    reporterName := fieldString d.reporterName
    reporterEmail := fieldString d.reporterEmail
    reporterPhone := d.reporterPhone
    assignedTo := d.assignedTo
    adminNotes := d.adminNotes
    resolvedAt := d.resolvedAt
    priority := d.priority.getD 3
    tags := d.tags.map trim
    upvotes := d.upvotes.getD 0
    downvotes := d.downvotes.getD 0
    createdAt := 0
    updatedAt := 0 }

/-- The object `reportData` of `createReport`: the sanitized body, with `images`
replaced by the records of the uploaded files when there are any. -/
def reportData (lib : Lib) (now : Nat) (req : CreateRequest) : ReportBody :=
  let body := sanitize lib req.body
  if req.files.length > 0 then
    { body with images := req.files.map (UploadedFile.toImage now) }
  else body

/-- The handler `createReport`. -/
def createReport (lib : Lib) (now : Nat) (req : CreateRequest) (s : Store) : Response × Store :=
  let errors := createReportValidation lib req.body
  if !errors.isEmpty then
    (⟨400, false, "Validation failed", none, none, errors⟩, s)
  else
    let report := Report.new s.freshId (reportData lib now req)
    match save now none report s with
    | .ok (doc, s1) => (⟨201, true, "Report submitted successfully", some doc, none, []⟩, s1)
    | .error _ => (Response.plain 500 "Failed to create report", s)

/-! ## Administrative mutations (`controllers/adminController.js`) -/

/-- The body of `PUT /admin/reports/:id/status`. -/
structure StatusBody where
  status : Option String
  adminNotes : Option String
  assignedTo : Option Nat
  deriving DecidableEq, Repr

/-- The test `if (adminNotes)`: a string is truthy unless it is empty. -/
def truthy (v : Option String) : Bool :=
  match v with
  | some x => x ≠ ""
  | none => false

/-- The test `list.includes(v)` for a value that may be `undefined`. -/
def includes (xs : List String) (v : Option String) : Bool :=
  match v with
  | some x => xs.contains x
  | none => false

/-- The block "Update report" of `updateReportStatus`: the assignments made to
the loaded document before it is saved. -/
def statusEdit (now : Nat) (body : StatusBody) (report : Report) : Report :=
  let r1 := { report with status := fieldString body.status }
  let r2 := if truthy body.adminNotes then { r1 with adminNotes := body.adminNotes } else r1
  let r3 := if body.assignedTo.isSome then { r2 with assignedTo := body.assignedTo } else r2
  if body.status = some "resolved" then { r3 with resolvedAt := some now } else r3

/-- The handler `updateReportStatus` once the ids of the request have been cast:
`id` is the ObjectId of the path and `body.assignedTo` the one of the body. -/
def updateReportStatus (now : Nat) (id : Nat) (body : StatusBody) (s : Store) :
    Response × Store :=
  if !includes statuses body.status then
    (Response.plain 400 "Invalid status value", s)
  else
    match s.findReport id with
    | none => (Response.plain 404 "Report not found", s)
    | some loaded =>
      match save now (some loaded) (statusEdit now body loaded) s with
      | .ok (doc, s1) =>
        (Response.withReport 200 "Report status updated successfully" s1 doc, s1)
      | .error _ => (Response.plain 500 "Failed to update report status", s)

/-- The block "Assign report" of `assignReport`. -/
def assignEdit (userId : Option Nat) (report : Report) : Report :=
  let r1 := { report with assignedTo := userId }
  if r1.status = "pending" then { r1 with status := "in_progress" } else r1

/-- The handler `assignReport` once the ids of the request have been cast. -/
def assignReport (now : Nat) (reportId : Nat) (userId : Option Nat) (s : Store) :
    Response × Store :=
  match s.findUser userId with
  | none => (Response.plain 404 "User not found", s)
  | some _ =>
    match s.findReport reportId with
    | none => (Response.plain 404 "Report not found", s)
    | some loaded =>
      match save now (some loaded) (assignEdit userId loaded) s with
      | .ok (doc, s1) => (Response.withReport 200 "Report assigned successfully" s1 doc, s1)
      | .error _ => (Response.plain 500 "Failed to assign report", s)

/-- The test `if (category)` on a string of the request: the value when it is truthy. -/
def given (v : Option String) : Option String :=
  match v with
  | some x => if x = "" then none else some x
  | none => none

/-- The request of `PUT /admin/reports/:id/status`: the id of the path and the
fields of the body, as the strings they are. -/
structure StatusRequest where
  id : String
  status : Option String
  adminNotes : Option String
  assignedTo : Option String
  deriving DecidableEq, Repr

/-- The handler `updateReportStatus` on the strings of the request. After the
test of the status, `findById` casts the id of the path and throws when it is no
ObjectId; a truthy `assignedTo` that is no ObjectId is refused when the document
is saved. Whatever is thrown is answered 500 by the `catch`. -/
def updateReportStatusRoute (ids : ObjectIds) (now : Nat) (req : StatusRequest) (s : Store) :
    Response × Store :=
  if !includes statuses req.status then
    (Response.plain 400 "Invalid status value", s)
  else
    match ids.cast req.id with
    | none => (Response.plain 500 "Failed to update report status", s)
    | some id =>
      match given req.assignedTo with
      | none => updateReportStatus now id ⟨req.status, req.adminNotes, none⟩ s
      | some a =>
        match ids.cast a with
        | some u => updateReportStatus now id ⟨req.status, req.adminNotes, some u⟩ s
        | none =>
          match s.findReport id with
          | none => (Response.plain 404 "Report not found", s)
          | some _ => (Response.plain 500 "Failed to update report status", s)

/-- The handler `assignReport` on the strings of the request: `reportId` is the
id of the path and `userId` the field of the body. `User.findById` finds nothing
for a missing id and throws for a string that is no ObjectId, and so does
`Report.findById`. -/
def assignReportRoute (ids : ObjectIds) (now : Nat) (reportId : String) (userId : Option String)
    (s : Store) : Response × Store :=
  match userId with
  | none => (Response.plain 404 "User not found", s)
  | some x =>
    match ids.cast x with
    | none => (Response.plain 500 "Failed to assign report", s)
    | some u =>
      match s.findUser (some u) with
      | none => (Response.plain 404 "User not found", s)
      | some _ =>
        match ids.cast reportId with
        | none => (Response.plain 500 "Failed to assign report", s)
        | some id => assignReport now id (some u) s

/-! ## Sequences of calls -/

/-- A call of one of the three handlers that write reports. -/
inductive Op where
  | create (now : Nat) (req : CreateRequest)
  | updateStatus (now : Nat) (id : Nat) (body : StatusBody)
  | assign (now : Nat) (reportId : Nat) (userId : Option Nat)
  deriving DecidableEq, Repr

/-- The answer to a call and the store after it. -/
def step (lib : Lib) (s : Store) : Op → Response × Store
  | .create now req => createReport lib now req s
  | .updateStatus now id body => updateReportStatus now id body s
  | .assign now reportId userId => assignReport now reportId userId s

/-- The ids of the reports whose status a call sets to `resolved`: the report
a successful `updateReportStatus` with status `resolved` addresses, and a report
created with that status. -/
def setsResolved (lib : Lib) (s : Store) : Op → List Nat
  | .create now req =>
    match (createReport lib now req s).1.report with
    | some doc => if doc.status = "resolved" then [doc.id] else []
    | none => []
  | .updateStatus now id body =>
    if (updateReportStatus now id body s).1.code = 200 ∧ body.status = some "resolved"
    then [id] else []
  | .assign _ _ _ => []

/-- The store after a sequence of calls. -/
def run (lib : Lib) : Store → List Op → Store
  | s, [] => s
  | s, op :: ops => run lib (step lib s op).2 ops

/-- The ids of the reports whose status has been set to `resolved` at least
once in the course of a sequence of calls. -/
def resolvedOnce (lib : Lib) : Store → List Op → List Nat
  | _, [] => []
  | s, op :: ops => setsResolved lib s op ++ resolvedOnce lib (step lib s op).2 ops

/-- A store without reports. -/
def Store.empty (users : List User) : Store := ⟨[], users⟩

/-- A call that is not a creation whose body carries a `resolvedAt` or the
status `resolved`. -/
def Op.createsUnresolved : Op → Bool
  | .create _ req => req.body.resolvedAt.isNone && req.body.status ≠ some "resolved"
  | _ => true

/-- The property of a store and of the ids resolved so far that the calls
preserve: ids are unique, every resolved id is stored, and a stored report has a
`resolvedAt` exactly when its id is among the resolved ones. -/
def ResolvedInv (s : Store) (g : List Nat) : Prop :=
  (s.reports.map (fun r => r.id)).Nodup
  ∧ (∀ i ∈ g, i ∈ s.reports.map (fun r => r.id))
  ∧ (∀ i r, s.findReport i = some r → (r.resolvedAt.isSome = true ↔ i ∈ g))

/-- A call that writes no `assignedTo` without looking the user up: a creation or
a status update whose body carries no `assignedTo`, or an assignment. -/
def Op.assignsChecked : Op → Bool
  | .create _ req => req.body.assignedTo.isNone
  | .updateStatus _ _ body => body.assignedTo.isNone
  | .assign _ _ _ => true

/-! ## Listing and search (`controllers/reportController.js`) -/

/-- A scalar of a JSON answer. -/
inductive Val where
  | num (n : Nat)
  | bool (b : Bool)
  | str (s : String)
  | null
  deriving DecidableEq, Repr

/-- The value of a document at a path, as the sort of the data layer compares
it; `empty` is the empty array, which stands before a missing value. -/
inductive SortVal where
  | empty
  | null
  | num (n : Int)
  | str (s : String)
  | oid (n : Nat)
  | date (t : Nat)
  deriving DecidableEq, Repr

/-- The place of a type in the comparison order of the data layer. -/
def SortVal.rank : SortVal → Nat
  | .empty => 0
  | .null => 1
  | .num _ => 2
  | .str _ => 3
  | .oid _ => 4
  | .date _ => 5

/-- The comparison order of the data layer: by type first, then by value;
strings by the lists of their characters, which is the order of their UTF-8
encodings (the binary comparison of the data layer). -/
def SortVal.le : SortVal → SortVal → Bool
  | .num a, .num b => a ≤ b
  | .str a, .str b => a.data ≤ b.data
  | .oid a, .oid b => a ≤ b
  | .date a, .date b => a ≤ b
  | a, b => a.rank ≤ b.rank

/-- A value that may be missing, as a sort key. -/
def SortVal.ofOption {α : Type} (f : α → SortVal) : Option α → SortVal
  | some x => f x
  | none => .null

/-- The sort key of an array of strings: its smallest element in an ascending
sort (`dir` = 1) and its largest in a descending one. -/
def arrayKey (dir : Int) : List String → SortVal
  | [] => .empty
  | x :: xs =>
    if dir = 1 then .str (xs.foldl (fun m y => if y.data < m.data then y else m) x)
    else .str (xs.foldl (fun m y => if m.data < y.data then y else m) x)

/-- The sort key of a report at a path of the schema. A path that no report has
gives every report the key `null`; so do, outside the model, the paths whose
value is an embedded document or an array of documents (`location`,
`location.coordinates`, `reportedBy`, `votes`, `images` and the paths within
`images`), which the data layer compares field by field. -/
def sortKey (path : String) (dir : Int) (r : Report) : SortVal :=
  if path = "_id" then .oid r.id
  else if path = "title" then .str r.title
  else if path = "description" then .str r.description
  else if path = "category" then .str r.category
  else if path = "issueType" then .str r.issueType
  else if path = "status" then .str r.status
  else if path = "location.address" then .str r.address
  else if path = "location.coordinates.latitude" then SortVal.ofOption .num r.latitude
  else if path = "location.coordinates.longitude" then SortVal.ofOption .num r.longitude
  else if path = "reportedBy.name" then .str r.reporterName
  else if path = "reportedBy.email" then .str r.reporterEmail
  else if path = "reportedBy.phone" then SortVal.ofOption .str r.reporterPhone
  else if path = "assignedTo" then SortVal.ofOption .oid r.assignedTo
  else if path = "adminNotes" then SortVal.ofOption .str r.adminNotes
  else if path = "resolvedAt" then SortVal.ofOption .date r.resolvedAt
  else if path = "priority" then .num r.priority
  else if path = "tags" then arrayKey dir r.tags
  else if path = "votes.upvotes" then .num r.upvotes
  else if path = "votes.downvotes" then .num r.downvotes
  else if path = "createdAt" then .date r.createdAt
  else if path = "updatedAt" then .date r.updatedAt
  else .null

/-- Whether `a` may stand before `b` in a list sorted by `path` in direction
`dir` (1 ascending, -1 descending). -/
def sortBefore (path : String) (dir : Int) (a b : Report) : Bool :=
  if dir = 1 then (sortKey path dir a).le (sortKey path dir b)
  else (sortKey path dir b).le (sortKey path dir a)

/-- The filter object of a query: equality conditions, and the pattern of a search. -/
structure Filter where
  category : Option String
  status : Option String
  issueType : Option String
  text : Option (String → Bool)

/-- Whether a report satisfies a filter: every condition that is present holds,
and the pattern, if there is one, matches the title, the description or the address. -/
def Filter.test (f : Filter) (r : Report) : Bool :=
  (match f.text with
   | some m => m r.title || m r.description || m r.address
   | none => true)
  && (match f.category with
      | some c => r.category = c
      | none => true)
  && (match f.status with
      | some c => r.status = c
      | none => true)
  && (match f.issueType with
      | some c => r.issueType = c
      | none => true)

/-- `Report.find(filter).sort(sort)`: the matching reports in sorted order. -/
def findSorted (f : Filter) (path : String) (dir : Int) (s : Store) : List Report :=
  (s.reports.filter f.test).insertionSort (fun a b => sortBefore path dir a b = true)

/-- `.skip(skip).limit(limit)`; a limit of 0 is no limit. -/
def skipLimit (skip limit : Nat) (l : List Report) : List Report :=
  if limit = 0 then l.drop skip else (l.drop skip).take limit

/-- `Report.countDocuments(filter)`. -/
def countDocuments (f : Filter) (s : Store) : Nat := (s.reports.filter f.test).length

/-- The number `Math.ceil(total / limit)` as it is serialised: division by zero
gives `Infinity` or `NaN`, both written `null`. -/
def ceilDiv (total limit : Nat) : Val :=
  if limit = 0 then .null else .num ((total + limit - 1) / limit)

/-- The comparison `page < totalPages`: `Infinity` (a positive total over a zero
limit) is above every page, and `NaN` compares false. -/
def pageBelow (page total limit : Nat) : Bool :=
  if limit = 0 then decide (0 < total) else decide (page < (total + limit - 1) / limit)

/-- The answer of a listing handler: the reports with `assignedTo` populated,
the scalar fields of `data` and the object `pagination`. -/
structure ListResponse where
  code : Nat
  success : Bool
  message : Option String
  reports : List (Report × Option Assignee)
  data : List (String × Val)
  pagination : List (String × Val)
  deriving DecidableEq, Repr

/-- A failure answer of a listing handler. -/
def ListResponse.fail (code : Nat) (message : String) : ListResponse :=
  ⟨code, false, some message, [], [], []⟩

/-- The query of `GET /reports`. -/
structure ListQuery where
  page : Option Nat
  limit : Option Nat
  category : Option String
  status : Option String
  issueType : Option String
  sortBy : Option String
  sortOrder : Option String
  deriving DecidableEq, Repr

/-- The filter object that `getReports` builds. -/
def ListQuery.filter (q : ListQuery) : Filter :=
  ⟨given q.category, given q.status, given q.issueType, none⟩

/-- The sort path of `getReports`: `sortBy`, by default `createdAt`. -/
def ListQuery.sortPath (q : ListQuery) : String := q.sortBy.getD "createdAt"

/-- The sort direction of `getReports`: 1 for `asc`, -1 for everything else. -/
def ListQuery.dir (q : ListQuery) : Int := if q.sortOrder.getD "desc" = "asc" then 1 else -1

/-- The handler `getReports`. A negative `skip` (page 0 with a positive limit) is
refused by the data layer, and the handler answers 500. -/
def getReports (q : ListQuery) (s : Store) : ListResponse :=
  let page := q.page.getD 1
  let limit := q.limit.getD 10
  if page = 0 ∧ 0 < limit then ListResponse.fail 500 "Failed to fetch reports"
  else
    let skip := (page - 1) * limit
    let reports := skipLimit skip limit (findSorted q.filter q.sortPath q.dir s)
    let totalReports := countDocuments q.filter s
    let totalPages := ceilDiv totalReports limit
    { code := 200
      success := true
      message := none
      reports := reports.map (fun r => (r, populate s r))
      data := []
      pagination :=
        [("currentPage", .num page), ("totalPages", totalPages),
         ("totalReports", .num totalReports),
         ("hasNextPage", .bool (pageBelow page totalReports limit)),
         ("hasPrevPage", .bool (decide (page > 1)))] }

/-- The regular-expression engine of the data layer: the matcher of a pattern
under the option `i`, or `none` when the pattern is not a regular expression. -/
structure Engine where
  regex : String → Option (String → Bool)

/-- The query of `GET /reports/search`. -/
structure SearchQuery where
  q : Option String
  category : Option String
  status : Option String
  page : Option Nat
  limit : Option Nat
  deriving DecidableEq, Repr

/-- The filter object that `searchReports` builds around the matcher of `q`. -/
def SearchQuery.filter (query : SearchQuery) (m : String → Bool) : Filter :=
  ⟨given query.category, given query.status, none, some m⟩

/-- The handler `searchReports`. -/
def searchReports (eng : Engine) (query : SearchQuery) (s : Store) : ListResponse :=
  match given query.q with
  | none => ListResponse.fail 400 "Search query is required"
  | some q =>
    let page := query.page.getD 1
    let limit := query.limit.getD 10
    match eng.regex q with
    | none => ListResponse.fail 500 "Search failed"
    | some m =>
      if page = 0 ∧ 0 < limit then ListResponse.fail 500 "Search failed"
      else
        let skip := (page - 1) * limit
        let reports := skipLimit skip limit (findSorted (query.filter m) "createdAt" (-1) s)
        let totalResults := countDocuments (query.filter m) s
        { code := 200
          success := true
          message := none
          reports := reports.map (fun r => (r, populate s r))
          data := [("query", .str q), ("totalResults", .num totalResults)]
          pagination :=
            [("currentPage", .num page), ("totalPages", ceilDiv totalResults limit)] }

/-- Lower case, letter by letter. -/
def lower (s : String) : List Char := s.data.map Char.toLower

/-- Whether `q` occurs in `subject`, letters compared without regard to case. -/
def containsCI (q subject : String) : Bool :=
  (lower subject).tails.any (fun t => (lower q).isPrefixOf t)

/-- The characters that have a meaning of their own in a regular expression:
backslash, caret, dollar, dot, bar, question mark, star, plus, and the three
kinds of brackets. -/
def metaChars : List Char :=
  [92, 94, 36, 46, 124, 63, 42, 43, 40, 41, 91, 93, 123, 125].map Char.ofNat

/-- A pattern without such characters. -/
def isPlain (q : String) : Bool := q.data.all (fun c => !metaChars.contains c)

/-- An engine reads a plain pattern as the text it is: it matches the subjects
in which the text occurs, without regard to case. -/
def Engine.Literal (eng : Engine) : Prop :=
  ∀ q, isPlain q = true → ∃ m, eng.regex q = some m ∧ ∀ subject, m subject = containsCI q subject

/-! ## User administration (`controllers/adminController.js`) -/

/-- The answer of `updateUserStatus`. -/
structure UserResponse where
  code : Nat
  success : Bool
  message : String
  user : Option User
  deriving DecidableEq, Repr

/-- The write of an existing user: the first document with the id is replaced. -/
def replaceUser (u : User) : List User → List User
  | [] => []
  | x :: xs => if x.id = u.id then u :: xs else x :: replaceUser u xs

/-- Modelled from the spec: the `User` model (`models/User.js`) is not among the
sources; a user has an id, a name, an e-mail address, a role and an active flag,
and `user.save()` writes the document. -/
def saveUser (u : User) (s : Store) : Store := { s with users := replaceUser u s.users }

/-- The handler `updateUserStatus`. `requester` is `req.user`, `userId` the id
string of the path, and `isActive` the body field when it is a boolean and
`none` otherwise. The user is looked up with the cast of `userId`; the guard
compares the string `userId` itself with `req.user._id.toString()`. -/
def updateUserStatus (ids : ObjectIds) (requester : User) (userId : String)
    (isActive : Option Bool) (s : Store) : UserResponse × Store :=
  match isActive with
  | none => (⟨400, false, "isActive must be a boolean value", none⟩, s)
  | some v =>
    match ids.cast userId with
    | none => (⟨500, false, "Failed to update user status", none⟩, s)
    | some id =>
      match s.findUser (some id) with
      | none => (⟨404, false, "User not found", none⟩, s)
      | some user =>
        if userId = ids.toString requester.id ∧ v = false then
          (⟨400, false, "Cannot deactivate your own account", none⟩, s)
        else
          let user1 := { user with isActive := v }
          (⟨200, true,
            if v then "User activated successfully" else "User deactivated successfully",
            some user1⟩, saveUser user1 s)

/-! ## Access guards (`middleware/admin.js`) -/

/-- The object `req.user`: `id` is the string `_id.toString()`. -/
structure AuthUser where
  id : String
  role : String
  deriving DecidableEq, Repr

/-- What a middleware does: it calls `next`, or it answers with a status and a message. -/
inductive Guard where
  | next
  | refuse (code : Nat) (message : String)
  deriving DecidableEq, Repr

/-- The middleware `requireAdmin`. -/
def requireAdmin (user : Option AuthUser) : Guard :=
  match user with
  | none => .refuse 401 "Authentication required"
  | some u => if u.role ≠ "admin" then .refuse 403 "Admin access required" else .next

/-- The operator `a || b` on two strings that may be missing. -/
def orElse (a b : Option String) : Option String :=
  match a with
  | some x => if x = "" then b else some x
  | none => b

/-- The middleware `requireAdminOrSelf`; the arguments after the user are
`req.params.userId` and `req.params.id`. -/
def requireAdminOrSelf (user : Option AuthUser) (paramUserId paramId : Option String) : Guard :=
  match user with
  | none => .refuse 401 "Authentication required"
  | some u =>
    let userId := orElse paramUserId paramId
    if u.role = "admin" ∨ some u.id = userId then .next else .refuse 403 "Access denied"

/-! ## Aggregations (`controllers/reportController.js`, `controllers/adminController.js`) -/

/-- The values of a list without repetition, in the order of their first occurrence. -/
def firstKeys {α : Type} [DecidableEq α] (ks : List α) : List α := ks.reverse.dedup.reverse

/-- The stage `$group` with the key `key`: the keys that occur, in the order of
their first occurrence, each with its reports. -/
def groupBy {α : Type} [DecidableEq α] (key : Report → α) (l : List Report) :
    List (α × List Report) :=
  (firstKeys (l.map key)).map (fun k => (k, l.filter (fun r => key r = k)))

/-- The accumulator `$sum: { $cond: [{ $eq: ['$status', st] }, 1, 0] }`. -/
def countStatus (st : String) (l : List Report) : Nat := l.countP (fun r => r.status = st)

/-- The object `overview` of `getReportsStats`. -/
structure Overview where
  total : Nat
  pending : Nat
  inProgress : Nat
  resolved : Nat
  rejected : Nat
  deriving DecidableEq, Repr

/-- An entry of `categoryBreakdown`. -/
structure CategoryCount where
  id : String
  count : Nat
  deriving DecidableEq, Repr

/-- The answer of `getReportsStats`. -/
structure StatsResponse where
  code : Nat
  success : Bool
  overview : Overview
  categoryBreakdown : List CategoryCount
  deriving DecidableEq, Repr

/-- The first aggregation of `getReportsStats`: one group for the whole
collection, and no group when the collection is empty. -/
def statsAggregate (l : List Report) : List Overview :=
  if l = [] then []
  else [⟨l.length, countStatus "pending" l, countStatus "in_progress" l,
    countStatus "resolved" l, countStatus "rejected" l⟩]

/-- The second aggregation of `getReportsStats`: the count per category, sorted
by `count` descending. -/
def categoryBreakdown (l : List Report) : List CategoryCount :=
  ((groupBy (fun r => r.category) l).map (fun g => (⟨g.1, g.2.length⟩ : CategoryCount))).insertionSort
    (fun a b => b.count ≤ a.count)

/-- The handler `getReportsStats`. -/
def getReportsStats (s : Store) : StatsResponse :=
  let stats := statsAggregate s.reports
  { code := 200
    success := true
    overview := (stats.head?).getD ⟨0, 0, 0, 0, 0⟩
    categoryBreakdown := categoryBreakdown s.reports }

/-- One day in milliseconds: `1000 * 60 * 60 * 24`. -/
def dayMs : Nat := 1000 * 60 * 60 * 24

/-- The reports that the average of `getDashboardStats` matches: status
`resolved`, and a `resolvedAt` that exists. -/
def resolvedMatch (l : List Report) : List Report :=
  l.filter (fun r => r.status = "resolved" && r.resolvedAt.isSome)

/-- The expression `$subtract: ['$resolvedAt', '$createdAt']` in milliseconds. -/
def resolutionMs (r : Report) : Int := ((r.resolvedAt.getD 0 : Nat) : Int) - (r.createdAt : Int)

/-- The aggregation for the average: the group `avgTime` of the matched reports,
the mean of their resolution times in days; no group when nothing matches. -/
def avgAggregate (l : List Report) : List ℚ :=
  if resolvedMatch l = [] then []
  else [((resolvedMatch l).map (fun r => (resolutionMs r : ℚ) / (dayMs : ℚ))).sum
    / ((resolvedMatch l).length : ℚ)]

/-- An entry of `categoryStats`. -/
structure CategoryStat where
  id : String
  count : Nat
  pending : Nat
  resolved : Nat
  deriving DecidableEq, Repr

/-- The aggregation `categoryStats` of `getDashboardStats`, sorted by `count` descending. -/
def categoryStats (l : List Report) : List CategoryStat :=
  ((groupBy (fun r => r.category) l).map
      (fun g => (⟨g.1, g.2.length, countStatus "pending" g.2, countStatus "resolved" g.2⟩ :
        CategoryStat))).insertionSort
    (fun a b => b.count ≤ a.count)

/-- The data of the answer of `getDashboardStats`. -/
structure Dashboard where
  totalReports : Nat
  pendingReports : Nat
  resolvedToday : Nat
  avgResolutionTime : ℚ
  activeUsers : Nat
  categoryStats : List CategoryStat
  recentReports : List (Report × Option Assignee)
  deriving DecidableEq, Repr

/-- The handler `getDashboardStats`; `startOfToday` is the local midnight that
the handler computes from the clock. -/
def getDashboardStats (startOfToday : Nat) (s : Store) : Dashboard :=
  let avgResolutionTime := avgAggregate s.reports
  { totalReports := s.reports.length
    pendingReports := countStatus "pending" s.reports
    resolvedToday := s.reports.countP (fun r => r.status = "resolved" &&
      (match r.resolvedAt with
       | some t => decide (startOfToday ≤ t)
       | none => false))
    avgResolutionTime := (avgResolutionTime.head?).getD 0
    activeUsers := s.users.countP (fun u => u.isActive)
    categoryStats := categoryStats s.reports
    recentReports := ((findSorted ⟨none, none, none, none⟩ "createdAt" (-1) s).take 5).map
      (fun r => (r, populate s r)) }

/-- The start date of `getReportsAnalytics`: the call time less the duration of
the time frame, seven days when the time frame is missing or unknown. -/
def startDate (now : Nat) (timeframe : Option String) : Int :=
  match timeframe.getD "7d" with
  | "24h" => (now : Int) - 24 * 60 * 60 * 1000
  | "7d" => (now : Int) - 7 * 24 * 60 * 60 * 1000
  | "30d" => (now : Int) - 30 * 24 * 60 * 60 * 1000
  | "90d" => (now : Int) - 90 * 24 * 60 * 60 * 1000
  | _ => (now : Int) - 7 * 24 * 60 * 60 * 1000

/-- The UTC day of a date, as the index of the day since the epoch. -/
def utcDay (t : Nat) : Nat := t / dayMs

/-- The stage `$match: { createdAt: { $gte: startDate } }`. -/
def createdSince (start : Int) (l : List Report) : List Report :=
  l.filter (fun r => decide (start ≤ (r.createdAt : Int)))

/-- An entry of `trendData`. -/
structure TrendEntry where
  date : Nat
  total : Nat
  resolved : Nat
  deriving DecidableEq, Repr

/-- An entry of `statusDistribution`. -/
structure StatusCount where
  id : String
  count : Nat
  deriving DecidableEq, Repr

/-- The aggregation `trendData`: the reports since the start date, grouped by
day, sorted by the day ascending. -/
def trendData (start : Int) (l : List Report) : List TrendEntry :=
  ((groupBy (fun r => utcDay r.createdAt) (createdSince start l)).map
      (fun g => (⟨g.1, g.2.length, countStatus "resolved" g.2⟩ : TrendEntry))).insertionSort
    (fun a b => a.date ≤ b.date)

/-- The aggregation `statusDistribution`: the reports since the start date,
counted by status. -/
def statusDistribution (start : Int) (l : List Report) : List StatusCount :=
  (groupBy (fun r => r.status) (createdSince start l)).map
    (fun g => (⟨g.1, g.2.length⟩ : StatusCount))

/-- The data of the answer of `getReportsAnalytics`. -/
structure Analytics where
  timeframe : String
  trendData : List TrendEntry
  statusDistribution : List StatusCount
  deriving DecidableEq, Repr

/-- The handler `getReportsAnalytics`. -/
def getReportsAnalytics (now : Nat) (timeframe : Option String) (s : Store) : Analytics :=
  { timeframe := timeframe.getD "7d"
    trendData := trendData (startDate now timeframe) s.reports
    statusDistribution := statusDistribution (startDate now timeframe) s.reports }

/-! ## Tokens (`utils/jwt.js`) -/

/-- The claims of a payload. -/
abbrev Payload := List (String × String)

/-- A signed token: payload, issuer, audience, expiry (seconds since the epoch)
and the secret it was signed with. -/
structure Token where
  payload : Payload
  issuer : String
  audience : String
  expiresAt : Nat
  secret : String
  deriving DecidableEq, Repr

/-- The environment: `JWT_SECRET`, and `JWT_EXPIRE` in seconds when it is set.
The secret is configured: with a missing or empty secret `jwt.sign` throws
before any token exists, and no such environment is in the model. -/
structure Env where
  secret : String
  expire : Option Nat
  configured : secret ≠ ""

/-- The call `jwt.sign(payload, secret, { expiresIn, issuer, audience })` at time
`now`, for a secret that is not empty (`jwt.sign` throws on an empty one). -/
def sign (now : Nat) (payload : Payload) (secret : String) (_configured : secret ≠ "")
    (expiresIn : Nat) (issuer audience : String) : Token :=
  ⟨payload, issuer, audience, now + expiresIn, secret⟩

/-- The errors of `jwt.verify`. -/
inductive JwtError where
  | malformed
  | invalidSignature
  | expired
  | audienceInvalid
  | issuerInvalid
  deriving DecidableEq, Repr

/-- The call `jwt.verify(token, secret, { issuer, audience })` at time `now`. -/
def verify (now : Nat) (token : Option Token) (secret issuer audience : String) :
    Except JwtError Token :=
  match token with
  | none => .error .malformed
  | some t =>
    if t.secret ≠ secret then .error .invalidSignature
    else if t.expiresAt ≤ now then .error .expired
    else if t.audience ≠ audience then .error .audienceInvalid
    else if t.issuer ≠ issuer then .error .issuerInvalid
    else .ok t

/-- Seven days in seconds, the default `expiresIn` of an access token. -/
def sevenDays : Nat := 7 * 24 * 60 * 60

/-- Thirty days in seconds, the `expiresIn` of a refresh token. -/
def thirtyDays : Nat := 30 * 24 * 60 * 60

/-- The function `generateToken`. -/
def generateToken (env : Env) (now : Nat) (payload : Payload) : Token :=
  sign now payload env.secret env.configured (env.expire.getD sevenDays)
    "citylink-app" "citylink-users"

/-- The function `verifyToken`: every error of `jwt.verify` is caught and one
error is thrown in its place. -/
def verifyToken (env : Env) (now : Nat) (token : Option Token) : Except String Token :=
  match verify now token env.secret "citylink-app" "citylink-users" with
  | .ok t => .ok t
  | .error _ => .error "Invalid or expired token"

/-- The function `generateRefreshToken`. -/
def generateRefreshToken (env : Env) (now : Nat) (userId : String) : Token :=
  sign now [("userId", userId)] env.secret env.configured thirtyDays
    "citylink-app" "citylink-refresh"

/-- The function `verifyRefreshToken`. -/
def verifyRefreshToken (env : Env) (now : Nat) (token : Option Token) : Except String Token :=
  match verify now token env.secret "citylink-app" "citylink-refresh" with
  | .ok t => .ok t
  | .error _ => .error "Invalid or expired refresh token"

/-! ## Sample data -/

/-- The validation library as it answers on the sample address. -/
def sampleLib : Lib := ⟨fun e => e = "n@x.com", fun e => e⟩

/-- The minimal submission of the scenario: a pothole of medium urgency. -/
def minimalBody : ReportBody :=
  { title := some "T", description := some "D", category := some "pothole",
    issueType := some "medium", address := some "A", latitude := some 0, longitude := some 0,
    reporterName := some "N", reporterEmail := some "n@x.com", reporterPhone := none,
    status := none, priority := none, assignedTo := none, adminNotes := none,
    resolvedAt := none, images := [], tags := [], upvotes := none, downvotes := none }

/-- A stored report: pending, created at time 100. -/
def sampleReport : Report :=
  { id := 1, title := "T", description := "D", category := "pothole", issueType := "medium",
    status := "pending", address := "A", latitude := some 0, longitude := some 0, images := [],
    reporterName := "N", reporterEmail := "n@x.com", reporterPhone := none, assignedTo := none,
    adminNotes := none, resolvedAt := none, priority := 3, tags := [], upvotes := 0,
    downvotes := 0, createdAt := 100, updatedAt := 100 }

/-- A stored report of a high-priority category whose priority is not 5. -/
def leakReport : Report := { sampleReport with category := "water_leak", priority := 2 }

/-- A creation whose body carries a `resolvedAt`. -/
def createWithResolvedAt : Op :=
  .create 0 ⟨{ minimalBody with resolvedAt := some 5 }, []⟩

/-- A creation whose body carries the status `resolved`. -/
def createResolved : Op :=
  .create 0 ⟨{ minimalBody with status := some "resolved" }, []⟩

/-- An administrator. -/
def sampleUser : User := ⟨7, "Ada", "ada@x.com", "admin", true⟩

/-- A store with one report and one user. -/
def sampleStore : Store := ⟨[sampleReport], [sampleUser]⟩

/-- A creation whose body assigns the report to a user id that nobody has. -/
def createAssigned : Op :=
  .create 0 ⟨{ minimalBody with assignedTo := some 99 }, []⟩

/-- A status update whose body assigns the report to a user id that nobody has. -/
def updateAssigned : Op :=
  .updateStatus 5 1 ⟨some "in_progress", none, some 99⟩

/-- An administrator whose id has a letter among its hexadecimal digits. -/
def hexAdmin : User := ⟨10, "Eve", "eve@x.com", "admin", true⟩

/-- A second user, not an administrator. -/
def otherUser : User := ⟨8, "Bob", "bob@x.com", "citizen", true⟩

/-- An administrator as the guards see it. -/
def adminAuth : AuthUser := ⟨"507f1f77bcf86cd799439011", "admin"⟩

/-- A citizen as the guards see it. -/
def citizenAuth : AuthUser := ⟨"507f1f77bcf86cd799439012", "citizen"⟩

/-- An environment with a secret and no expiry of its own. -/
def sampleEnv : Env := ⟨"secret", none, by decide⟩

/-- A report with status `resolved`, created at `created` and resolved `days` days later. -/
def resolvedAfter (id created days : Nat) : Report :=
  { sampleReport with
    id := id, status := "resolved", createdAt := created,
    resolvedAt := some (created + days * dayMs) }

/-- A report is created, resolved one day later and set back to `pending` a day
after that. -/
def reopened : List Op :=
  [.create 0 ⟨minimalBody, []⟩, .updateStatus dayMs 1 ⟨some "resolved", none, none⟩,
   .updateStatus (2 * dayMs) 1 ⟨some "pending", none, none⟩]

/-- Three reports of two days: two of the first day, one of them resolved, and
one of the second day. -/
def trendStore : Store :=
  ⟨[{ sampleReport with id := 1, createdAt := 5 },
    { resolvedAfter 2 7 0 with category := "water_leak" },
    { sampleReport with id := 3, createdAt := dayMs + 1 }], []⟩

/-- An engine on the patterns used here: a plain pattern matches where its text
occurs, the pattern `.` matches every subject that has a character other than a
line feed; other patterns are refused. -/
def sampleEngine : Engine :=
  ⟨fun q =>
    if isPlain q then some (containsCI q)
    else if q = "." then some (fun subject => subject.data.any (fun c => c.toNat ≠ 10))
    else none⟩

/-- A store of `n` reports, created one after the other from time 100 on. -/
def storeOf (n : Nat) : Store :=
  ⟨(List.range n).map (fun i => { sampleReport with id := i + 1, createdAt := 100 + i }),
   [sampleUser]⟩

/-- A query with the given page and limit and nothing else. -/
def pageQuery (page limit : Nat) : ListQuery :=
  ⟨some page, some limit, none, none, none, none, none⟩

/-- Four reports: three potholes of priorities 3, 1 and 4, the second of them
resolved, and a water leak of priority 5; they differ in votes, tags and dates. -/
def mixedStore : Store :=
  ⟨[{ sampleReport with
        id := 1, priority := 3, upvotes := 2, tags := ["road", "hole"], createdAt := 100 },
    { sampleReport with
        id := 2, category := "water_leak", priority := 5, upvotes := 9, tags := ["water"],
        createdAt := 400 },
    { sampleReport with
        id := 3, priority := 1, status := "resolved", upvotes := 5, createdAt := 300 },
    { sampleReport with
        id := 4, priority := 4, upvotes := 0, tags := ["alley"], createdAt := 200 }],
   [sampleUser]⟩

/-- All reports, by descending votes. -/
def allByUpvotes : ListQuery :=
  ⟨none, none, none, none, none, some "votes.upvotes", none⟩

/-- All reports, by ascending tags. -/
def allByTags : ListQuery :=
  ⟨none, none, none, none, none, some "tags", some "asc"⟩

/-- The potholes, by ascending priority. -/
def potholesByPriority : ListQuery :=
  ⟨none, none, some "pothole", none, none, some "priority", some "asc"⟩

/-- A report is created, resolved three days later and rejected a day after that. -/
def withdrawn : List Op :=
  [.create 0 ⟨minimalBody, []⟩, .updateStatus (3 * dayMs) 1 ⟨some "resolved", none, none⟩,
   .updateStatus (4 * dayMs) 1 ⟨some "rejected", none, none⟩]

/-- Notes of 501 characters. -/
def longNotes : String := String.mk (List.replicate 501 (Char.ofNat 97))

/-- Notes of 300 characters outside the basic plane, of two UTF-16 units each. -/
def astralNotes : String := String.mk (List.replicate 300 (Char.ofNat 128512))

/-! ## Lemmas on the store -/

theorem findReport_id {s : Store} {id : Nat} {r : Report} (h : s.findReport id = some r) :
    r.id = id := by
  have := List.find?_some h
  simpa using this

theorem find_replaceReport_same (doc : Report) (l : List Report) (id : Nat) (old : Report)
    (h : l.find? (fun r => r.id = id) = some old) (hid : doc.id = id) :
    (replaceReport doc l).find? (fun r => r.id = id) = some doc := by
  induction l with
  | nil => simp at h
  | cons x xs ih =>
    simp only [replaceReport]
    by_cases hx : x.id = id
    · simp [hx, hid]
    · have hx2 : ¬ x.id = doc.id := by rw [hid]; exact hx
      simp only [hx2, if_false, List.find?_cons, hx, decide_False]
      apply ih
      simpa [List.find?_cons, hx] using h

theorem find_replaceReport_other (doc : Report) (l : List Report) (j : Nat) (hj : j ≠ doc.id) :
    (replaceReport doc l).find? (fun r => r.id = j) = l.find? (fun r => r.id = j) := by
  induction l with
  | nil => rfl
  | cons x xs ih =>
    simp only [replaceReport]
    by_cases hx : x.id = doc.id
    · have h1 : ¬ doc.id = j := fun h => hj h.symm
      have h2 : ¬ x.id = j := by rw [hx]; exact h1
      simp [hx, List.find?_cons, h1]
    · simp only [hx, if_false, List.find?_cons, ih]

theorem map_id_replaceReport (doc : Report) (l : List Report) :
    (replaceReport doc l).map (fun r => r.id) = l.map (fun r => r.id) := by
  induction l with
  | nil => rfl
  | cons x xs ih =>
    simp only [replaceReport]
    by_cases hx : x.id = doc.id
    · simp [hx]
    · simp [hx, ih]

theorem save_invalid (now : Nat) (loaded : Option Report) (r : Report) (s : Store)
    (hv : r.validate = false) : save now loaded r s = .error "Report validation failed" := by
  simp [save, hv]

/-- Saving a valid, loaded document: the stored document is the edited one up to
`updatedAt`, it is what `findById` returns afterwards, and nothing else changes. -/
theorem save_loaded (now : Nat) (old r : Report) (s : Store) (id : Nat)
    (hf : s.findReport id = some old) (hid : r.id = id) (hv : r.validate = true) :
    ∃ t s1, save now (some old) r s = .ok ({ r with updatedAt := t }, s1)
      ∧ s1.findReport id = some { r with updatedAt := t }
      ∧ s1.users = s.users
      ∧ (∀ j, j ≠ id → s1.findReport j = s.findReport j)
      ∧ s1.reports.map (fun x => x.id) = s.reports.map (fun x => x.id) := by
  by_cases heq : r = old
  · subst heq
    refine ⟨r.updatedAt, s, ?_, ?_, rfl, fun _ _ => rfl, rfl⟩
    · simp [save, hv, preSave]
    · exact hf
  · refine ⟨now, { s with reports := replaceReport { r with updatedAt := now } s.reports },
      ?_, ?_, rfl, ?_, ?_⟩
    · simp [save, hv, preSave, heq]
    · exact find_replaceReport_same _ _ _ _ hf hid
    · intro j hj
      exact find_replaceReport_other _ _ _ (by simpa [hid] using hj)
    · exact map_id_replaceReport _ _

/-! ## Lemmas on the handlers -/

theorem validate_edit (r : Report) (st : String) (a : Option Nat) (n : Option String)
    (t : Option Nat) (hv : r.validate = true) (hst : statuses.contains st = true)
    (hn : notesFit n = true) :
    ({ r with status := st, assignedTo := a, adminNotes := n, resolvedAt := t } :
      Report).validate = true := by
  simp only [Report.validate, Bool.and_eq_true] at hv ⊢
  obtain ⟨⟨⟨⟨⟨⟨⟨⟨⟨⟨⟨⟨h1, h2⟩, h3⟩, h4⟩, _⟩, h6⟩, h7⟩, h8⟩, h9⟩, h10⟩, h11⟩, _⟩, h13⟩ := hv
  exact ⟨⟨⟨⟨⟨⟨⟨⟨⟨⟨⟨⟨h1, h2⟩, h3⟩, h4⟩, hst⟩, h6⟩, h7⟩, h8⟩, h9⟩, h10⟩, h11⟩, hn⟩, h13⟩

theorem validate_status {r : Report} (hv : r.validate = true) :
    statuses.contains r.status = true := by
  simp only [Report.validate, Bool.and_eq_true] at hv
  exact hv.1.1.1.1.1.1.1.1.2

theorem validate_notes {r : Report} (hv : r.validate = true) : notesFit r.adminNotes = true := by
  simp only [Report.validate, Bool.and_eq_true] at hv
  exact hv.1.2

theorem includes_some {xs : List String} {v : Option String} (h : includes xs v = true) :
    ∃ st, v = some st ∧ xs.contains st = true := by
  cases v with
  | none => simp [includes] at h
  | some st => exact ⟨st, rfl, by simpa [includes] using h⟩

/-- The edit of `updateReportStatus` keeps a valid document valid when over-long
notes are not among the values it writes. -/
theorem statusEdit_validate (now : Nat) (body : StatusBody) (r : Report)
    (hv : r.validate = true) (hst : includes statuses body.status = true)
    (hn : notesFit body.adminNotes = true) : (statusEdit now body r).validate = true := by
  obtain ⟨st, hs, hc⟩ := includes_some hst
  have hr := validate_notes hv
  simp only [statusEdit, hs, fieldString, Option.getD_some]
  split_ifs
  all_goals first
    | exact validate_edit r st _ _ _ hv hc hn
    | exact validate_edit r st _ _ _ hv hc hr

theorem statusEdit_id (now : Nat) (body : StatusBody) (r : Report) :
    (statusEdit now body r).id = r.id := by
  simp only [statusEdit]
  split_ifs <;> rfl

theorem assignEdit_validate (userId : Option Nat) (r : Report) (hv : r.validate = true) :
    (assignEdit userId r).validate = true := by
  have hr := validate_notes hv
  simp only [assignEdit]
  split_ifs
  · exact validate_edit r "in_progress" _ _ _ hv (by decide) hr
  · exact validate_edit r r.status _ _ _ hv (validate_status hv) hr

theorem assignEdit_id (userId : Option Nat) (r : Report) : (assignEdit userId r).id = r.id := by
  simp only [assignEdit]
  split_ifs <;> rfl

/-- A call of `updateReportStatus` whose status is in the enumeration, whose
report exists and whose edited document passes validation: the answer is 200
and the edited document is stored. -/
theorem updateReportStatus_ok (now id : Nat) (body : StatusBody) (s : Store) (old : Report)
    (hst : includes statuses body.status = true) (hf : s.findReport id = some old)
    (hv : (statusEdit now body old).validate = true) :
    ∃ t s1, updateReportStatus now id body s =
        (Response.withReport 200 "Report status updated successfully" s1
          { statusEdit now body old with updatedAt := t }, s1)
      ∧ s1.findReport id = some { statusEdit now body old with updatedAt := t }
      ∧ s1.users = s.users
      ∧ (∀ j, j ≠ id → s1.findReport j = s.findReport j)
      ∧ s1.reports.map (fun x => x.id) = s.reports.map (fun x => x.id) := by
  have hid : (statusEdit now body old).id = id := by
    rw [statusEdit_id]; exact findReport_id hf
  obtain ⟨t, s1, hsave, h1, h2, h3, h4⟩ := save_loaded now old _ s id hf hid hv
  refine ⟨t, s1, ?_, h1, h2, h3, h4⟩
  simp [updateReportStatus, hst, hf, hsave]

/-- Every other outcome of `updateReportStatus` leaves the store as it was. -/
theorem updateReportStatus_fail (now id : Nat) (body : StatusBody) (s : Store)
    (h : (updateReportStatus now id body s).1.code ≠ 200) :
    (updateReportStatus now id body s).2 = s := by
  by_cases hst : includes statuses body.status = true
  · cases hf : s.findReport id with
    | none => simp [updateReportStatus, hst, hf]
    | some old =>
      cases hsave : save now (some old) (statusEdit now body old) s with
      | error e => simp [updateReportStatus, hst, hf, hsave]
      | ok p =>
        exfalso
        apply h
        simp [updateReportStatus, hst, hf, hsave, Response.withReport]
  · simp [updateReportStatus, hst]

/-- A 200 answer of `updateReportStatus` comes from the successful path. -/
theorem updateReportStatus_inv (now id : Nat) (body : StatusBody) (s : Store)
    (h : (updateReportStatus now id body s).1.code = 200) :
    includes statuses body.status = true ∧
    ∃ old, s.findReport id = some old ∧ (statusEdit now body old).validate = true := by
  by_cases hst : includes statuses body.status = true
  · refine ⟨hst, ?_⟩
    cases hf : s.findReport id with
    | none => simp [updateReportStatus, hst, hf, Response.plain] at h
    | some old =>
      refine ⟨old, rfl, ?_⟩
      by_contra hv
      have hv2 : (statusEdit now body old).validate = false := by simpa using hv
      simp [updateReportStatus, hst, hf, save_invalid _ _ _ _ hv2, Response.plain] at h
  · simp [updateReportStatus, hst, Response.plain] at h

/-- A call of `assignReport` for an existing user and an existing report whose
edited document passes validation: the answer is 200 and the edited document is
stored. -/
theorem assignReport_ok (now reportId : Nat) (userId : Option Nat) (s : Store) (u : User)
    (old : Report) (hu : s.findUser userId = some u) (hf : s.findReport reportId = some old)
    (hv : (assignEdit userId old).validate = true) :
    ∃ t s1, assignReport now reportId userId s =
        (Response.withReport 200 "Report assigned successfully" s1
          { assignEdit userId old with updatedAt := t }, s1)
      ∧ s1.findReport reportId = some { assignEdit userId old with updatedAt := t }
      ∧ s1.users = s.users
      ∧ (∀ j, j ≠ reportId → s1.findReport j = s.findReport j)
      ∧ s1.reports.map (fun x => x.id) = s.reports.map (fun x => x.id) := by
  have hid : (assignEdit userId old).id = reportId := by
    rw [assignEdit_id]; exact findReport_id hf
  obtain ⟨t, s1, hsave, h1, h2, h3, h4⟩ :=
    save_loaded now old _ s reportId hf hid hv
  refine ⟨t, s1, ?_, h1, h2, h3, h4⟩
  simp [assignReport, hu, hf, hsave]

/-- A 200 answer of `assignReport` comes from the successful path. -/
theorem assignReport_inv (now reportId : Nat) (userId : Option Nat) (s : Store)
    (h : (assignReport now reportId userId s).1.code = 200) :
    ∃ u old, s.findUser userId = some u ∧ s.findReport reportId = some old
      ∧ (assignEdit userId old).validate = true := by
  cases hu : s.findUser userId with
  | none => simp [assignReport, hu, Response.plain] at h
  | some u =>
    cases hf : s.findReport reportId with
    | none => simp [assignReport, hu, hf, Response.plain] at h
    | some old =>
      refine ⟨u, old, rfl, rfl, ?_⟩
      by_contra hv
      have hv2 : (assignEdit userId old).validate = false := by simpa using hv
      simp [assignReport, hu, hf, save_invalid _ _ _ _ hv2, Response.plain] at h

/-- Every outcome of `assignReport` other than 200 leaves the store as it was. -/
theorem assignReport_fail (now reportId : Nat) (userId : Option Nat) (s : Store)
    (h : (assignReport now reportId userId s).1.code ≠ 200) :
    (assignReport now reportId userId s).2 = s := by
  cases hu : s.findUser userId with
  | none => simp [assignReport, hu]
  | some u =>
    cases hf : s.findReport reportId with
    | none => simp [assignReport, hu, hf]
    | some old =>
      cases hsave : save now (some old) (assignEdit userId old) s with
      | error e => simp [assignReport, hu, hf, hsave]
      | ok p =>
        exfalso
        apply h
        simp [assignReport, hu, hf, hsave, Response.withReport]

/-! ### The fields written by the two edits -/

@[simp] theorem statusEdit_status (now : Nat) (body : StatusBody) (r : Report) :
    (statusEdit now body r).status = fieldString body.status := by
  simp only [statusEdit]
  split_ifs <;> rfl

@[simp] theorem statusEdit_resolvedAt (now : Nat) (body : StatusBody) (r : Report) :
    (statusEdit now body r).resolvedAt
      = if body.status = some "resolved" then some now else r.resolvedAt := by
  simp only [statusEdit]
  split_ifs <;> rfl

@[simp] theorem statusEdit_adminNotes (now : Nat) (body : StatusBody) (r : Report) :
    (statusEdit now body r).adminNotes
      = if truthy body.adminNotes = true then body.adminNotes else r.adminNotes := by
  simp only [statusEdit]
  split_ifs <;> rfl

@[simp] theorem statusEdit_assignedTo (now : Nat) (body : StatusBody) (r : Report) :
    (statusEdit now body r).assignedTo
      = if body.assignedTo.isSome = true then body.assignedTo else r.assignedTo := by
  simp only [statusEdit]
  split_ifs <;> rfl

@[simp] theorem statusEdit_priority (now : Nat) (body : StatusBody) (r : Report) :
    (statusEdit now body r).priority = r.priority := by
  simp only [statusEdit]
  split_ifs <;> rfl

@[simp] theorem statusEdit_createdAt (now : Nat) (body : StatusBody) (r : Report) :
    (statusEdit now body r).createdAt = r.createdAt := by
  simp only [statusEdit]
  split_ifs <;> rfl

@[simp] theorem assignEdit_status (userId : Option Nat) (r : Report) :
    (assignEdit userId r).status = if r.status = "pending" then "in_progress" else r.status := by
  simp only [assignEdit]
  split_ifs <;> rfl

@[simp] theorem assignEdit_assignedTo (userId : Option Nat) (r : Report) :
    (assignEdit userId r).assignedTo = userId := by
  simp only [assignEdit]
  split_ifs <;> rfl

@[simp] theorem assignEdit_resolvedAt (userId : Option Nat) (r : Report) :
    (assignEdit userId r).resolvedAt = r.resolvedAt := by
  simp only [assignEdit]
  split_ifs <;> rfl

@[simp] theorem assignEdit_priority (userId : Option Nat) (r : Report) :
    (assignEdit userId r).priority = r.priority := by
  simp only [assignEdit]
  split_ifs <;> rfl

/-- The test `includes` on the status enumeration, value by value. -/
theorem includes_statuses (v : Option String) :
    includes statuses v = true ↔
      v = some "pending" ∨ v = some "in_progress" ∨ v = some "resolved" ∨ v = some "rejected" := by
  cases v with
  | none => simp [includes]
  | some st => simp [includes, statuses]

/-! ## The claims on `assignReport` and `updateReportStatus` -/

/-- C1: for an existing user and an existing (schema-valid) report, `assignReport`
answers 200 and stores a report whose status is `in_progress` when the status
before the call was `pending`, and whose status is the status before the call
when that was anything else (`in_progress`, `resolved` or `rejected`). -/
theorem assignReport_status (now reportId : Nat) (userId : Option Nat) (s : Store) (u : User)
    (r : Report) (hu : s.findUser userId = some u) (hr : s.findReport reportId = some r)
    (hv : r.validate = true) :
    (assignReport now reportId userId s).1.code = 200 ∧
    ∃ r1, (assignReport now reportId userId s).2.findReport reportId = some r1 ∧
      (r.status = "pending" → r1.status = "in_progress") ∧
      (r.status = "in_progress" ∨ r.status = "resolved" ∨ r.status = "rejected" →
        r1.status = r.status) ∧
      (r.status ≠ "pending" → r1.status = r.status) := by
  obtain ⟨t, s1, heq, hfind, -, -, -⟩ :=
    assignReport_ok now reportId userId s u r hu hr (assignEdit_validate userId r hv)
  rw [heq]
  refine ⟨rfl, _, hfind, ?_, ?_, ?_⟩
  · intro h
    simp [h]
  · intro h
    have hne : r.status ≠ "pending" := by
      rcases h with h | h | h <;> rw [h] <;> decide
    simp [hne]
  · intro hne
    simp [hne]

theorem assignReport_status_witness :
    sampleStore.findUser (some 7) = some sampleUser
    ∧ sampleStore.findReport 1 = some sampleReport
    ∧ sampleReport.validate = true
    ∧ (assignReport 200 1 (some 7) sampleStore).1.code = 200
    ∧ ∃ r1, (assignReport 200 1 (some 7) sampleStore).2.findReport 1 = some r1 ∧
      (sampleReport.status = "pending" → r1.status = "in_progress") ∧
      (sampleReport.status = "in_progress" ∨ sampleReport.status = "resolved"
        ∨ sampleReport.status = "rejected" → r1.status = sampleReport.status) ∧
      (sampleReport.status ≠ "pending" → r1.status = sampleReport.status) :=
  ⟨by decide, by decide, by decide,
    assignReport_status 200 1 (some 7) sampleStore sampleUser sampleReport
      (by decide) (by decide) (by decide)⟩

/-- C2: after a successful `updateReportStatus` the stored `resolvedAt` is the
call time when the new status is `resolved` (whatever it was before) and is the
value before the call for every other status; if the call time is not before
`createdAt` the stored `resolvedAt` is then at least the stored `createdAt`; and
a second successful resolve at time `later` stores `later`. -/
theorem updateReportStatus_resolvedAt (now id : Nat) (body : StatusBody) (s : Store)
    (r : Report) (hr : s.findReport id = some r)
    (hok : (updateReportStatus now id body s).1.code = 200) :
    ∃ r1, (updateReportStatus now id body s).2.findReport id = some r1 ∧
      (body.status = some "resolved" → r1.resolvedAt = some now) ∧
      (body.status ≠ some "resolved" → r1.resolvedAt = r.resolvedAt) ∧
      (body.status = some "resolved" → r.createdAt ≤ now →
        ∃ t, r1.resolvedAt = some t ∧ r1.createdAt ≤ t) ∧
      (∀ later body2, body2.status = some "resolved" →
        (updateReportStatus later id body2 (updateReportStatus now id body s).2).1.code = 200 →
        ∃ r2, (updateReportStatus later id body2
            (updateReportStatus now id body s).2).2.findReport id = some r2 ∧
          r2.resolvedAt = some later) := by
  obtain ⟨hst, old, hf, hv⟩ := updateReportStatus_inv now id body s hok
  obtain ⟨t, s1, heq, hfind, -, -, -⟩ := updateReportStatus_ok now id body s old hst hf hv
  have hold : old = r := by
    rw [hr] at hf
    exact (Option.some.inj hf).symm
  subst hold
  rw [heq]
  refine ⟨_, hfind, ?_, ?_, ?_, ?_⟩
  · intro h
    simp [h]
  · intro h
    simp [h]
  · intro h hle
    exact ⟨now, by simp [h], by simpa using hle⟩
  · intro later body2 h2 hok2
    obtain ⟨hst2, old2, hf2, hv2⟩ := updateReportStatus_inv later id body2 s1 hok2
    obtain ⟨t2, s2, heq2, hfind2, -, -, -⟩ :=
      updateReportStatus_ok later id body2 s1 old2 hst2 hf2 hv2
    rw [heq2]
    exact ⟨_, hfind2, by simp [h2]⟩

theorem updateReportStatus_resolvedAt_witness :
    sampleStore.findReport 1 = some sampleReport
    ∧ (updateReportStatus 500 1 ⟨some "resolved", none, none⟩ sampleStore).1.code = 200
    ∧ ∃ r1, (updateReportStatus 500 1 ⟨some "resolved", none, none⟩ sampleStore).2.findReport 1
        = some r1 ∧
      r1.resolvedAt = some 500 :=
  ⟨by decide, by decide,
    (updateReportStatus_resolvedAt 500 1 ⟨some "resolved", none, none⟩ sampleStore sampleReport
      (by decide) (by decide)).imp (fun _ h => ⟨h.1, h.2.1 rfl⟩)⟩

/-- Once the id of the path has been cast, `updateReportStatus` answers 400
whenever the requested status is none of `pending`, `in_progress`, `resolved`,
`rejected` (a missing status included, and whether or not the report exists), and
answers 404 whenever the status is one of the four and no report has the id; in
both cases the store is left as it was. -/
theorem updateReportStatus_errors (now id : Nat) (body : StatusBody) (s : Store) :
    ((body.status ≠ some "pending" ∧ body.status ≠ some "in_progress"
        ∧ body.status ≠ some "resolved" ∧ body.status ≠ some "rejected") →
      (updateReportStatus now id body s).1.code = 400
        ∧ (updateReportStatus now id body s).2 = s) ∧
    ((body.status = some "pending" ∨ body.status = some "in_progress"
        ∨ body.status = some "resolved" ∨ body.status = some "rejected") →
      s.findReport id = none →
      (updateReportStatus now id body s).1.code = 404
        ∧ (updateReportStatus now id body s).2 = s) := by
  constructor
  · rintro ⟨h1, h2, h3, h4⟩
    have hst : includes statuses body.status = false := by
      rw [Bool.eq_false_iff, ne_eq, includes_statuses]
      tauto
    simp [updateReportStatus, hst, Response.plain]
  · intro h hf
    have hst : includes statuses body.status = true := (includes_statuses _).2 h
    simp [updateReportStatus, hst, hf, Response.plain]

theorem updateReportStatus_errors_witness :
    ((updateReportStatus 5 1 ⟨some "done", none, none⟩ sampleStore).1.code = 400
      ∧ (updateReportStatus 5 1 ⟨some "done", none, none⟩ sampleStore).2 = sampleStore)
    ∧ ((updateReportStatus 5 2 ⟨some "resolved", none, none⟩ sampleStore).1.code = 404
      ∧ (updateReportStatus 5 2 ⟨some "resolved", none, none⟩ sampleStore).2 = sampleStore) :=
  ⟨(updateReportStatus_errors 5 1 ⟨some "done", none, none⟩ sampleStore).1
      ⟨by decide, by decide, by decide, by decide⟩,
    (updateReportStatus_errors 5 2 ⟨some "resolved", none, none⟩ sampleStore).2
      (Or.inr (Or.inr (Or.inl rfl))) (by decide)⟩

/-- Once the ids of the request have been cast: for an existing (schema-valid)
report, whatever its current status, and a new status among the four values,
`updateReportStatus` answers 200 and the stored status is the new status when the
notes of the request, if any, fit the limit of 500 of the schema. -/
theorem updateReportStatus_any_transition (now id : Nat) (body : StatusBody) (s : Store)
    (r : Report) (st : String) (hr : s.findReport id = some r) (hv : r.validate = true)
    (hst : body.status = some st)
    (hmem : st = "pending" ∨ st = "in_progress" ∨ st = "resolved" ∨ st = "rejected")
    (hn : notesFit body.adminNotes = true) :
    (updateReportStatus now id body s).1.code = 200 ∧
    ∃ r1, (updateReportStatus now id body s).2.findReport id = some r1 ∧ r1.status = st := by
  have hinc : includes statuses body.status = true := by
    rw [includes_statuses, hst]
    simpa using hmem
  obtain ⟨t, s1, heq, hfind, -, -, -⟩ :=
    updateReportStatus_ok now id body s r hinc hr (statusEdit_validate now body r hv hinc hn)
  rw [heq]
  exact ⟨rfl, _, hfind, by simp [hst, fieldString]⟩

theorem updateReportStatus_any_transition_witness :
    sampleStore.findReport 1 = some sampleReport ∧ sampleReport.validate = true
    ∧ (updateReportStatus 5 1 ⟨some "rejected", none, none⟩ sampleStore).1.code = 200
    ∧ ∃ r1, (updateReportStatus 5 1 ⟨some "rejected", none, none⟩ sampleStore).2.findReport 1
        = some r1 ∧ r1.status = "rejected" :=
  ⟨by decide, by decide,
    updateReportStatus_any_transition 5 1 ⟨some "rejected", none, none⟩ sampleStore sampleReport
      "rejected" (by decide) (by decide) rfl (by decide) (by decide)⟩

/-- C6: after a successful `updateReportStatus`, `adminNotes` is the value before
the call when the body has no `adminNotes`, and `assignedTo` is the value before
the call when the body has no `assignedTo`; non-empty notes given in the body are
stored as given, and so is a given `assignedTo`. -/
theorem updateReportStatus_keeps_absent (now id : Nat) (body : StatusBody) (s : Store) (r : Report)
    (hr : s.findReport id = some r)
    (hok : (updateReportStatus now id body s).1.code = 200) :
    ∃ r1, (updateReportStatus now id body s).2.findReport id = some r1 ∧
      (body.adminNotes = none → r1.adminNotes = r.adminNotes) ∧
      (body.assignedTo = none → r1.assignedTo = r.assignedTo) ∧
      (∀ n, body.adminNotes = some n → n ≠ "" → r1.adminNotes = some n) ∧
      (∀ a, body.assignedTo = some a → r1.assignedTo = some a) := by
  obtain ⟨hst, old, hf, hv⟩ := updateReportStatus_inv now id body s hok
  obtain ⟨t, s1, heq, hfind, -, -, -⟩ := updateReportStatus_ok now id body s old hst hf hv
  have hold : old = r := by
    rw [hr] at hf
    exact (Option.some.inj hf).symm
  subst hold
  rw [heq]
  refine ⟨_, hfind, ?_, ?_, ?_, ?_⟩
  · intro h
    simp [h, truthy]
  · intro h
    simp [h]
  · intro n h hne
    simp [h, truthy, hne]
  · intro a h
    simp [h]

theorem updateReportStatus_keeps_absent_witness :
    sampleStore.findReport 1 = some sampleReport
    ∧ (updateReportStatus 5 1 ⟨some "rejected", some "dup", none⟩ sampleStore).1.code = 200
    ∧ ∃ r1, (updateReportStatus 5 1 ⟨some "rejected", some "dup", none⟩ sampleStore).2.findReport 1
        = some r1 ∧ r1.assignedTo = sampleReport.assignedTo ∧ r1.adminNotes = some "dup" :=
  ⟨by decide, by decide,
    (updateReportStatus_keeps_absent 5 1 ⟨some "rejected", some "dup", none⟩ sampleStore sampleReport
      (by decide) (by decide)).imp
      (fun _ h => ⟨h.1, h.2.2.1 rfl, h.2.2.2.1 "dup" rfl (by decide)⟩)⟩

/-! ## Lemmas on `createReport` -/

theorem check_nil (ok : Bool) (path msg : String) : check ok path msg = [] ↔ ok = true := by
  cases ok <;> simp [check]

@[simp] theorem reportData_category (lib : Lib) (now : Nat) (req : CreateRequest) :
    (reportData lib now req).category = req.body.category := by
  simp only [reportData, sanitize]
  split_ifs <;> rfl

@[simp] theorem reportData_issueType (lib : Lib) (now : Nat) (req : CreateRequest) :
    (reportData lib now req).issueType = req.body.issueType := by
  simp only [reportData, sanitize]
  split_ifs <;> rfl

@[simp] theorem reportData_status (lib : Lib) (now : Nat) (req : CreateRequest) :
    (reportData lib now req).status = req.body.status := by
  simp only [reportData, sanitize]
  split_ifs <;> rfl

@[simp] theorem reportData_priority (lib : Lib) (now : Nat) (req : CreateRequest) :
    (reportData lib now req).priority = req.body.priority := by
  simp only [reportData, sanitize]
  split_ifs <;> rfl

@[simp] theorem reportData_resolvedAt (lib : Lib) (now : Nat) (req : CreateRequest) :
    (reportData lib now req).resolvedAt = req.body.resolvedAt := by
  simp only [reportData, sanitize]
  split_ifs <;> rfl

@[simp] theorem reportData_assignedTo (lib : Lib) (now : Nat) (req : CreateRequest) :
    (reportData lib now req).assignedTo = req.body.assignedTo := by
  simp only [reportData, sanitize]
  split_ifs <;> rfl

@[simp] theorem insertedDocument_id (now : Nat) (r : Report) :
    (insertedDocument now r).id = r.id := by
  simp only [insertedDocument, preSave]
  split_ifs <;> rfl

@[simp] theorem insertedDocument_category (now : Nat) (r : Report) :
    (insertedDocument now r).category = r.category := by
  simp only [insertedDocument, preSave]
  split_ifs <;> rfl

@[simp] theorem insertedDocument_status (now : Nat) (r : Report) :
    (insertedDocument now r).status = r.status := by
  simp only [insertedDocument, preSave]
  split_ifs <;> rfl

@[simp] theorem insertedDocument_resolvedAt (now : Nat) (r : Report) :
    (insertedDocument now r).resolvedAt = r.resolvedAt := by
  simp only [insertedDocument, preSave]
  split_ifs <;> rfl

theorem insertedDocument_priority (now : Nat) (r : Report) :
    (insertedDocument now r).priority
      = if r.category = "emergency" ∨ r.category = "water_leak" ∨ r.category = "public_safety"
        then 5 else r.priority := by
  simp only [insertedDocument, preSave]
  by_cases h : r.category = "emergency" ∨ r.category = "water_leak" ∨ r.category = "public_safety"
  · simp [h]
  · simp [h]

theorem save_new (now : Nat) (r : Report) (s : Store) (hv : r.validate = true) :
    save now none r s
      = .ok (insertedDocument now r, { s with reports := s.reports ++ [insertedDocument now r] }) := by
  simp only [save, hv, Bool.not_true, Bool.false_eq_true, if_false]

/-- The three ways through `createReport`. -/
theorem createReport_eq (lib : Lib) (now : Nat) (req : CreateRequest) (s : Store) :
    createReport lib now req s =
      if createReportValidation lib req.body = [] then
        if (Report.new s.freshId (reportData lib now req)).validate = true then
          (⟨201, true, "Report submitted successfully",
            some (insertedDocument now (Report.new s.freshId (reportData lib now req))), none, []⟩,
           { s with reports := s.reports
              ++ [insertedDocument now (Report.new s.freshId (reportData lib now req))] })
        else (Response.plain 500 "Failed to create report", s)
      else (⟨400, false, "Validation failed", none, none, createReportValidation lib req.body⟩, s) := by
  by_cases he : createReportValidation lib req.body = []
  · by_cases hv : (Report.new s.freshId (reportData lib now req)).validate = true
    · simp only [createReport, he, List.isEmpty_nil, Bool.not_true, Bool.false_eq_true, if_false,
        save_new now _ s hv, hv, if_true]
    · have hv2 : (Report.new s.freshId (reportData lib now req)).validate = false := by
        simpa using hv
      simp only [createReport, he, List.isEmpty_nil, Bool.not_true, Bool.false_eq_true, if_false,
        save_invalid now none _ s hv2, hv2, if_true]
  · have hne : (createReportValidation lib req.body).isEmpty = false := by
      cases hc : createReportValidation lib req.body with
      | nil => exact absurd hc he
      | cons x xs => rfl
    simp only [createReport, hne, he, Bool.not_false, if_true, if_false]

/-- The document that `createReport` stores when it accepts a request. -/
theorem createReport_inv (lib : Lib) (now : Nat) (req : CreateRequest) (s : Store)
    (hok : (createReport lib now req s).1.code = 201) :
    createReportValidation lib req.body = []
    ∧ (Report.new s.freshId (reportData lib now req)).validate = true
    ∧ createReport lib now req s =
        (⟨201, true, "Report submitted successfully",
          some (insertedDocument now (Report.new s.freshId (reportData lib now req))), none, []⟩,
         { s with reports := s.reports
            ++ [insertedDocument now (Report.new s.freshId (reportData lib now req))] }) := by
  rw [createReport_eq] at hok ⊢
  by_cases he : createReportValidation lib req.body = []
  · by_cases hv : (Report.new s.freshId (reportData lib now req)).validate = true
    · exact ⟨he, hv, by rw [if_pos he, if_pos hv]⟩
    · rw [if_pos he, if_neg hv] at hok
      simp [Response.plain] at hok
  · rw [if_neg he] at hok
    simp at hok

/-- Every answer of `createReport` other than 201 leaves the store as it was. -/
theorem createReport_fail (lib : Lib) (now : Nat) (req : CreateRequest) (s : Store)
    (h : (createReport lib now req s).1.code ≠ 201) :
    (createReport lib now req s).2 = s ∧ (createReport lib now req s).1.report = none := by
  rw [createReport_eq] at h ⊢
  by_cases he : createReportValidation lib req.body = []
  · by_cases hv : (Report.new s.freshId (reportData lib now req)).validate = true
    · rw [if_pos he, if_pos hv] at h
      exact absurd rfl h
    · rw [if_pos he, if_neg hv]
      exact ⟨rfl, rfl⟩
  · rw [if_neg he]
    exact ⟨rfl, rfl⟩

/-- An accepted body has its category in the enumeration. -/
theorem validation_category (lib : Lib) (b : ReportBody)
    (h : createReportValidation lib b = []) : categories.contains (fieldString b.category) = true := by
  simp only [createReportValidation, List.append_eq_nil, check_nil] at h
  exact h.1.1.1.1.1.1.1.2

theorem categories_not_emergency {c : String} (h : categories.contains c = true) :
    c ≠ "emergency" := by
  intro hc
  subst hc
  revert h
  decide

/-! ## The claims on priority and on the initial status -/

/-- C7 (amended): a report that `createReport` accepts is stored with priority 5
when its category is `water_leak` or `public_safety`; for every other category
it is stored with the priority its body carries, and with priority 3 when the
body carries none. -/
theorem createReport_priority (lib : Lib) (now : Nat) (req : CreateRequest) (s : Store)
    (hok : (createReport lib now req s).1.code = 201) :
    ∃ doc, (createReport lib now req s).1.report = some doc
      ∧ (createReport lib now req s).2.reports = s.reports ++ [doc]
      ∧ doc.category = fieldString req.body.category
      ∧ (doc.category = "water_leak" ∨ doc.category = "public_safety" → doc.priority = 5)
      ∧ (doc.category ≠ "water_leak" → doc.category ≠ "public_safety" →
          doc.priority = req.body.priority.getD 3)
      ∧ (doc.category ≠ "water_leak" → doc.category ≠ "public_safety" →
          req.body.priority = none → doc.priority = 3) := by
  obtain ⟨he, -, heq⟩ := createReport_inv lib now req s hok
  have hcat := categories_not_emergency (validation_category lib req.body he)
  rw [heq]
  have hc : (Report.new s.freshId (reportData lib now req)).category
      = fieldString req.body.category := by simp [Report.new]
  have hp : (Report.new s.freshId (reportData lib now req)).priority
      = req.body.priority.getD 3 := by simp [Report.new]
  refine ⟨_, rfl, rfl, ?_, ?_, ?_, ?_⟩
  · rw [insertedDocument_category, hc]
  · rw [insertedDocument_category, insertedDocument_priority, hc]
    intro h
    rw [if_pos (Or.inr h)]
  · rw [insertedDocument_category, insertedDocument_priority, hc, hp]
    intro h1 h2
    rw [if_neg]
    rintro (h | h | h)
    · exact hcat h
    · exact h1 h
    · exact h2 h
  · rw [insertedDocument_category, insertedDocument_priority, hc, hp]
    intro h1 h2 h3
    rw [if_neg, h3]
    · rfl
    · rintro (h | h | h)
      · exact hcat h
      · exact h1 h
      · exact h2 h

/-- The minimal `pothole` submission of the scenario is accepted and stored with
priority 3. -/
theorem createReport_priority_witness :
    (createReport sampleLib 0 ⟨minimalBody, []⟩ (Store.empty [])).1.code = 201
    ∧ ∃ doc, (createReport sampleLib 0 ⟨minimalBody, []⟩ (Store.empty [])).1.report = some doc
      ∧ doc.category = "pothole" ∧ doc.priority = 3 :=
  ⟨by decide,
    (createReport_priority sampleLib 0 ⟨minimalBody, []⟩ (Store.empty []) (by decide)).imp
      (fun _ h => ⟨h.1, h.2.2.1,
        h.2.2.2.2.2 (by rw [h.2.2.1]; decide) (by rw [h.2.2.1]; decide) rfl⟩)⟩

/-- C7 as stated fails: a `pothole` submission whose body carries `priority: 1`
is accepted and stored with priority 1, not 3. -/
theorem createReport_priority_counterexample :
    (createReport sampleLib 0 ⟨{ minimalBody with priority := some 1 }, []⟩
        (Store.empty [])).1.code = 201
    ∧ (createReport sampleLib 0 ⟨{ minimalBody with priority := some 1 }, []⟩
        (Store.empty [])).2.reports.map (fun d => (d.category, d.priority)) = [("pothole", 1)] := by
  decide

/-- C8 on the code: an accepted submission of issue type `emergency` and category
`pothole` is stored with priority 3; the middleware compares the category, never
the issue type, with its list. -/
theorem createReport_emergency_priority :
    (createReport sampleLib 0 ⟨{ minimalBody with issueType := some "emergency" }, []⟩
        (Store.empty [])).1.code = 201
    ∧ (createReport sampleLib 0 ⟨{ minimalBody with issueType := some "emergency" }, []⟩
        (Store.empty [])).2.reports.map (fun d => (d.issueType, d.category, d.priority))
      = [("emergency", "pothole", 3)] := by
  decide

/-- C9: a successful `updateReportStatus` and a successful `assignReport` both
leave the stored priority of the report as it was, whatever its category. -/
theorem priority_unchanged (now id : Nat) (s : Store) (r : Report)
    (hr : s.findReport id = some r) :
    (∀ body, (updateReportStatus now id body s).1.code = 200 →
      ∃ r1, (updateReportStatus now id body s).2.findReport id = some r1
        ∧ r1.priority = r.priority) ∧
    (∀ userId, (assignReport now id userId s).1.code = 200 →
      ∃ r1, (assignReport now id userId s).2.findReport id = some r1
        ∧ r1.priority = r.priority) := by
  constructor
  · intro body hok
    obtain ⟨hst, old, hf, hv⟩ := updateReportStatus_inv now id body s hok
    obtain ⟨t, s1, heq, hfind, -, -, -⟩ := updateReportStatus_ok now id body s old hst hf hv
    have hold : old = r := by
      rw [hr] at hf
      exact (Option.some.inj hf).symm
    subst hold
    rw [heq]
    exact ⟨_, hfind, by simp⟩
  · intro userId hok
    obtain ⟨u, old, hu, hf, hv⟩ := assignReport_inv now id userId s hok
    have hold : old = r := by
      rw [hr] at hf
      exact (Option.some.inj hf).symm
    subst hold
    obtain ⟨t, s1, heq, hfind, -, -, -⟩ := assignReport_ok now id userId s u old hu hf hv
    rw [heq]
    exact ⟨_, hfind, by simp⟩

theorem priority_unchanged_witness :
    (⟨[leakReport], [sampleUser]⟩ : Store).findReport 1 = some leakReport
    ∧ leakReport.category = "water_leak" ∧ leakReport.priority = 2
    ∧ (∃ r1, (updateReportStatus 9 1 ⟨some "resolved", none, none⟩
          ⟨[leakReport], [sampleUser]⟩).2.findReport 1 = some r1 ∧ r1.priority = 2)
    ∧ (∃ r1, (assignReport 9 1 (some 7) ⟨[leakReport], [sampleUser]⟩).2.findReport 1 = some r1
          ∧ r1.priority = 2) :=
  ⟨by decide, by decide, by decide,
    (priority_unchanged 9 1 ⟨[leakReport], [sampleUser]⟩ leakReport (by decide)).1
      ⟨some "resolved", none, none⟩ (by decide),
    (priority_unchanged 9 1 ⟨[leakReport], [sampleUser]⟩ leakReport (by decide)).2
      (some 7) (by decide)⟩

/-- C10 (amended): a report that `createReport` persists has the status its
request body carries, and status `pending` when the body carries none. -/
theorem createReport_status (lib : Lib) (now : Nat) (req : CreateRequest) (s : Store)
    (hok : (createReport lib now req s).1.code = 201) :
    ∃ doc, (createReport lib now req s).1.report = some doc
      ∧ (createReport lib now req s).2.reports = s.reports ++ [doc]
      ∧ doc.status = req.body.status.getD "pending"
      ∧ (req.body.status = none → doc.status = "pending") := by
  obtain ⟨-, -, heq⟩ := createReport_inv lib now req s hok
  rw [heq]
  have hs : (Report.new s.freshId (reportData lib now req)).status
      = req.body.status.getD "pending" := by simp [Report.new]
  refine ⟨_, rfl, rfl, ?_, ?_⟩
  · rw [insertedDocument_status, hs]
  · intro h
    rw [insertedDocument_status, hs, h]
    rfl

theorem createReport_status_witness :
    (createReport sampleLib 0 ⟨minimalBody, []⟩ (Store.empty [])).1.code = 201
    ∧ ∃ doc, (createReport sampleLib 0 ⟨minimalBody, []⟩ (Store.empty [])).1.report = some doc
      ∧ doc.status = "pending" :=
  ⟨by decide,
    (createReport_status sampleLib 0 ⟨minimalBody, []⟩ (Store.empty []) (by decide)).imp
      (fun _ h => ⟨h.1, h.2.2.2 rfl⟩)⟩

/-- C10 as stated fails: a submission whose body carries `status: 'resolved'` is
accepted and persisted with status `resolved`. -/
theorem createReport_status_counterexample :
    (createReport sampleLib 0 ⟨{ minimalBody with status := some "resolved" }, []⟩
        (Store.empty [])).1.code = 201
    ∧ (createReport sampleLib 0 ⟨{ minimalBody with status := some "resolved" }, []⟩
        (Store.empty [])).2.reports.map (fun d => d.status) = ["resolved"] := by
  decide

/-! ## Sequences of calls: `resolvedAt` and the history of the status -/

theorem le_foldr_max (l : List Nat) (x : Nat) (h : x ∈ l) : x ≤ l.foldr max 0 := by
  induction l with
  | nil => simp at h
  | cons y ys ih =>
    simp only [List.foldr_cons]
    rcases List.mem_cons.1 h with h | h
    · rw [h]
      exact le_max_left _ _
    · exact le_trans (ih h) (le_max_right _ _)

theorem freshId_not_mem (s : Store) : s.freshId ∉ s.reports.map (fun r => r.id) := by
  intro h
  have := le_foldr_max _ _ h
  simp only [Store.freshId] at this
  omega

theorem findReport_mem_ids {s : Store} {i : Nat} {r : Report} (h : s.findReport i = some r) :
    i ∈ s.reports.map (fun x => x.id) := by
  have hm : r ∈ s.reports := List.mem_of_find?_eq_some h
  have hid := findReport_id h
  exact List.mem_map.2 ⟨r, hm, hid⟩

theorem find_of_mem_nodup (l : List Report) (r : Report)
    (hn : (l.map (fun x => x.id)).Nodup) (hm : r ∈ l) :
    l.find? (fun x => x.id = r.id) = some r := by
  induction l with
  | nil => simp at hm
  | cons y ys ih =>
    simp only [List.map_cons, List.nodup_cons] at hn
    rcases List.mem_cons.1 hm with h | h
    · subst h
      simp
    · have hne : ¬ y.id = r.id := by
        intro heq
        exact hn.1 (heq ▸ List.mem_map.2 ⟨r, h, rfl⟩)
      simp only [List.find?_cons, hne, decide_False]
      exact ih hn.2 h

theorem resolvedInv_create (lib : Lib) (now : Nat) (req : CreateRequest) (s : Store)
    (g : List Nat) (hp : (Op.create now req).createsUnresolved = true) (hi : ResolvedInv s g) :
    ResolvedInv (createReport lib now req s).2 (g ++ setsResolved lib s (.create now req)) := by
  obtain ⟨hnd, hsub, hres⟩ := hi
  simp only [Op.createsUnresolved, Bool.and_eq_true, Option.isNone_iff_eq_none,
    decide_eq_true_eq] at hp
  by_cases hok : (createReport lib now req s).1.code = 201
  · obtain ⟨-, -, heq⟩ := createReport_inv lib now req s hok
    have hrs : (insertedDocument now (Report.new s.freshId (reportData lib now req))).resolvedAt
        = none := by
      rw [insertedDocument_resolvedAt]
      simp [Report.new, hp.1]
    have hst : (insertedDocument now (Report.new s.freshId (reportData lib now req))).status
        ≠ "resolved" := by
      rw [insertedDocument_status]
      simp only [Report.new, reportData_status]
      cases hb : req.body.status with
      | none => decide
      | some x =>
        intro hx
        apply hp.2
        rw [hb]
        exact congrArg some hx
    have hid : (insertedDocument now (Report.new s.freshId (reportData lib now req))).id
        = s.freshId := by
      rw [insertedDocument_id]
      rfl
    have hsets : setsResolved lib s (.create now req) = [] := by
      simp only [setsResolved, heq, if_neg hst]
    rw [hsets, List.append_nil, heq]
    refine ⟨?_, ?_, ?_⟩
    · simp only [List.map_append, List.map_cons, List.map_nil, hid]
      rw [List.nodup_append]
      refine ⟨hnd, List.nodup_singleton _, ?_⟩
      intro a ha hb
      rw [List.mem_singleton] at hb
      exact freshId_not_mem s (hb ▸ ha)
    · intro i hig
      simp only [List.map_append, List.mem_append]
      exact Or.inl (hsub i hig)
    · intro i r hf
      simp only [Store.findReport, List.find?_append] at hf
      cases hl : s.reports.find? (fun r => r.id = i) with
      | some r0 =>
        rw [hl] at hf
        simp only [Option.or_some] at hf
        have hr0 : r0 = r := Option.some.inj hf
        subst hr0
        exact hres i r0 hl
      | none =>
        rw [hl] at hf
        simp only [Option.none_or] at hf
        have hmem := List.mem_of_find?_eq_some hf
        rw [List.mem_singleton] at hmem
        have hfi : r.id = i := by simpa using List.find?_some hf
        subst hmem
        rw [hrs]
        constructor
        · intro h
          simp at h
        · intro hig
          exfalso
          apply freshId_not_mem s
          rw [← hid, hfi]
          exact hsub i hig
  · obtain ⟨h1, h2⟩ := createReport_fail lib now req s hok
    have hsets : setsResolved lib s (.create now req) = [] := by
      simp only [setsResolved, h2]
    rw [hsets, List.append_nil, h1]
    exact ⟨hnd, hsub, hres⟩

/-- Preservation by a successful write of an existing report whose `resolvedAt`
becomes `some now` when `res` holds and stays as it was otherwise. -/
theorem resolvedInv_write (s s1 : Store) (g : List Nat) (id : Nat) (old doc : Report)
    (res : Prop) (now : Nat) (hi : ResolvedInv s g) (hf : s.findReport id = some old)
    (hfind : s1.findReport id = some doc)
    (hframe : ∀ j, j ≠ id → s1.findReport j = s.findReport j)
    (hids : s1.reports.map (fun x => x.id) = s.reports.map (fun x => x.id))
    (hyes : res → doc.resolvedAt = some now) (hno : ¬ res → doc.resolvedAt = old.resolvedAt)
    (sets : List Nat) (hsyes : res → sets = [id]) (hsno : ¬ res → sets = []) :
    ResolvedInv s1 (g ++ sets) := by
  obtain ⟨hnd, hsub, hres⟩ := hi
  refine ⟨by rw [hids]; exact hnd, ?_, ?_⟩
  · intro i hig
    rw [hids]
    rcases List.mem_append.1 hig with h | h
    · exact hsub i h
    · by_cases hr : res
      · rw [hsyes hr, List.mem_singleton] at h
        rw [h]
        exact findReport_mem_ids hf
      · rw [hsno hr] at h
        simp at h
  · intro i r hfi
    by_cases hii : i = id
    · subst hii
      rw [hfind] at hfi
      have hd : doc = r := Option.some.inj hfi
      subst hd
      by_cases hr : res
      · rw [hyes hr, hsyes hr]
        simp
      · rw [hno hr, hsno hr, List.append_nil]
        exact hres i old hf
    · rw [hframe i hii] at hfi
      have hnot : i ∉ sets := by
        by_cases hr : res
        · rw [hsyes hr, List.mem_singleton]
          exact hii
        · rw [hsno hr]
          simp
      rw [List.mem_append]
      constructor
      · intro h
        exact Or.inl ((hres i r hfi).1 h)
      · rintro (h | h)
        · exact (hres i r hfi).2 h
        · exact absurd h hnot

theorem resolvedInv_updateStatus (lib : Lib) (now id : Nat) (body : StatusBody) (s : Store)
    (g : List Nat) (hi : ResolvedInv s g) :
    ResolvedInv (updateReportStatus now id body s).2
      (g ++ setsResolved lib s (.updateStatus now id body)) := by
  by_cases hok : (updateReportStatus now id body s).1.code = 200
  · obtain ⟨hst, old, hf, hv⟩ := updateReportStatus_inv now id body s hok
    obtain ⟨t, s1, heq, hfind, -, hframe, hids⟩ :=
      updateReportStatus_ok now id body s old hst hf hv
    have hs2 : (updateReportStatus now id body s).2 = s1 := by rw [heq]
    rw [hs2]
    refine resolvedInv_write s s1 g id old _ (body.status = some "resolved") now hi hf hfind
      hframe hids ?_ ?_ _ ?_ ?_
    · intro h
      simp [h]
    · intro h
      simp [h]
    · intro h
      simp only [setsResolved, hok, h, and_self, if_true]
    · intro h
      simp only [setsResolved, h, and_false, if_false]
  · have hsets : setsResolved lib s (.updateStatus now id body) = [] := by
      simp only [setsResolved, hok, false_and, if_false]
    rw [hsets, List.append_nil, updateReportStatus_fail now id body s hok]
    exact hi

theorem resolvedInv_assign (lib : Lib) (now reportId : Nat) (userId : Option Nat) (s : Store)
    (g : List Nat) (hi : ResolvedInv s g) :
    ResolvedInv (assignReport now reportId userId s).2
      (g ++ setsResolved lib s (.assign now reportId userId)) := by
  have hsets : setsResolved lib s (.assign now reportId userId) = [] := rfl
  rw [hsets]
  by_cases hok : (assignReport now reportId userId s).1.code = 200
  · obtain ⟨u, old, hu, hf, hv⟩ := assignReport_inv now reportId userId s hok
    obtain ⟨t, s1, heq, hfind, -, hframe, hids⟩ :=
      assignReport_ok now reportId userId s u old hu hf hv
    have hs2 : (assignReport now reportId userId s).2 = s1 := by rw [heq]
    rw [hs2]
    refine resolvedInv_write s s1 g reportId old _ False now hi hf hfind hframe hids ?_ ?_ _ ?_ ?_
    · intro h
      exact absurd h id
    · intro _
      simp
    · intro h
      exact absurd h id
    · intro _
      rfl
  · rw [List.append_nil, assignReport_fail now reportId userId s hok]
    exact hi

theorem resolvedInv_step (lib : Lib) (s : Store) (g : List Nat) (op : Op)
    (hp : op.createsUnresolved = true) (hi : ResolvedInv s g) :
    ResolvedInv (step lib s op).2 (g ++ setsResolved lib s op) := by
  cases op with
  | create now req => exact resolvedInv_create lib now req s g hp hi
  | updateStatus now id body => exact resolvedInv_updateStatus lib now id body s g hi
  | assign now reportId userId => exact resolvedInv_assign lib now reportId userId s g hi

theorem resolvedInv_run (lib : Lib) (ops : List Op) :
    ∀ (s : Store) (g : List Nat), (∀ op ∈ ops, op.createsUnresolved = true) →
      ResolvedInv s g → ResolvedInv (run lib s ops) (g ++ resolvedOnce lib s ops) := by
  induction ops with
  | nil =>
    intro s g _ hi
    simpa [run, resolvedOnce] using hi
  | cons op ops ih =>
    intro s g hp hi
    have h1 := resolvedInv_step lib s g op (hp op (List.mem_cons_self _ _)) hi
    have h2 := ih (step lib s op).2 _ (fun o ho => hp o (List.mem_cons_of_mem _ ho)) h1
    simpa [run, resolvedOnce, List.append_assoc] using h2

/-- C3 (amended): in every store reached from a store without reports by a
sequence of `createReport`, `updateReportStatus` and `assignReport` calls in which
no creation carries a `resolvedAt` or the status `resolved` in its body, a
report has a `resolvedAt` if and only if its status has been set to `resolved` at
least once. -/
theorem resolvedAt_iff_resolvedOnce (lib : Lib) (users : List User) (ops : List Op)
    (hops : ∀ op ∈ ops, op.createsUnresolved = true) (r : Report)
    (hr : r ∈ (run lib (Store.empty users) ops).reports) :
    r.resolvedAt.isSome = true ↔ r.id ∈ resolvedOnce lib (Store.empty users) ops := by
  have h0 : ResolvedInv (Store.empty users) [] := by
    refine ⟨by simp [Store.empty], by simp, ?_⟩
    intro i r hf
    simp [Store.empty, Store.findReport] at hf
  have hinv := resolvedInv_run lib ops (Store.empty users) [] hops h0
  rw [List.nil_append] at hinv
  exact hinv.2.2 r.id r (find_of_mem_nodup _ r hinv.1 hr)

/-- A report is created, resolved at time 20 and reopened at time 30: it keeps the
`resolvedAt` of the resolution, and its id is among the resolved ones. -/
theorem resolvedAt_iff_resolvedOnce_witness :
    (∀ op ∈ [Op.create 10 ⟨minimalBody, []⟩, .updateStatus 20 1 ⟨some "resolved", none, none⟩,
        .updateStatus 30 1 ⟨some "pending", none, none⟩], op.createsUnresolved = true)
    ∧ ∀ r ∈ (run sampleLib (Store.empty [])
        [.create 10 ⟨minimalBody, []⟩, .updateStatus 20 1 ⟨some "resolved", none, none⟩,
          .updateStatus 30 1 ⟨some "pending", none, none⟩]).reports,
      (r.resolvedAt.isSome = true ↔ r.id ∈ resolvedOnce sampleLib (Store.empty [])
        [.create 10 ⟨minimalBody, []⟩, .updateStatus 20 1 ⟨some "resolved", none, none⟩,
          .updateStatus 30 1 ⟨some "pending", none, none⟩]) :=
  ⟨by decide, fun r hr => resolvedAt_iff_resolvedOnce sampleLib [] _ (by decide) r hr⟩

/-- C3 as stated fails in both directions: a report created with a `resolvedAt`
in its body has one although its status was never `resolved`, and a report
created with the status `resolved` has no `resolvedAt`. -/
theorem resolvedAt_iff_resolvedOnce_counterexample :
    ((run sampleLib (Store.empty []) [createWithResolvedAt]).reports.map
        (fun r => (r.id, r.status, r.resolvedAt)) = [(1, "pending", some 5)]
      ∧ resolvedOnce sampleLib (Store.empty []) [createWithResolvedAt] = [])
    ∧ ((run sampleLib (Store.empty []) [createResolved]).reports.map
        (fun r => (r.id, r.status, r.resolvedAt)) = [(1, "resolved", none)]
      ∧ resolvedOnce sampleLib (Store.empty []) [createResolved] = [1]) := by
  decide

/-! ## The enumerations at creation -/

theorem mem_replaceReport (doc x : Report) (l : List Report) (h : x ∈ replaceReport doc l) :
    x ∈ l ∨ x = doc := by
  induction l with
  | nil => simp [replaceReport] at h
  | cons y ys ih =>
    simp only [replaceReport] at h
    by_cases hy : y.id = doc.id
    · rw [if_pos hy] at h
      rcases List.mem_cons.1 h with h | h
      · exact Or.inr h
      · exact Or.inl (List.mem_cons_of_mem _ h)
    · rw [if_neg hy] at h
      rcases List.mem_cons.1 h with h | h
      · exact Or.inl (h ▸ List.mem_cons_self _ _)
      · rcases ih h with h | h
        · exact Or.inl (List.mem_cons_of_mem _ h)
        · exact Or.inr h

theorem validate_updatedAt (r : Report) (t : Nat) :
    ({ r with updatedAt := t } : Report).validate = r.validate := rfl

theorem validate_insertedDocument (now : Nat) (r : Report) (hv : r.validate = true) :
    (insertedDocument now r).validate = true := by
  simp only [insertedDocument, preSave, if_true]
  split_ifs
  · simp only [Report.validate, Bool.and_eq_true] at hv ⊢
    exact ⟨hv.1, ⟨by simp, by simp⟩⟩
  · exact hv

/-- What a successful `save` stores: a valid document that carries the paths of
the saved one, and nothing else is new in the collection. -/
theorem save_ok_mem (now : Nat) (loaded : Option Report) (r doc : Report) (s s1 : Store)
    (h : save now loaded r s = .ok (doc, s1)) :
    r.validate = true ∧ doc.validate = true ∧ s1.users = s.users
      ∧ (∀ x ∈ s1.reports, x ∈ s.reports ∨ x = doc)
      ∧ doc.assignedTo = r.assignedTo ∧ doc.category = r.category
      ∧ doc.issueType = r.issueType := by
  have hv : r.validate = true := by
    cases hv : r.validate with
    | true => rfl
    | false => rw [save_invalid now loaded r s hv] at h; cases h
  refine ⟨hv, ?_⟩
  cases loaded with
  | none =>
    rw [save_new now r s hv] at h
    cases h
    refine ⟨validate_insertedDocument now r hv, rfl, ?_, ?_, ?_, ?_⟩
    · intro x hx
      rcases List.mem_append.1 hx with hx | hx
      · exact Or.inl hx
      · exact Or.inr (List.mem_singleton.1 hx)
    · simp only [insertedDocument, preSave, if_true]
      split_ifs <;> rfl
    · simp only [insertedDocument, preSave, if_true]
      split_ifs <;> rfl
    · simp only [insertedDocument, preSave, if_true]
      split_ifs <;> rfl
  | some old =>
    by_cases heq : r = old
    · subst heq
      have hs : save now (some r) r s = .ok (r, s) := by
        simp [save, hv, preSave]
      rw [hs] at h
      cases h
      exact ⟨hv, rfl, fun x hx => Or.inl hx, rfl, rfl, rfl⟩
    · have hs : save now (some old) r s
          = .ok ({ r with updatedAt := now },
              { s with reports := replaceReport { r with updatedAt := now } s.reports }) := by
        simp [save, hv, preSave, heq]
      rw [hs] at h
      cases h
      exact ⟨hv, rfl, fun x hx => mem_replaceReport _ x _ hx, rfl, rfl, rfl⟩

theorem step_create (lib : Lib) (s : Store) (now : Nat) (req : CreateRequest) :
    step lib s (.create now req) = createReport lib now req s := rfl

theorem step_updateStatus (lib : Lib) (s : Store) (now id : Nat) (body : StatusBody) :
    step lib s (.updateStatus now id body) = updateReportStatus now id body s := rfl

theorem step_assign (lib : Lib) (s : Store) (now reportId : Nat) (userId : Option Nat) :
    step lib s (.assign now reportId userId) = assignReport now reportId userId s := rfl

theorem insertedDocument_assignedTo (now : Nat) (r : Report) :
    (insertedDocument now r).assignedTo = r.assignedTo := by
  simp only [insertedDocument, preSave, if_true]
  split_ifs <;> rfl

/-- What a call adds to the collection: a valid document, whose `assignedTo` is
the one of the body (creation), the one of the body or else the stored one
(status update), or the id of a user that was looked up (assignment). -/
theorem step_mem (lib : Lib) (s : Store) (op : Op) (x : Report)
    (hx : x ∈ (step lib s op).2.reports) :
    x ∈ s.reports ∨ (x.validate = true ∧
      match op with
      | .create _ req => x.assignedTo = req.body.assignedTo
      | .updateStatus _ id body => ∃ old, s.findReport id = some old ∧
          x.assignedTo = if body.assignedTo.isSome = true then body.assignedTo
            else old.assignedTo
      | .assign _ _ userId => x.assignedTo = userId ∧ (s.findUser userId).isSome = true) := by
  cases op with
  | create now req =>
    rw [step_create] at hx
    have hx2 := hx
    by_cases hok : (createReport lib now req s).1.code = 201
    · obtain ⟨-, hv, heq⟩ := createReport_inv lib now req s hok
      rw [heq] at hx2
      rcases List.mem_append.1 hx2 with h | h
      · exact Or.inl h
      · rw [List.mem_singleton] at h
        subst h
        refine Or.inr ⟨validate_insertedDocument now _ hv, ?_⟩
        show (insertedDocument now (Report.new s.freshId (reportData lib now req))).assignedTo
          = req.body.assignedTo
        rw [insertedDocument_assignedTo]
        simp only [Report.new, reportData_assignedTo]
    · rw [(createReport_fail lib now req s hok).1] at hx2
      exact Or.inl hx2
  | updateStatus now id body =>
    rw [step_updateStatus] at hx
    by_cases hok : (updateReportStatus now id body s).1.code = 200
    · obtain ⟨hst, old, hf, hv⟩ := updateReportStatus_inv now id body s hok
      cases hsave : save now (some old) (statusEdit now body old) s with
      | error e =>
        have hs : (updateReportStatus now id body s).2 = s := by
          simp [updateReportStatus, hst, hf, hsave]
        rw [hs] at hx
        exact Or.inl hx
      | ok p =>
        obtain ⟨doc, s1⟩ := p
        obtain ⟨-, hdv, -, hmem, ha, -, -⟩ := save_ok_mem _ _ _ _ _ _ hsave
        have hs : (updateReportStatus now id body s).2 = s1 := by
          simp [updateReportStatus, hst, hf, hsave]
        rw [hs] at hx
        rcases hmem x hx with h | h
        · exact Or.inl h
        · subst h
          exact Or.inr ⟨hdv, old, hf, by rw [ha, statusEdit_assignedTo]⟩
    · rw [updateReportStatus_fail now id body s hok] at hx
      exact Or.inl hx
  | assign now reportId userId =>
    rw [step_assign] at hx
    by_cases hok : (assignReport now reportId userId s).1.code = 200
    · obtain ⟨u, old, hu, hf, hv⟩ := assignReport_inv now reportId userId s hok
      cases hsave : save now (some old) (assignEdit userId old) s with
      | error e =>
        have hs : (assignReport now reportId userId s).2 = s := by
          simp [assignReport, hu, hf, hsave]
        rw [hs] at hx
        exact Or.inl hx
      | ok p =>
        obtain ⟨doc, s1⟩ := p
        obtain ⟨-, hdv, -, hmem, ha, -, -⟩ := save_ok_mem _ _ _ _ _ _ hsave
        have hs : (assignReport now reportId userId s).2 = s1 := by
          simp [assignReport, hu, hf, hsave]
        rw [hs] at hx
        rcases hmem x hx with h | h
        · exact Or.inl h
        · subst h
          exact Or.inr ⟨hdv, by rw [ha, assignEdit_assignedTo], by rw [hu]; rfl⟩
    · rw [assignReport_fail now reportId userId s hok] at hx
      exact Or.inl hx

/-- No call changes the users. -/
theorem step_users (lib : Lib) (s : Store) (op : Op) : (step lib s op).2.users = s.users := by
  cases op with
  | create now req =>
    rw [step_create]
    by_cases hok : (createReport lib now req s).1.code = 201
    · obtain ⟨-, -, heq⟩ := createReport_inv lib now req s hok
      rw [heq]
    · rw [(createReport_fail lib now req s hok).1]
  | updateStatus now id body =>
    rw [step_updateStatus]
    by_cases hok : (updateReportStatus now id body s).1.code = 200
    · obtain ⟨hst, old, hf, hv⟩ := updateReportStatus_inv now id body s hok
      obtain ⟨t, s1, heq, -, hu, -, -⟩ := updateReportStatus_ok now id body s old hst hf hv
      rw [heq]
      exact hu
    · rw [updateReportStatus_fail now id body s hok]
  | assign now reportId userId =>
    rw [step_assign]
    by_cases hok : (assignReport now reportId userId s).1.code = 200
    · obtain ⟨u, old, hu, hf, hv⟩ := assignReport_inv now reportId userId s hok
      obtain ⟨t, s1, heq, -, hus, -, -⟩ := assignReport_ok now reportId userId s u old hu hf hv
      rw [heq]
      exact hus
    · rw [assignReport_fail now reportId userId s hok]

theorem run_users (lib : Lib) (ops : List Op) : ∀ s : Store, (run lib s ops).users = s.users := by
  induction ops with
  | nil => intro s; rfl
  | cons op ops ih =>
    intro s
    simp only [run]
    rw [ih, step_users]

/-- Every report in a store reached from valid reports passes schema validation. -/
theorem run_validate (lib : Lib) (ops : List Op) :
    ∀ s : Store, (∀ r ∈ s.reports, r.validate = true) →
      ∀ r ∈ (run lib s ops).reports, r.validate = true := by
  induction ops with
  | nil => intro s h; exact h
  | cons op ops ih =>
    intro s h
    simp only [run]
    apply ih
    intro r hr
    rcases step_mem lib s op r hr with h1 | h1
    · exact h r h1
    · exact h1.1

theorem validate_enumerations {r : Report} (hv : r.validate = true) :
    r.category ∈ categories ∧ r.issueType ∈ issueTypes := by
  simp only [Report.validate, Bool.and_eq_true] at hv
  obtain ⟨⟨⟨⟨⟨⟨⟨⟨⟨⟨⟨⟨_, _⟩, h3⟩, h4⟩, _⟩, _⟩, _⟩, _⟩, _⟩, _⟩, _⟩, _⟩, _⟩ := hv
  exact ⟨by simpa using h3.2, by simpa using h4.2⟩

theorem contains_fieldString_false (xs : List String) (v : Option String)
    (hempty : xs.contains "" = false) (h : ∀ c ∈ xs, v ≠ some c) :
    xs.contains (fieldString v) = false := by
  cases v with
  | none => exact hempty
  | some x =>
    rw [Bool.eq_false_iff]
    intro hc
    have hm : x ∈ xs := by simpa [fieldString] using hc
    exact h x hm rfl

theorem validation_category_error (lib : Lib) (b : ReportBody)
    (h : categories.contains (fieldString b.category) = false) :
    (⟨"category", "Invalid category"⟩ : FieldError) ∈ createReportValidation lib b := by
  simp only [createReportValidation, List.mem_append]
  refine Or.inl (Or.inl (Or.inl (Or.inl (Or.inl (Or.inl (Or.inl (Or.inr ?_)))))))
  rw [h]
  simp [check]

theorem validation_issueType_error (lib : Lib) (b : ReportBody)
    (h : issueTypes.contains (fieldString b.issueType) = false) :
    (⟨"issueType", "Invalid issue type"⟩ : FieldError) ∈ createReportValidation lib b := by
  simp only [createReportValidation, List.mem_append]
  refine Or.inl (Or.inl (Or.inl (Or.inl (Or.inl (Or.inl (Or.inr ?_))))))
  rw [h]
  simp [check]

/-- A request with a validation error is answered 400 with the error list, and
the store is left as it was. -/
theorem createReport_rejects (lib : Lib) (now : Nat) (req : CreateRequest) (s : Store)
    (e : FieldError) (he : e ∈ createReportValidation lib req.body) :
    (createReport lib now req s).1.code = 400
      ∧ (createReport lib now req s).1.errors = createReportValidation lib req.body
      ∧ (createReport lib now req s).2 = s := by
  have hne : createReportValidation lib req.body ≠ [] := by
    intro h
    rw [h] at he
    simp at he
  rw [createReport_eq, if_neg hne]
  exact ⟨rfl, rfl, rfl⟩

/-! ## The claims on the enumerations and on the default issue type -/

/-- C11: a submission whose category is none of the 9 categories, or whose issue
type is none of the 4 issue types, is answered 400 with an error list that names
the field, and the store is left as it was; conversely a report that
`createReport` persists, and every report of a store reached from an empty one,
has its category among the 9 and its issue type among the 4. -/
theorem createReport_enumerations (lib : Lib) (now : Nat) (req : CreateRequest) (s : Store) :
    ((∀ c ∈ categories, req.body.category ≠ some c) →
      (createReport lib now req s).1.code = 400
        ∧ (⟨"category", "Invalid category"⟩ : FieldError) ∈ (createReport lib now req s).1.errors
        ∧ (createReport lib now req s).2 = s)
    ∧ ((∀ t ∈ issueTypes, req.body.issueType ≠ some t) →
      (createReport lib now req s).1.code = 400
        ∧ (⟨"issueType", "Invalid issue type"⟩ : FieldError)
            ∈ (createReport lib now req s).1.errors
        ∧ (createReport lib now req s).2 = s)
    ∧ ((createReport lib now req s).1.code = 201 →
      ∃ doc, (createReport lib now req s).1.report = some doc
        ∧ (createReport lib now req s).2.reports = s.reports ++ [doc]
        ∧ doc.category ∈ categories ∧ doc.issueType ∈ issueTypes)
    ∧ (∀ (users : List User) (ops : List Op), ∀ r ∈ (run lib (Store.empty users) ops).reports,
        r.category ∈ categories ∧ r.issueType ∈ issueTypes) := by
  refine ⟨?_, ?_, ?_, ?_⟩
  · intro h
    have hm := validation_category_error lib req.body
      (contains_fieldString_false categories _ (by decide) h)
    obtain ⟨h1, h2, h3⟩ := createReport_rejects lib now req s _ hm
    exact ⟨h1, by rw [h2]; exact hm, h3⟩
  · intro h
    have hm := validation_issueType_error lib req.body
      (contains_fieldString_false issueTypes _ (by decide) h)
    obtain ⟨h1, h2, h3⟩ := createReport_rejects lib now req s _ hm
    exact ⟨h1, by rw [h2]; exact hm, h3⟩
  · intro hok
    obtain ⟨-, hv, heq⟩ := createReport_inv lib now req s hok
    rw [heq]
    exact ⟨_, rfl, rfl, validate_enumerations (validate_insertedDocument now _ hv)⟩
  · intro users ops r hr
    apply validate_enumerations
    apply run_validate lib ops (Store.empty users) _ r hr
    intro r0 h0
    simp [Store.empty] at h0

theorem createReport_enumerations_witness :
    ((createReport sampleLib 0 ⟨{ minimalBody with category := some "graffiti" }, []⟩
        sampleStore).1.code = 400
      ∧ (createReport sampleLib 0 ⟨{ minimalBody with category := some "graffiti" }, []⟩
        sampleStore).2 = sampleStore)
    ∧ ((createReport sampleLib 0 ⟨{ minimalBody with issueType := some "urgent" }, []⟩
        sampleStore).1.code = 400
      ∧ (createReport sampleLib 0 ⟨{ minimalBody with issueType := some "urgent" }, []⟩
        sampleStore).2 = sampleStore) :=
  ⟨((createReport_enumerations sampleLib 0
        ⟨{ minimalBody with category := some "graffiti" }, []⟩ sampleStore).1
      (by decide)).imp_right And.right,
   ((createReport_enumerations sampleLib 0
        ⟨{ minimalBody with issueType := some "urgent" }, []⟩ sampleStore).2.1
      (by decide)).imp_right And.right⟩

/-- C12 (amended): a submission that omits `issueType` is answered 400 with the
error `Invalid issue type`, and nothing is stored; `medium` is the value that the
document constructor gives to data without an issue type. -/
theorem createReport_issueType_omitted (lib : Lib) (now : Nat) (req : CreateRequest) (s : Store)
    (h : req.body.issueType = none) :
    (createReport lib now req s).1.code = 400
      ∧ (⟨"issueType", "Invalid issue type"⟩ : FieldError) ∈ (createReport lib now req s).1.errors
      ∧ (createReport lib now req s).2 = s
      ∧ (Report.new s.freshId req.body).issueType = "medium" := by
  have hm := validation_issueType_error lib req.body (by rw [h]; decide)
  obtain ⟨h1, h2, h3⟩ := createReport_rejects lib now req s _ hm
  refine ⟨h1, by rw [h2]; exact hm, h3, ?_⟩
  simp [Report.new, h]

theorem createReport_issueType_omitted_witness :
    ({ minimalBody with issueType := none } : ReportBody).issueType = none
    ∧ (createReport sampleLib 0 ⟨{ minimalBody with issueType := none }, []⟩
        (Store.empty [])).1.code = 400
    ∧ (createReport sampleLib 0 ⟨{ minimalBody with issueType := none }, []⟩
        (Store.empty [])).2 = Store.empty [] :=
  ⟨rfl,
    (createReport_issueType_omitted sampleLib 0 ⟨{ minimalBody with issueType := none }, []⟩
      (Store.empty []) rfl).1,
    (createReport_issueType_omitted sampleLib 0 ⟨{ minimalBody with issueType := none }, []⟩
      (Store.empty []) rfl).2.2.1⟩

/-- C12 as stated fails: the minimal submission without its `issueType` is not
accepted; the answer is 400 with one error, and no report is stored. -/
theorem createReport_issueType_omitted_counterexample :
    (createReport sampleLib 0 ⟨{ minimalBody with issueType := none }, []⟩
        (Store.empty [])).1.code = 400
    ∧ (createReport sampleLib 0 ⟨{ minimalBody with issueType := none }, []⟩
        (Store.empty [])).1.errors = [⟨"issueType", "Invalid issue type"⟩]
    ∧ (createReport sampleLib 0 ⟨{ minimalBody with issueType := none }, []⟩
        (Store.empty [])).2.reports = [] := by
  decide

/-! ## Lemmas on listing -/

theorem SortVal.le_or_ge (a b : SortVal) : a.le b = true ∨ b.le a = true := by
  cases a <;> cases b <;> simp [SortVal.le, SortVal.rank] <;> exact le_total _ _

theorem SortVal.le_chain (a b c : SortVal) (h1 : a.le b = true) (h2 : b.le c = true) :
    a.le c = true := by
  cases a <;> cases b <;> cases c <;> simp [SortVal.le, SortVal.rank] at h1 h2 ⊢ <;>
    exact le_trans h1 h2

theorem sortBefore_total (path : String) (dir : Int) :
    IsTotal Report (fun a b => sortBefore path dir a b = true) :=
  ⟨fun a b => by
    simp only [sortBefore]
    split_ifs
    · exact SortVal.le_or_ge _ _
    · exact (SortVal.le_or_ge _ _).symm⟩

theorem sortBefore_trans (path : String) (dir : Int) :
    IsTrans Report (fun a b => sortBefore path dir a b = true) :=
  ⟨fun a b c h1 h2 => by
    simp only [sortBefore] at h1 h2 ⊢
    split_ifs at h1 h2 ⊢
    · exact SortVal.le_chain _ _ _ h1 h2
    · exact SortVal.le_chain _ _ _ h2 h1⟩

theorem findSorted_sorted (f : Filter) (path : String) (dir : Int) (s : Store) :
    (findSorted f path dir s).Pairwise (fun a b => sortBefore path dir a b = true) :=
  have := sortBefore_total path dir
  have := sortBefore_trans path dir
  List.sorted_insertionSort _ _

theorem findSorted_perm (f : Filter) (path : String) (dir : Int) (s : Store) :
    (findSorted f path dir s).Perm (s.reports.filter f.test) :=
  List.perm_insertionSort _ _

theorem findSorted_length (f : Filter) (path : String) (dir : Int) (s : Store) :
    (findSorted f path dir s).length = countDocuments f s :=
  (findSorted_perm f path dir s).length_eq

theorem mem_findSorted (f : Filter) (path : String) (dir : Int) (s : Store) (x : Report) :
    x ∈ findSorted f path dir s ↔ x ∈ s.reports ∧ f.test x = true := by
  rw [(findSorted_perm f path dir s).mem_iff, List.mem_filter]

theorem skipLimit_sublist (skip limit : Nat) (l : List Report) :
    (skipLimit skip limit l).Sublist l := by
  simp only [skipLimit]
  split_ifs
  · exact List.drop_sublist _ _
  · exact (List.take_sublist _ _).trans (List.drop_sublist _ _)

theorem map_fst_populate (s : Store) (l : List Report) :
    (l.map (fun r => (r, populate s r))).map Prod.fst = l := by
  induction l with
  | nil => rfl
  | cons x xs ih => simp [ih]

/-- The answer of `getReports` when the page is at least 1. -/
theorem getReports_eq (q : ListQuery) (s : Store) (hp : 1 ≤ q.page.getD 1) :
    getReports q s =
      { code := 200
        success := true
        message := none
        reports := (skipLimit ((q.page.getD 1 - 1) * q.limit.getD 10) (q.limit.getD 10)
          (findSorted q.filter q.sortPath q.dir s)).map (fun r => (r, populate s r))
        data := []
        pagination :=
          [("currentPage", .num (q.page.getD 1)),
           ("totalPages", ceilDiv (countDocuments q.filter s) (q.limit.getD 10)),
           ("totalReports", .num (countDocuments q.filter s)),
           ("hasNextPage",
             .bool (pageBelow (q.page.getD 1) (countDocuments q.filter s) (q.limit.getD 10))),
           ("hasPrevPage", .bool (decide (q.page.getD 1 > 1)))] } := by
  have h0 : ¬ (q.page.getD 1 = 0 ∧ 0 < q.limit.getD 10) := by
    intro h
    omega
  simp only [getReports, if_neg h0]

/-- The reports of an answer of `getReports` are a part of the sorted matching
list, in its order. -/
theorem getReports_sublist (q : ListQuery) (s : Store) :
    ((getReports q s).reports.map Prod.fst).Sublist (findSorted q.filter q.sortPath q.dir s) := by
  by_cases hp : 1 ≤ q.page.getD 1
  · rw [getReports_eq q s hp]
    simp only [map_fst_populate]
    exact skipLimit_sublist _ _ _
  · have h0 : q.page.getD 1 = 0 := by omega
    by_cases hl : 0 < q.limit.getD 10
    · have hc : q.page.getD 1 = 0 ∧ 0 < q.limit.getD 10 := ⟨h0, hl⟩
      simp only [getReports, if_pos hc, ListResponse.fail, List.map_nil]
      exact List.nil_sublist _
    · have hc : ¬ (q.page.getD 1 = 0 ∧ 0 < q.limit.getD 10) := fun h => hl h.2
      simp only [getReports, if_neg hc, map_fst_populate]
      exact skipLimit_sublist _ _ _

theorem ceil_bounds (n d : Nat) (hd : 1 ≤ d) :
    n ≤ (n + d - 1) / d * d ∧ (n + d - 1) / d * d < n + d := by
  have h1 := Nat.div_add_mod (n + d - 1) d
  have h2 := Nat.mod_lt (n + d - 1) (show d > 0 by omega)
  rw [Nat.mul_comm] at h1
  generalize (n + d - 1) / d * d = k at h1 ⊢
  generalize (n + d - 1) % d = m at h1 h2
  omega

theorem given_eq_some {v : Option String} {c : String} (h : given v = some c) :
    v = some c ∧ c ≠ "" := by
  cases v with
  | none => simp [given] at h
  | some x =>
    simp only [given] at h
    split_ifs at h with hx
    have hxc : x = c := Option.some.inj h
    subst hxc
    exact ⟨rfl, hx⟩

theorem given_some {c : String} (h : c ≠ "") : given (some c) = some c := by
  simp [given, h]

/-! ## The claims on `getReports` -/

/-- C13: for a page and a limit that are at least 1 and `N` matching reports,
`getReports` answers 200 with the reports that follow the first
`(page - 1) * limit` of the sorted matching list, `limit` of them at most, that is
`min limit (N - (page - 1) * limit)` reports; `totalReports` is `N`, `totalPages`
is the ceiling `t` of `N / limit` (`N ≤ t * limit < N + limit`), `hasNextPage` is
`page < t` and `hasPrevPage` is `1 < page`. With 25 matching reports and limit 10,
page 1 has 10 reports, a next page and no previous page, and page 3 has 5 reports
and no next page. -/
theorem getReports_page (q : ListQuery) (s : Store) (page limit N : Nat)
    (hp : q.page.getD 1 = page) (hl : q.limit.getD 10 = limit)
    (hp1 : 1 ≤ page) (hl1 : 1 ≤ limit) (hN : countDocuments q.filter s = N) :
    (getReports q s).code = 200
    ∧ (getReports q s).reports.map Prod.fst
        = ((findSorted q.filter q.sortPath q.dir s).drop ((page - 1) * limit)).take limit
    ∧ (findSorted q.filter q.sortPath q.dir s).length = N
    ∧ (getReports q s).reports.length = min limit (N - (page - 1) * limit)
    ∧ (getReports q s).pagination.lookup "totalReports" = some (.num N)
    ∧ (getReports q s).pagination.lookup "totalPages" = some (.num ((N + limit - 1) / limit))
    ∧ (N ≤ (N + limit - 1) / limit * limit ∧ (N + limit - 1) / limit * limit < N + limit)
    ∧ (getReports q s).pagination.lookup "hasNextPage"
        = some (.bool (decide (page < (N + limit - 1) / limit)))
    ∧ (getReports q s).pagination.lookup "hasPrevPage" = some (.bool (decide (1 < page)))
    ∧ (N = 25 → limit = 10 → page = 1 →
        (getReports q s).reports.length = 10
        ∧ (getReports q s).pagination.lookup "hasNextPage" = some (.bool true)
        ∧ (getReports q s).pagination.lookup "hasPrevPage" = some (.bool false))
    ∧ (N = 25 → limit = 10 → page = 3 →
        (getReports q s).reports.length = 5
        ∧ (getReports q s).pagination.lookup "hasNextPage" = some (.bool false)) := by
  have hlim : limit ≠ 0 := by omega
  have hlen : (findSorted q.filter q.sortPath q.dir s).length = N := by
    rw [findSorted_length, hN]
  have hrep : (getReports q s).reports.map Prod.fst
      = ((findSorted q.filter q.sortPath q.dir s).drop ((page - 1) * limit)).take limit := by
    rw [getReports_eq q s (by omega), hp, hl]
    simp only [map_fst_populate, skipLimit, if_neg hlim]
  have hcount : (getReports q s).reports.length = min limit (N - (page - 1) * limit) := by
    have h := congrArg List.length hrep
    rw [List.length_map, List.length_take, List.length_drop, hlen] at h
    exact h
  have hnext : (getReports q s).pagination.lookup "hasNextPage"
      = some (.bool (decide (page < (N + limit - 1) / limit))) := by
    rw [getReports_eq q s (by omega), hp, hl, hN]
    simp only [pageBelow, if_neg hlim]
    rfl
  have hprev : (getReports q s).pagination.lookup "hasPrevPage"
      = some (.bool (decide (1 < page))) := by
    rw [getReports_eq q s (by omega), hp]
    rfl
  refine ⟨?_, hrep, hlen, hcount, ?_, ?_, ceil_bounds N limit hl1, hnext, hprev, ?_, ?_⟩
  · rw [getReports_eq q s (by omega)]
  · rw [getReports_eq q s (by omega), hN]
    rfl
  · rw [getReports_eq q s (by omega), hl, hN]
    simp only [ceilDiv, if_neg hlim]
    rfl
  · intro h1 h2 h3
    subst h1 h2 h3
    exact ⟨hcount, hnext, hprev⟩
  · intro h1 h2 h3
    subst h1 h2 h3
    exact ⟨hcount, hnext⟩

/-- The scenario on a store of 25 reports: page 3 of limit 10 has 5 reports and
no next page. -/
theorem getReports_page_witness :
    (pageQuery 3 10).page.getD 1 = 3 ∧ (pageQuery 3 10).limit.getD 10 = 10
    ∧ countDocuments (pageQuery 3 10).filter (storeOf 25) = 25
    ∧ (getReports (pageQuery 3 10) (storeOf 25)).reports.length = 5
    ∧ (getReports (pageQuery 3 10) (storeOf 25)).pagination.lookup "hasNextPage"
        = some (.bool false) :=
  ⟨rfl, rfl, by decide,
    (getReports_page (pageQuery 3 10) (storeOf 25) 3 10 25 rfl rfl (by decide) (by decide)
      (by decide)).2.2.2.2.2.2.2.2.2.2 rfl rfl rfl⟩

/-- A condition of the filter object, present when the parameter is truthy: it
holds of a value when the parameter is absent, empty or equal to the value. -/
theorem given_test (v : Option String) (x : String) :
    (match given v with
     | some c => decide (x = c)
     | none => true) = decide (v = none ∨ v = some "" ∨ v = some x) := by
  cases v with
  | none => simp [given]
  | some c =>
    by_cases hc : c = ""
    · simp [given, hc]
    · by_cases hx : x = c
      · simp [given, hc, hx]
      · have hx2 : ¬ c = x := fun h => hx h.symm
        simp [given, hc, hx, hx2]

/-- The documents that `getReports` pages through are the stored reports that
meet every filter the query supplies, each as often as it is stored. -/
theorem findSorted_listQuery (q : ListQuery) (s : Store) :
    (findSorted q.filter q.sortPath q.dir s).Perm
      (s.reports.filter (fun r =>
        decide ((q.category = none ∨ q.category = some "" ∨ q.category = some r.category)
          ∧ (q.status = none ∨ q.status = some "" ∨ q.status = some r.status)
          ∧ (q.issueType = none ∨ q.issueType = some "" ∨ q.issueType = some r.issueType)))) := by
  refine (findSorted_perm q.filter q.sortPath q.dir s).trans (List.Perm.of_eq ?_)
  apply List.filter_congr
  intro r _
  simp only [Filter.test, ListQuery.filter, Bool.true_and, given_test, Bool.decide_and]
  rw [Bool.and_assoc]

/-- An element of a list is on one of its pages. -/
theorem mem_page (l : List Report) (limit : Nat) (hl : 1 ≤ limit) (r : Report) (hr : r ∈ l) :
    ∃ page, 1 ≤ page ∧ r ∈ skipLimit ((page - 1) * limit) limit l := by
  obtain ⟨i, hi, hget⟩ := List.getElem_of_mem hr
  refine ⟨i / limit + 1, Nat.le_add_left 1 _, ?_⟩
  have hlim : limit ≠ 0 := by omega
  have h1 : i = i / limit * limit + i % limit := by
    rw [Nat.mul_comm]
    exact (Nat.div_add_mod i limit).symm
  have h2 := Nat.mod_lt i (show limit > 0 by omega)
  simp only [skipLimit, if_neg hlim, Nat.add_sub_cancel]
  generalize i / limit * limit = k at h1 ⊢
  generalize i % limit = m at h1 h2
  subst h1
  rw [List.mem_iff_getElem]
  have hlen : m < ((l.drop k).take limit).length := by
    rw [List.length_take, List.length_drop]
    omega
  refine ⟨m, hlen, ?_⟩
  rw [List.getElem_take, List.getElem_drop, ← hget]

/-- C14: every report that `getReports` returns is a stored report that satisfies
each of the filters `category`, `status` and `issueType` that the query gives
with a non-empty value. A filter that is absent constrains nothing: the list that
is paged is made of the stored reports that meet the filters given, each as often
as it is stored, and of all stored reports when no filter is given; every such
report is returned on one of the pages, and all of them are returned on page 1
when the limit is not below their number. The returned reports are in ascending
order of the key at `sortBy` when `sortOrder` is `asc` and in descending order
otherwise (for `priority` and for `votes.upvotes` the key is the number itself),
and with neither `sortBy` nor `sortOrder` they are in descending order of
`createdAt`. -/
theorem getReports_filter_sort (q : ListQuery) (s : Store) :
    (∀ x ∈ (getReports q s).reports, x.1 ∈ s.reports
      ∧ (∀ c, q.category = some c → c ≠ "" → x.1.category = c)
      ∧ (∀ c, q.status = some c → c ≠ "" → x.1.status = c)
      ∧ (∀ c, q.issueType = some c → c ≠ "" → x.1.issueType = c))
    ∧ (findSorted q.filter q.sortPath q.dir s).Perm
        (s.reports.filter (fun r =>
          decide ((q.category = none ∨ q.category = some "" ∨ q.category = some r.category)
            ∧ (q.status = none ∨ q.status = some "" ∨ q.status = some r.status)
            ∧ (q.issueType = none ∨ q.issueType = some ""
              ∨ q.issueType = some r.issueType))))
    ∧ (q.category = none → q.status = none → q.issueType = none →
        (findSorted q.filter q.sortPath q.dir s).Perm s.reports)
    ∧ (1 ≤ q.page.getD 1 →
        (getReports q s).reports.map Prod.fst
          = skipLimit ((q.page.getD 1 - 1) * q.limit.getD 10) (q.limit.getD 10)
              (findSorted q.filter q.sortPath q.dir s))
    ∧ (∀ r ∈ s.reports,
        (q.category = none ∨ q.category = some "" ∨ q.category = some r.category) →
        (q.status = none ∨ q.status = some "" ∨ q.status = some r.status) →
        (q.issueType = none ∨ q.issueType = some "" ∨ q.issueType = some r.issueType) →
        1 ≤ q.limit.getD 10 →
        ∃ page, r ∈ (getReports { q with page := some page } s).reports.map Prod.fst)
    ∧ (q.page.getD 1 = 1 → countDocuments q.filter s ≤ q.limit.getD 10 →
        ((getReports q s).reports.map Prod.fst).Perm
          (s.reports.filter (fun r =>
            decide ((q.category = none ∨ q.category = some "" ∨ q.category = some r.category)
              ∧ (q.status = none ∨ q.status = some "" ∨ q.status = some r.status)
              ∧ (q.issueType = none ∨ q.issueType = some ""
                ∨ q.issueType = some r.issueType)))))
    ∧ (q.sortOrder = some "asc" →
        ((getReports q s).reports.map Prod.fst).Pairwise
          (fun a b => (sortKey q.sortPath 1 a).le (sortKey q.sortPath 1 b) = true))
    ∧ (q.sortOrder ≠ some "asc" →
        ((getReports q s).reports.map Prod.fst).Pairwise
          (fun a b => (sortKey q.sortPath (-1) b).le (sortKey q.sortPath (-1) a) = true))
    ∧ (q.sortBy = none → q.sortOrder = none →
        ((getReports q s).reports.map Prod.fst).Pairwise (fun a b => b.createdAt ≤ a.createdAt))
    ∧ (q.sortBy = some "priority" → q.sortOrder = some "asc" →
        ((getReports q s).reports.map Prod.fst).Pairwise (fun a b => a.priority ≤ b.priority))
    ∧ (q.sortBy = some "votes.upvotes" → q.sortOrder ≠ some "asc" →
        ((getReports q s).reports.map Prod.fst).Pairwise
          (fun a b => b.upvotes ≤ a.upvotes)) := by
  have hsub := getReports_sublist q s
  have hsorted := (findSorted_sorted q.filter q.sortPath q.dir s).sublist hsub
  have hperm := findSorted_listQuery q s
  have hpage : 1 ≤ q.page.getD 1 →
      (getReports q s).reports.map Prod.fst
        = skipLimit ((q.page.getD 1 - 1) * q.limit.getD 10) (q.limit.getD 10)
            (findSorted q.filter q.sortPath q.dir s) := by
    intro hp
    rw [getReports_eq q s hp]
    simp only [map_fst_populate]
  have hdesc : q.sortOrder ≠ some "asc" → q.dir = -1 := by
    intro hne
    simp only [ListQuery.dir]
    rw [if_neg]
    cases ho : q.sortOrder with
    | none => simp
    | some o =>
      intro h
      apply hne
      rw [ho]
      exact congrArg some h
  refine ⟨?_, hperm, ?_, hpage, ?_, ?_, ?_, ?_, ?_, ?_, ?_⟩
  · intro x hx
    have hm : x.1 ∈ findSorted q.filter q.sortPath q.dir s :=
      hsub.subset (List.mem_map_of_mem Prod.fst hx)
    have hmem := (mem_findSorted _ _ _ _ _).1 hm
    have ht := hmem.2
    simp only [Filter.test, ListQuery.filter, Bool.and_eq_true] at ht
    obtain ⟨⟨⟨-, h1⟩, h2⟩, h3⟩ := ht
    refine ⟨hmem.1, ?_, ?_, ?_⟩
    · intro c hc hne
      rw [hc, given_some hne] at h1
      simpa using h1
    · intro c hc hne
      rw [hc, given_some hne] at h2
      simpa using h2
    · intro c hc hne
      rw [hc, given_some hne] at h3
      simpa using h3
  · intro h1 h2 h3
    refine hperm.trans (List.Perm.of_eq ?_)
    simp [h1, h2, h3]
  · intro r hr h1 h2 h3 hl
    have hm : r ∈ findSorted q.filter q.sortPath q.dir s := by
      rw [hperm.mem_iff, List.mem_filter]
      exact ⟨hr, by simpa using ⟨h1, h2, h3⟩⟩
    obtain ⟨page, hp, hmem⟩ := mem_page _ (q.limit.getD 10) hl r hm
    refine ⟨page, ?_⟩
    rw [getReports_eq { q with page := some page } s (by simpa using hp)]
    simp only [map_fst_populate]
    exact hmem
  · intro hp hl
    rw [hpage (by omega), hp]
    refine (List.Perm.of_eq ?_).trans hperm
    have hlen := findSorted_length q.filter q.sortPath q.dir s
    simp only [skipLimit, Nat.sub_self, Nat.zero_mul, List.drop_zero]
    split_ifs
    · rfl
    · exact List.take_of_length_le (by omega)
  · intro hasc
    have hdir : q.dir = 1 := by simp [ListQuery.dir, hasc]
    rw [hdir] at hsorted
    simpa [sortBefore] using hsorted
  · intro hne
    rw [hdesc hne] at hsorted
    simpa [sortBefore] using hsorted
  · intro hby hord
    have hdir : q.dir = -1 := by simp [ListQuery.dir, hord]
    have hpath : q.sortPath = "createdAt" := by simp [ListQuery.sortPath, hby]
    rw [hdir, hpath] at hsorted
    simpa [sortBefore, sortKey, SortVal.le] using hsorted
  · intro hby hasc
    have hdir : q.dir = 1 := by simp [ListQuery.dir, hasc]
    have hpath : q.sortPath = "priority" := by simp [ListQuery.sortPath, hby]
    rw [hdir, hpath] at hsorted
    simpa [sortBefore, sortKey, SortVal.le] using hsorted
  · intro hby hne
    have hpath : q.sortPath = "votes.upvotes" := by simp [ListQuery.sortPath, hby]
    rw [hdesc hne, hpath] at hsorted
    simpa [sortBefore, sortKey, SortVal.le] using hsorted

/-- The potholes of a store of four reports, by ascending priority: the water
leak is left out, and the potholes come in the order of the priorities 1, 3, 4. -/
theorem getReports_filter_sort_witness :
    potholesByPriority.sortBy = some "priority" ∧ potholesByPriority.sortOrder = some "asc"
    ∧ (getReports potholesByPriority mixedStore).reports.map
        (fun x => (x.1.id, x.1.category, x.1.priority))
      = [(3, "pothole", 1), (1, "pothole", 3), (4, "pothole", 4)]
    ∧ (getReports allByUpvotes mixedStore).reports.map (fun x => (x.1.id, x.1.upvotes))
      = [(2, 9), (3, 5), (1, 2), (4, 0)]
    ∧ (getReports allByTags mixedStore).reports.map (fun x => x.1.id) = [3, 4, 1, 2]
    ∧ ((getReports potholesByPriority mixedStore).reports.map Prod.fst).Pairwise
        (fun a b => a.priority ≤ b.priority) :=
  ⟨rfl, rfl, by decide, by decide, by decide,
    (getReports_filter_sort potholesByPriority mixedStore).2.2.2.2.2.2.2.2.2.1 rfl rfl⟩

/-! ## The claims on `searchReports` -/

/-- The answer of `searchReports` to a non-empty pattern that the engine accepts,
when the page is at least 1. -/
theorem searchReports_eq (eng : Engine) (query : SearchQuery) (s : Store) (q : String)
    (m : String → Bool) (hq : query.q = some q) (hne : q ≠ "") (hm : eng.regex q = some m)
    (hp : 1 ≤ query.page.getD 1) :
    searchReports eng query s =
      { code := 200
        success := true
        message := none
        reports := (skipLimit ((query.page.getD 1 - 1) * query.limit.getD 10)
          (query.limit.getD 10)
          (findSorted (query.filter m) "createdAt" (-1) s)).map (fun r => (r, populate s r))
        data := [("query", .str q), ("totalResults", .num (countDocuments (query.filter m) s))]
        pagination :=
          [("currentPage", .num (query.page.getD 1)),
           ("totalPages", ceilDiv (countDocuments (query.filter m) s) (query.limit.getD 10))] } := by
  have h0 : ¬ (query.page.getD 1 = 0 ∧ 0 < query.limit.getD 10) := by
    intro h
    omega
  simp only [searchReports, hq, given_some hne, hm, if_neg h0]

/-- The reports of an answer of `searchReports` are among the reports that the
matcher of the pattern accepts. -/
theorem searchReports_mem (eng : Engine) (query : SearchQuery) (s : Store) (q : String)
    (hq : query.q = some q) (hne : q ≠ "") (x : Report × Option Assignee)
    (hx : x ∈ (searchReports eng query s).reports) :
    ∃ m, eng.regex q = some m ∧ x.1 ∈ s.reports
      ∧ (m x.1.title = true ∨ m x.1.description = true ∨ m x.1.address = true) := by
  cases hm : eng.regex q with
  | none =>
    simp [searchReports, hq, given_some hne, hm, ListResponse.fail] at hx
  | some m =>
    refine ⟨m, rfl, ?_⟩
    have hin : x.1 ∈ findSorted (query.filter m) "createdAt" (-1) s := by
      by_cases h0 : query.page.getD 1 = 0 ∧ 0 < query.limit.getD 10
      · simp [searchReports, hq, given_some hne, hm, if_pos h0, ListResponse.fail] at hx
      · simp only [searchReports, hq, given_some hne, hm, if_neg h0, List.mem_map] at hx
        obtain ⟨r, hr, hrx⟩ := hx
        rw [← hrx]
        exact (skipLimit_sublist _ _ _).subset hr
    obtain ⟨h1, h2⟩ := (mem_findSorted _ _ _ _ _).1 hin
    refine ⟨h1, ?_⟩
    simp only [Filter.test, SearchQuery.filter, Bool.and_eq_true, Bool.or_eq_true] at h2
    obtain ⟨⟨⟨h3, -⟩, -⟩, -⟩ := h2
    rcases h3 with (h3 | h3) | h3
    · exact Or.inl h3
    · exact Or.inr (Or.inl h3)
    · exact Or.inr (Or.inr h3)

/-- C15 (amended): for a non-empty `q`, every report that `searchReports` returns
has a title, a description or an address that the regular expression `q` matches
under the option `i`; when `q` has no character with a meaning in regular
expressions, and the engine reads such a pattern as plain text, that field
contains `q`, letters compared without regard to case. -/
theorem searchReports_matches (eng : Engine) (query : SearchQuery) (s : Store) (q : String)
    (hq : query.q = some q) (hne : q ≠ "") :
    (∀ x ∈ (searchReports eng query s).reports, ∃ m, eng.regex q = some m
      ∧ (m x.1.title = true ∨ m x.1.description = true ∨ m x.1.address = true))
    ∧ (eng.Literal → isPlain q = true → ∀ x ∈ (searchReports eng query s).reports,
        containsCI q x.1.title = true ∨ containsCI q x.1.description = true
          ∨ containsCI q x.1.address = true) := by
  constructor
  · intro x hx
    obtain ⟨m, hm, -, h⟩ := searchReports_mem eng query s q hq hne x hx
    exact ⟨m, hm, h⟩
  · intro hlit hplain x hx
    obtain ⟨m, hm, -, h⟩ := searchReports_mem eng query s q hq hne x hx
    obtain ⟨m1, hm1, hspec⟩ := hlit q hplain
    rw [hm] at hm1
    have hmm : m = m1 := Option.some.inj hm1
    subst hmm
    simpa [hspec] using h

theorem sampleEngine_literal : sampleEngine.Literal := by
  intro q hq
  exact ⟨containsCI q, by simp [sampleEngine, hq], fun _ => rfl⟩

theorem sampleEngine_literal_t : sampleEngine.regex "t" = some (containsCI "t") := by
  have h : isPlain "t" = true := by decide
  simp [sampleEngine, h]

/-- A search for `t` in the sample store finds the report whose title is `T`. -/
theorem searchReports_matches_witness :
    (⟨some "t", none, none, none, none⟩ : SearchQuery).q = some "t" ∧ "t" ≠ ""
    ∧ (searchReports sampleEngine ⟨some "t", none, none, none, none⟩ sampleStore).reports.map
        (fun x => x.1.title) = ["T"]
    ∧ ∀ x ∈ (searchReports sampleEngine ⟨some "t", none, none, none, none⟩ sampleStore).reports,
        containsCI "t" x.1.title = true ∨ containsCI "t" x.1.description = true
          ∨ containsCI "t" x.1.address = true :=
  ⟨rfl, by decide, by decide,
    (searchReports_matches sampleEngine ⟨some "t", none, none, none, none⟩ sampleStore "t" rfl
      (by decide)).2 sampleEngine_literal (by decide)⟩

/-- C15 as stated fails: the pattern `.` matches every character, so a search for
`.` returns the sample report, none of whose title `T`, description `D` and
address `A` contains a dot. -/
theorem searchReports_matches_counterexample :
    (searchReports sampleEngine ⟨some ".", none, none, none, none⟩ sampleStore).reports.map
        (fun x => (x.1.title, x.1.description, x.1.address)) = [("T", "D", "A")]
    ∧ containsCI "." "T" = false ∧ containsCI "." "D" = false ∧ containsCI "." "A" = false := by
  decide

/-- C16: `searchReports` answers 400 whenever `q` is absent or empty, and the
answer is the same whatever the store and the engine are. -/
theorem searchReports_requires_query (eng : Engine) (query : SearchQuery) (s : Store)
    (h : query.q = none ∨ query.q = some "") :
    searchReports eng query s = ListResponse.fail 400 "Search query is required"
    ∧ (searchReports eng query s).code = 400
    ∧ ∀ (eng1 : Engine) (s1 : Store), searchReports eng1 query s1 = searchReports eng query s := by
  have hg : given query.q = none := by
    rcases h with h | h <;> rw [h] <;> rfl
  have hall : ∀ (e : Engine) (t : Store),
      searchReports e query t = ListResponse.fail 400 "Search query is required" := by
    intro e t
    simp only [searchReports, hg]
  refine ⟨hall eng s, by rw [hall eng s]; rfl, ?_⟩
  intro e t
  rw [hall e t, hall eng s]

theorem searchReports_requires_query_witness :
    (searchReports sampleEngine ⟨some "", none, none, none, none⟩ sampleStore).code = 400
    ∧ (searchReports sampleEngine ⟨none, none, none, none, none⟩ sampleStore).code = 400 :=
  ⟨(searchReports_requires_query sampleEngine ⟨some "", none, none, none, none⟩ sampleStore
      (Or.inr rfl)).2.1,
   (searchReports_requires_query sampleEngine ⟨none, none, none, none, none⟩ sampleStore
      (Or.inl rfl)).2.1⟩

/-- C17 (amended): for a page and a limit that are at least 1 and `N` matching
reports, the `pagination` of `searchReports` carries `currentPage` and
`totalPages`, the ceiling of `N / limit` as in `getReports`; the total `N` is the
field `totalResults` beside it, and `pagination` has no `totalReports`, no
`hasNextPage` and no `hasPrevPage`. -/
theorem searchReports_pagination (eng : Engine) (query : SearchQuery) (s : Store) (q : String)
    (m : String → Bool) (page limit N : Nat) (hq : query.q = some q) (hne : q ≠ "")
    (hm : eng.regex q = some m) (hp : query.page.getD 1 = page)
    (hl : query.limit.getD 10 = limit) (hp1 : 1 ≤ page) (hl1 : 1 ≤ limit)
    (hN : countDocuments (query.filter m) s = N) :
    (searchReports eng query s).code = 200
    ∧ (searchReports eng query s).data.lookup "totalResults" = some (.num N)
    ∧ (searchReports eng query s).pagination
        = [("currentPage", .num page), ("totalPages", .num ((N + limit - 1) / limit))]
    ∧ (N ≤ (N + limit - 1) / limit * limit ∧ (N + limit - 1) / limit * limit < N + limit)
    ∧ (searchReports eng query s).pagination.lookup "totalReports" = none
    ∧ (searchReports eng query s).pagination.lookup "hasNextPage" = none
    ∧ (searchReports eng query s).pagination.lookup "hasPrevPage" = none := by
  have hlim : limit ≠ 0 := by omega
  have heq := searchReports_eq eng query s q m hq hne hm (by omega)
  rw [hp, hl, hN] at heq
  simp only [ceilDiv, if_neg hlim] at heq
  rw [heq]
  exact ⟨rfl, rfl, rfl, ceil_bounds N limit hl1, rfl, rfl, rfl⟩

theorem searchReports_pagination_witness :
    (searchReports sampleEngine ⟨some "t", none, none, some 1, some 10⟩ sampleStore).code = 200
    ∧ (searchReports sampleEngine ⟨some "t", none, none, some 1, some 10⟩ sampleStore).pagination
        = [("currentPage", .num 1), ("totalPages", .num 1)] :=
  ⟨(searchReports_pagination sampleEngine ⟨some "t", none, none, some 1, some 10⟩ sampleStore "t"
      (containsCI "t") 1 10 1 rfl (by decide) (sampleEngine_literal_t) rfl rfl (by decide)
      (by decide) (by decide)).1,
   (searchReports_pagination sampleEngine ⟨some "t", none, none, some 1, some 10⟩ sampleStore "t"
      (containsCI "t") 1 10 1 rfl (by decide) (sampleEngine_literal_t) rfl rfl (by decide)
      (by decide) (by decide)).2.2.1⟩

/-- C17 as stated fails: on the same store and page `getReports` returns
`hasNextPage`, `hasPrevPage` and the total in `pagination`, and `searchReports`
returns none of the three there. -/
theorem searchReports_pagination_counterexample :
    (getReports (pageQuery 1 10) sampleStore).pagination.lookup "hasNextPage"
        = some (.bool false)
    ∧ (getReports (pageQuery 1 10) sampleStore).pagination.lookup "hasPrevPage"
        = some (.bool false)
    ∧ (searchReports sampleEngine ⟨some "t", none, none, some 1, some 10⟩
        sampleStore).pagination.lookup "hasNextPage" = none
    ∧ (searchReports sampleEngine ⟨some "t", none, none, some 1, some 10⟩
        sampleStore).pagination.lookup "hasPrevPage" = none
    ∧ (searchReports sampleEngine ⟨some "t", none, none, some 1, some 10⟩
        sampleStore).pagination = [("currentPage", .num 1), ("totalPages", .num 1)] := by
  decide

/-! ## The claims on assignment -/

/-- Once the ids of the request have been cast, `assignReport` answers 404
whenever no user has the given user id or no report has the given report id, and
the store is then left as it was; when both exist (the report being
schema-valid) it answers 200 and the stored report's `assignedTo` is the given
user id. -/
theorem assignReport_checks (now reportId : Nat) (userId : Option Nat) (s : Store) :
    (s.findUser userId = none ∨ s.findReport reportId = none →
      (assignReport now reportId userId s).1.code = 404
        ∧ (assignReport now reportId userId s).2 = s)
    ∧ (∀ u r, s.findUser userId = some u → s.findReport reportId = some r →
        r.validate = true →
        (assignReport now reportId userId s).1.code = 200
          ∧ ∃ r1, (assignReport now reportId userId s).2.findReport reportId = some r1
            ∧ r1.assignedTo = userId) := by
  constructor
  · intro h
    cases hu : s.findUser userId with
    | none => simp [assignReport, hu, Response.plain]
    | some u =>
      rcases h with h | h
      · rw [hu] at h
        cases h
      · simp [assignReport, hu, h, Response.plain]
  · intro u r hu hr hv
    obtain ⟨t, s1, heq, hfind, -, -, -⟩ :=
      assignReport_ok now reportId userId s u r hu hr (assignEdit_validate userId r hv)
    rw [heq]
    exact ⟨rfl, _, hfind, by simp⟩

theorem assignReport_checks_witness :
    ((assignReport 5 1 (some 99) sampleStore).1.code = 404
      ∧ (assignReport 5 1 (some 99) sampleStore).2 = sampleStore)
    ∧ ((assignReport 5 2 (some 7) sampleStore).1.code = 404
      ∧ (assignReport 5 2 (some 7) sampleStore).2 = sampleStore)
    ∧ ((assignReport 5 1 (some 7) sampleStore).1.code = 200
      ∧ ∃ r1, (assignReport 5 1 (some 7) sampleStore).2.findReport 1 = some r1
        ∧ r1.assignedTo = some 7) :=
  ⟨(assignReport_checks 5 1 (some 99) sampleStore).1 (Or.inl (by decide)),
   (assignReport_checks 5 2 (some 7) sampleStore).1 (Or.inr (by decide)),
   (assignReport_checks 5 1 (some 7) sampleStore).2 sampleUser sampleReport (by decide)
     (by decide) (by decide)⟩

theorem findUser_isSome_iff (s : Store) (a : Nat) :
    (s.findUser (some a)).isSome = true ↔ ∃ u ∈ s.users, u.id = a := by
  simp only [Store.findUser, List.find?_isSome]
  constructor
  · rintro ⟨u, hu, h⟩
    exact ⟨u, hu, by simpa using h⟩
  · rintro ⟨u, hu, h⟩
    exact ⟨u, hu, by simpa using h⟩

/-- One call that looks up the users it assigns keeps every `assignedTo`
pointing to a stored user. -/
theorem assigned_step (lib : Lib) (s : Store) (op : Op) (hop : op.assignsChecked = true)
    (h : ∀ r ∈ s.reports, ∀ a, r.assignedTo = some a → (s.findUser (some a)).isSome = true) :
    ∀ r ∈ (step lib s op).2.reports, ∀ a, r.assignedTo = some a →
      ((step lib s op).2.findUser (some a)).isSome = true := by
  have husers : ∀ a, (step lib s op).2.findUser (some a) = s.findUser (some a) := by
    intro a
    simp only [Store.findUser, step_users]
  intro r hr a ha
  rw [husers]
  rcases step_mem lib s op r hr with h1 | ⟨-, h1⟩
  · exact h r h1 a ha
  · cases op with
    | create now req =>
      have hnone : req.body.assignedTo = none := by
        simpa [Op.assignsChecked] using hop
      have h2 : r.assignedTo = req.body.assignedTo := h1
      rw [h2, hnone] at ha
      cases ha
    | updateStatus now id body =>
      have hnone : body.assignedTo = none := by
        simpa [Op.assignsChecked] using hop
      have h2 : ∃ old, s.findReport id = some old ∧
          r.assignedTo = if body.assignedTo.isSome = true then body.assignedTo
            else old.assignedTo := h1
      obtain ⟨old, hf, h3⟩ := h2
      rw [hnone] at h3
      have h4 : r.assignedTo = old.assignedTo := by simpa using h3
      exact h old (List.mem_of_find?_eq_some hf) a (by rw [← h4]; exact ha)
    | assign now reportId userId =>
      have h2 : r.assignedTo = userId ∧ (s.findUser userId).isSome = true := h1
      rw [h2.1] at ha
      rw [← ha]
      exact h2.2

theorem assigned_run (lib : Lib) (ops : List Op) :
    ∀ s : Store, (∀ op ∈ ops, op.assignsChecked = true) →
      (∀ r ∈ s.reports, ∀ a, r.assignedTo = some a → (s.findUser (some a)).isSome = true) →
      ∀ r ∈ (run lib s ops).reports, ∀ a, r.assignedTo = some a →
        ((run lib s ops).findUser (some a)).isSome = true := by
  induction ops with
  | nil => intro s _ h; exact h
  | cons op ops ih =>
    intro s hops h
    simp only [run]
    exact ih _ (fun o ho => hops o (List.mem_cons_of_mem _ ho))
      (assigned_step lib s op (hops op (List.mem_cons_self _ _)) h)

/-- C19 (amended): in every store reached from one without reports by
`createReport` and `updateReportStatus` calls whose body carries no `assignedTo`
and by `assignReport` calls, the users are the ones of the start and every report
whose `assignedTo` is set points to one of them. -/
theorem assignedTo_references_user (lib : Lib) (users : List User) (ops : List Op)
    (hops : ∀ op ∈ ops, op.assignsChecked = true) :
    (run lib (Store.empty users) ops).users = users
    ∧ ∀ r ∈ (run lib (Store.empty users) ops).reports, ∀ a, r.assignedTo = some a →
        ∃ u ∈ users, u.id = a := by
  have hu : (run lib (Store.empty users) ops).users = users := run_users lib ops _
  refine ⟨hu, ?_⟩
  intro r hr a ha
  have h := assigned_run lib ops (Store.empty users) hops
    (by intro r0 h0; simp [Store.empty] at h0) r hr a ha
  rw [findUser_isSome_iff, hu] at h
  exact h

theorem assignedTo_references_user_witness :
    (∀ op ∈ [Op.create 0 ⟨minimalBody, []⟩, .assign 5 1 (some 7)], op.assignsChecked = true)
    ∧ (run sampleLib (Store.empty [sampleUser])
        [.create 0 ⟨minimalBody, []⟩, .assign 5 1 (some 7)]).reports.map
          (fun r => r.assignedTo) = [some 7]
    ∧ ∀ r ∈ (run sampleLib (Store.empty [sampleUser])
        [.create 0 ⟨minimalBody, []⟩, .assign 5 1 (some 7)]).reports,
        ∀ a, r.assignedTo = some a → ∃ u ∈ [sampleUser], u.id = a :=
  ⟨by decide, by decide,
    (assignedTo_references_user sampleLib [sampleUser]
      [.create 0 ⟨minimalBody, []⟩, .assign 5 1 (some 7)] (by decide)).2⟩

/-- C19 as stated fails: a creation whose body carries `assignedTo: 99`, and a
status update whose body carries it, both store a report assigned to the id 99,
which no user has. -/
theorem assignedTo_references_user_counterexample :
    ((run sampleLib (Store.empty [sampleUser]) [createAssigned]).reports.map
        (fun r => r.assignedTo) = [some 99]
      ∧ (run sampleLib (Store.empty [sampleUser]) [createAssigned]).findUser (some 99) = none)
    ∧ ((run sampleLib (Store.empty [sampleUser])
          [.create 0 ⟨minimalBody, []⟩, updateAssigned]).reports.map
        (fun r => r.assignedTo) = [some 99]
      ∧ (run sampleLib (Store.empty [sampleUser])
          [.create 0 ⟨minimalBody, []⟩, updateAssigned]).findUser (some 99) = none) := by
  decide

/-! ## The claims on the requests of the administrative routes -/

theorem find_replaceUser_same (doc : User) (l : List User) (id : Nat) (old : User)
    (h : l.find? (fun u => u.id = id) = some old) (hid : doc.id = id) :
    (replaceUser doc l).find? (fun u => u.id = id) = some doc := by
  induction l with
  | nil => simp at h
  | cons x xs ih =>
    simp only [replaceUser]
    by_cases hx : x.id = id
    · simp [hx, hid]
    · have hx2 : ¬ x.id = doc.id := by rw [hid]; exact hx
      simp only [hx2, if_false, List.find?_cons, hx, decide_False]
      apply ih
      simpa [List.find?_cons, hx] using h

theorem findUser_id {s : Store} {id : Nat} {u : User} (h : s.findUser (some id) = some u) :
    u.id = id := by
  have := List.find?_some h
  simpa using this

/-- Notes over the limit are written by the edit of `updateReportStatus`, and
the edited document fails validation. -/
theorem statusEdit_invalid (now : Nat) (body : StatusBody) (r : Report)
    (hn : notesFit body.adminNotes = false) : (statusEdit now body r).validate = false := by
  have ht : truthy body.adminNotes = true := by
    cases h : body.adminNotes with
    | none => simp [h, notesFit] at hn
    | some x =>
      by_cases hx : x = ""
      · subst hx
        rw [h] at hn
        simp [notesFit, jsLength] at hn
      · simp [truthy, hx]
  have hnotes : (statusEdit now body r).adminNotes = body.adminNotes := by simp [ht]
  simp only [Report.validate]
  rw [hnotes, hn]
  simp

/-- A request of `updateReportStatus` for an existing report whose notes are over
the limit is answered 500, and the store is left as it was. -/
theorem updateReportStatus_invalid (now id : Nat) (body : StatusBody) (s : Store) (r : Report)
    (hst : includes statuses body.status = true) (hr : s.findReport id = some r)
    (hn : notesFit body.adminNotes = false) :
    updateReportStatus now id body s
      = (Response.plain 500 "Failed to update report status", s) := by
  simp [updateReportStatus, hst, hr, save_invalid _ _ _ _ (statusEdit_invalid now body r hn)]

/-- The UTF-16 length of a string that repeats one character. -/
theorem jsLength_replicate (n : Nat) (c : Char) :
    jsLength (String.mk (List.replicate n c)) = n * (if c.toNat < 65536 then 1 else 2) := by
  simp only [jsLength, List.map_replicate, List.sum_replicate, smul_eq_mul]

/-- A request of `updateReportStatus` for an existing report, addressed by a
well-formed id, whose notes are over the limit or whose `assignedTo` is no
ObjectId, is answered 500, and the store is left as it was. -/
theorem updateReportStatusRoute_invalid (ids : ObjectIds) (now : Nat) (req : StatusRequest)
    (s : Store) (id : Nat) (r : Report) (hinc : includes statuses req.status = true)
    (hid : ids.cast req.id = some id) (hr : s.findReport id = some r)
    (h : notesFit req.adminNotes = false
      ∨ (∃ a, req.assignedTo = some a ∧ a ≠ "" ∧ ids.cast a = none)) :
    updateReportStatusRoute ids now req s
      = (Response.plain 500 "Failed to update report status", s) := by
  cases hg : given req.assignedTo with
  | none =>
    rcases h with hn | ⟨a, ha1, ha2, -⟩
    · simp only [updateReportStatusRoute, hinc, hid, hg, Bool.not_true, Bool.false_eq_true,
        if_false]
      exact updateReportStatus_invalid now id ⟨req.status, req.adminNotes, none⟩ s r hinc hr hn
    · rw [ha1, given_some ha2] at hg
      cases hg
  | some b =>
    cases hu : ids.cast b with
    | none =>
      simp [updateReportStatusRoute, hinc, hid, hg, hu, hr]
    | some u =>
      rcases h with hn | ⟨a, ha1, ha2, ha3⟩
      · simp only [updateReportStatusRoute, hinc, hid, hg, hu, Bool.not_true,
          Bool.false_eq_true, if_false]
        exact updateReportStatus_invalid now id ⟨req.status, req.adminNotes, some u⟩ s r hinc
          hr hn
      · rw [ha1, given_some ha2] at hg
        have hab : a = b := Option.some.inj hg
        rw [hab, hu] at ha3
        cases ha3

/-- C4 (amended): `updateReportStatus`, on the strings of the request, answers 400
whenever the requested status is none of `pending`, `in_progress`, `resolved`,
`rejected` (a missing status included, whether or not the report exists and
whatever the id of the path is); when the status is one of the four it answers
404 if the id of the path is a well-formed ObjectId that no report has, and 500
if the id is no well-formed ObjectId; in all three cases the store is left as it
was. -/
theorem updateReportStatusRoute_errors (ids : ObjectIds) (now : Nat) (req : StatusRequest)
    (s : Store) :
    ((req.status ≠ some "pending" ∧ req.status ≠ some "in_progress"
        ∧ req.status ≠ some "resolved" ∧ req.status ≠ some "rejected") →
      (updateReportStatusRoute ids now req s).1.code = 400
        ∧ (updateReportStatusRoute ids now req s).2 = s)
    ∧ ((req.status = some "pending" ∨ req.status = some "in_progress"
        ∨ req.status = some "resolved" ∨ req.status = some "rejected") →
      (∀ id, ids.cast req.id = some id → s.findReport id = none →
        (updateReportStatusRoute ids now req s).1.code = 404
          ∧ (updateReportStatusRoute ids now req s).2 = s)
      ∧ (ids.cast req.id = none →
        (updateReportStatusRoute ids now req s).1.code = 500
          ∧ (updateReportStatusRoute ids now req s).2 = s)) := by
  constructor
  · rintro ⟨h1, h2, h3, h4⟩
    have hst : includes statuses req.status = false := by
      rw [Bool.eq_false_iff, ne_eq, includes_statuses]
      tauto
    simp [updateReportStatusRoute, hst, Response.plain]
  · intro h
    have hst : includes statuses req.status = true := (includes_statuses _).2 h
    constructor
    · intro id hid hf
      cases hg : given req.assignedTo with
      | none =>
        simp only [updateReportStatusRoute, hst, hid, hg, Bool.not_true, Bool.false_eq_true,
          if_false]
        exact (updateReportStatus_errors now id _ s).2 h hf
      | some a =>
        cases hu : ids.cast a with
        | none =>
          simp [updateReportStatusRoute, hst, hid, hg, hu, hf, Response.plain]
        | some u =>
          simp only [updateReportStatusRoute, hst, hid, hg, hu, Bool.not_true,
            Bool.false_eq_true, if_false]
          exact (updateReportStatus_errors now id _ s).2 h hf
    · intro hid
      simp [updateReportStatusRoute, hst, hid, Response.plain]

theorem updateReportStatusRoute_errors_witness :
    ((updateReportStatusRoute hexIds 5 ⟨"000000000000000000000001", some "done", none, none⟩
        sampleStore).1.code = 400
      ∧ (updateReportStatusRoute hexIds 5 ⟨"000000000000000000000001", some "done", none, none⟩
        sampleStore).2 = sampleStore)
    ∧ ((updateReportStatusRoute hexIds 5 ⟨"000000000000000000000002", some "resolved", none, none⟩
        sampleStore).1.code = 404
      ∧ (updateReportStatusRoute hexIds 5 ⟨"000000000000000000000002", some "resolved", none, none⟩
        sampleStore).2 = sampleStore)
    ∧ ((updateReportStatusRoute hexIds 5 ⟨"abc", some "resolved", none, none⟩
        sampleStore).1.code = 500
      ∧ (updateReportStatusRoute hexIds 5 ⟨"abc", some "resolved", none, none⟩
        sampleStore).2 = sampleStore) :=
  ⟨(updateReportStatusRoute_errors hexIds 5 ⟨"000000000000000000000001", some "done", none, none⟩
      sampleStore).1 ⟨by decide, by decide, by decide, by decide⟩,
   ((updateReportStatusRoute_errors hexIds 5
      ⟨"000000000000000000000002", some "resolved", none, none⟩ sampleStore).2
      (Or.inr (Or.inr (Or.inl rfl)))).1 2 (by decide) (by decide),
   ((updateReportStatusRoute_errors hexIds 5 ⟨"abc", some "resolved", none, none⟩
      sampleStore).2 (Or.inr (Or.inr (Or.inl rfl)))).2 (by decide)⟩

/-- C4 as stated fails: the path id `abc` is the id of no report and the status
`resolved` is one of the four, and the answer is 500, not 404. -/
theorem updateReportStatusRoute_errors_counterexample :
    (∀ r ∈ sampleStore.reports, hexIds.toString r.id ≠ "abc")
    ∧ hexIds.cast "abc" = none
    ∧ (updateReportStatusRoute hexIds 5 ⟨"abc", some "resolved", none, none⟩ sampleStore).1
        = Response.plain 500 "Failed to update report status" := by
  decide

/-- C5 (amended): for an existing (schema-valid) report, whatever its current
status, addressed by a well-formed id, and a new status among the four values:
`updateReportStatus` answers 200 and the stored status is the new status when the
`adminNotes` of the body, if any, have at most 500 UTF-16 units and the
`assignedTo` of the body, if any and not empty, is a well-formed ObjectId; when
the notes are longer or `assignedTo` is no ObjectId it answers 500 and the store
is left as it was. No condition depends on the two statuses. -/
theorem updateReportStatusRoute_any_transition (ids : ObjectIds) (now : Nat)
    (req : StatusRequest) (s : Store) (id : Nat) (r : Report) (st : String)
    (hid : ids.cast req.id = some id) (hr : s.findReport id = some r) (hv : r.validate = true)
    (hst : req.status = some st)
    (hmem : st = "pending" ∨ st = "in_progress" ∨ st = "resolved" ∨ st = "rejected") :
    (notesFit req.adminNotes = true →
      (∀ a, req.assignedTo = some a → a ≠ "" → (ids.cast a).isSome = true) →
      (updateReportStatusRoute ids now req s).1.code = 200
        ∧ ∃ r1, (updateReportStatusRoute ids now req s).2.findReport id = some r1
          ∧ r1.status = st)
    ∧ (notesFit req.adminNotes = false
        ∨ (∃ a, req.assignedTo = some a ∧ a ≠ "" ∧ ids.cast a = none) →
      (updateReportStatusRoute ids now req s).1.code = 500
        ∧ (updateReportStatusRoute ids now req s).2 = s) := by
  have hinc : includes statuses req.status = true := by
    rw [includes_statuses, hst]
    simpa using hmem
  constructor
  · intro hn ha
    cases hg : given req.assignedTo with
    | none =>
      simp only [updateReportStatusRoute, hinc, hid, hg, Bool.not_true, Bool.false_eq_true,
        if_false]
      exact updateReportStatus_any_transition now id ⟨req.status, req.adminNotes, none⟩ s r st
        hr hv hst hmem hn
    | some a =>
      obtain ⟨ha1, ha2⟩ := given_eq_some hg
      cases hu : ids.cast a with
      | none =>
        have := ha a ha1 ha2
        simp [hu] at this
      | some u =>
        simp only [updateReportStatusRoute, hinc, hid, hg, hu, Bool.not_true,
          Bool.false_eq_true, if_false]
        exact updateReportStatus_any_transition now id ⟨req.status, req.adminNotes, some u⟩ s r
          st hr hv hst hmem hn
  · intro h
    rw [updateReportStatusRoute_invalid ids now req s id r hinc hid hr h]
    exact ⟨rfl, rfl⟩

theorem updateReportStatusRoute_any_transition_witness :
    hexIds.cast "000000000000000000000001" = some 1
    ∧ sampleStore.findReport 1 = some sampleReport ∧ sampleReport.validate = true
    ∧ (updateReportStatusRoute hexIds 5
        ⟨"000000000000000000000001", some "rejected", some "dup",
          some "000000000000000000000007"⟩ sampleStore).1.code = 200
    ∧ ∃ r1, (updateReportStatusRoute hexIds 5
        ⟨"000000000000000000000001", some "rejected", some "dup",
          some "000000000000000000000007"⟩ sampleStore).2.findReport 1 = some r1
      ∧ r1.status = "rejected" :=
  ⟨by decide, by decide, by decide,
    (updateReportStatusRoute_any_transition hexIds 5
      ⟨"000000000000000000000001", some "rejected", some "dup", some "000000000000000000000007"⟩
      sampleStore 1 sampleReport "rejected" (by decide) (by decide) (by decide) rfl
      (by decide)).1 (by decide) (by decide)⟩

/-- C5 as stated fails: the pending report of the sample store exists and
`resolved` is one of the four statuses, and the request is answered 500 with the
stored status unchanged when its notes have 501 characters, when they have 300
characters of two UTF-16 units each, and when its `assignedTo` is no ObjectId. -/
theorem updateReportStatusRoute_any_transition_counterexample :
    (sampleStore.findReport 1).map (fun r => r.status) = some "pending"
    ∧ longNotes.length = 501 ∧ astralNotes.length = 300
    ∧ (updateReportStatusRoute hexIds 5
        ⟨"000000000000000000000001", some "resolved", some longNotes, none⟩ sampleStore)
        = (Response.plain 500 "Failed to update report status", sampleStore)
    ∧ (updateReportStatusRoute hexIds 5
        ⟨"000000000000000000000001", some "resolved", some astralNotes, none⟩ sampleStore)
        = (Response.plain 500 "Failed to update report status", sampleStore)
    ∧ (updateReportStatusRoute hexIds 5
        ⟨"000000000000000000000001", some "resolved", none, some "abc"⟩ sampleStore)
        = (Response.plain 500 "Failed to update report status", sampleStore) := by
  have h1 : notesFit (some longNotes) = false := by
    simp only [notesFit, longNotes, jsLength_replicate]
    decide
  have h2 : notesFit (some astralNotes) = false := by
    simp only [notesFit, astralNotes, jsLength_replicate]
    decide
  exact ⟨by decide, List.length_replicate _ _, List.length_replicate _ _,
    updateReportStatusRoute_invalid hexIds 5
      ⟨"000000000000000000000001", some "resolved", some longNotes, none⟩ sampleStore 1
      sampleReport (by decide) (by decide) (by decide) (Or.inl h1),
    updateReportStatusRoute_invalid hexIds 5
      ⟨"000000000000000000000001", some "resolved", some astralNotes, none⟩ sampleStore 1
      sampleReport (by decide) (by decide) (by decide) (Or.inl h2),
    by decide⟩

/-- C18 (amended): `assignReport`, on the strings of the request, answers 404 when
the body has no `userId`, when `userId` is a well-formed ObjectId that no user
has, and when the user exists and the id of the path is a well-formed ObjectId
that no report has; it answers 500 when `userId` is no well-formed ObjectId, and
when the user exists and the id of the path is no well-formed ObjectId; in all
these cases the store is left as it was. When both exist (the report being
schema-valid) it answers 200 and the stored report's `assignedTo` is the user. -/
theorem assignReportRoute_checks (ids : ObjectIds) (now : Nat) (reportId : String)
    (userId : Option String) (s : Store) :
    (userId = none →
      (assignReportRoute ids now reportId userId s).1.code = 404
        ∧ (assignReportRoute ids now reportId userId s).2 = s)
    ∧ (∀ x u, userId = some x → ids.cast x = some u → s.findUser (some u) = none →
      (assignReportRoute ids now reportId userId s).1.code = 404
        ∧ (assignReportRoute ids now reportId userId s).2 = s)
    ∧ (∀ x u id, userId = some x → ids.cast x = some u → ids.cast reportId = some id →
      s.findReport id = none →
      (assignReportRoute ids now reportId userId s).1.code = 404
        ∧ (assignReportRoute ids now reportId userId s).2 = s)
    ∧ (∀ x, userId = some x → ids.cast x = none →
      (assignReportRoute ids now reportId userId s).1.code = 500
        ∧ (assignReportRoute ids now reportId userId s).2 = s)
    ∧ (∀ x u usr, userId = some x → ids.cast x = some u → s.findUser (some u) = some usr →
      ids.cast reportId = none →
      (assignReportRoute ids now reportId userId s).1.code = 500
        ∧ (assignReportRoute ids now reportId userId s).2 = s)
    ∧ (∀ x u id usr r, userId = some x → ids.cast x = some u → ids.cast reportId = some id →
      s.findUser (some u) = some usr → s.findReport id = some r → r.validate = true →
      (assignReportRoute ids now reportId userId s).1.code = 200
        ∧ ∃ r1, (assignReportRoute ids now reportId userId s).2.findReport id = some r1
          ∧ r1.assignedTo = some u) := by
  refine ⟨?_, ?_, ?_, ?_, ?_, ?_⟩
  · intro h
    simp [assignReportRoute, h, Response.plain]
  · intro x u hx hu hf
    simp [assignReportRoute, hx, hu, hf, Response.plain]
  · intro x u id hx hu hid hf
    cases hfu : s.findUser (some u) with
    | none => simp [assignReportRoute, hx, hu, hfu, Response.plain]
    | some usr =>
      simp only [assignReportRoute, hx, hu, hfu, hid]
      exact (assignReport_checks now id (some u) s).1 (Or.inr hf)
  · intro x hx hu
    simp [assignReportRoute, hx, hu, Response.plain]
  · intro x u usr hx hu hfu hid
    simp [assignReportRoute, hx, hu, hfu, hid, Response.plain]
  · intro x u id usr r hx hu hid hfu hf hv
    simp only [assignReportRoute, hx, hu, hfu, hid]
    exact (assignReport_checks now id (some u) s).2 usr r hfu hf hv

theorem assignReportRoute_checks_witness :
    ((assignReportRoute hexIds 5 "000000000000000000000001" (some "000000000000000000000063")
        sampleStore).1.code = 404
      ∧ (assignReportRoute hexIds 5 "000000000000000000000001" (some "000000000000000000000063")
        sampleStore).2 = sampleStore)
    ∧ ((assignReportRoute hexIds 5 "000000000000000000000002" (some "000000000000000000000007")
        sampleStore).1.code = 404
      ∧ (assignReportRoute hexIds 5 "000000000000000000000002" (some "000000000000000000000007")
        sampleStore).2 = sampleStore)
    ∧ ((assignReportRoute hexIds 5 "000000000000000000000001" (some "000000000000000000000007")
        sampleStore).1.code = 200
      ∧ ∃ r1, (assignReportRoute hexIds 5 "000000000000000000000001"
          (some "000000000000000000000007") sampleStore).2.findReport 1 = some r1
        ∧ r1.assignedTo = some 7) :=
  ⟨(assignReportRoute_checks hexIds 5 "000000000000000000000001"
      (some "000000000000000000000063") sampleStore).2.1 "000000000000000000000063" 99 rfl
      (by decide) (by decide),
   (assignReportRoute_checks hexIds 5 "000000000000000000000002"
      (some "000000000000000000000007") sampleStore).2.2.1 "000000000000000000000007" 7 2 rfl
      (by decide) (by decide) (by decide),
   (assignReportRoute_checks hexIds 5 "000000000000000000000001"
      (some "000000000000000000000007") sampleStore).2.2.2.2.2 "000000000000000000000007" 7 1
      sampleUser sampleReport rfl (by decide) (by decide) (by decide) (by decide) (by decide)⟩

/-- C18 as stated fails: no user has the id `abc`, and no report has it, and the
answer is 500, not 404, for the user id `abc` and, with an existing user, for the
report id `abc`. -/
theorem assignReportRoute_checks_counterexample :
    (∀ u ∈ sampleStore.users, hexIds.toString u.id ≠ "abc")
    ∧ (∀ r ∈ sampleStore.reports, hexIds.toString r.id ≠ "abc")
    ∧ assignReportRoute hexIds 5 "000000000000000000000001" (some "abc") sampleStore
        = (Response.plain 500 "Failed to assign report", sampleStore)
    ∧ assignReportRoute hexIds 5 "abc" (some "000000000000000000000007") sampleStore
        = (Response.plain 500 "Failed to assign report", sampleStore) := by
  decide

/-- Where the guard of `updateUserStatus` holds: for an existing user addressed
by the string that `toString` gives the id of the requester, a deactivation is
answered 400 and the store is left as it was; for every other string of the
path, and for every activation, the answer is 200 and the stored flag is the
requested one. -/
theorem updateUserStatus_guard (ids : ObjectIds) (requester : User) (userId : String)
    (v : Bool) (s : Store) (id : Nat) (u : User) (hid : ids.cast userId = some id)
    (hu : s.findUser (some id) = some u) :
    (userId = ids.toString requester.id → v = false →
      (updateUserStatus ids requester userId (some v) s).1.code = 400
        ∧ (updateUserStatus ids requester userId (some v) s).2 = s)
    ∧ (userId ≠ ids.toString requester.id ∨ v = true →
      (updateUserStatus ids requester userId (some v) s).1.code = 200
        ∧ ((updateUserStatus ids requester userId (some v) s).2.findUser (some id)).map
            (fun x => x.isActive) = some v) := by
  constructor
  · intro h1 h2
    have hc : userId = ids.toString requester.id ∧ v = false := ⟨h1, h2⟩
    simp only [updateUserStatus, hid, hu, if_pos hc]
    exact ⟨trivial, trivial⟩
  · intro h
    have hc : ¬ (userId = ids.toString requester.id ∧ v = false) := by
      rintro ⟨h1, h2⟩
      rcases h with h | h
      · exact h h1
      · rw [h2] at h
        cases h
    simp only [updateUserStatus, hid, hu, if_neg hc]
    refine ⟨trivial, ?_⟩
    have hf : (saveUser { u with isActive := v } s).findUser (some id)
        = some { u with isActive := v } :=
      find_replaceUser_same { u with isActive := v } _ id u hu
        (@findUser_id s id u hu)
    rw [hf]
    rfl

/-- C20: the administrator with id 10 deactivates the own account. Addressed by
the string that `toString` gives the id, the request is answered 400 and the
store is left as it was; addressed by the same 24 digits with the letter in upper
case, which `findById` casts to the same id, the request is answered 200 and the
stored `isActive` of the administrator is `false`. -/
theorem updateUserStatus_self_guard_spelling :
    hexIds.toString hexAdmin.id = "00000000000000000000000a"
    ∧ hexIds.cast "00000000000000000000000a" = some hexAdmin.id
    ∧ hexIds.cast "00000000000000000000000A" = some hexAdmin.id
    ∧ updateUserStatus hexIds hexAdmin "00000000000000000000000a" (some false)
          ⟨[], [sampleUser, hexAdmin]⟩
        = (⟨400, false, "Cannot deactivate your own account", none⟩,
            ⟨[], [sampleUser, hexAdmin]⟩)
    ∧ (updateUserStatus hexIds hexAdmin "00000000000000000000000A" (some false)
          ⟨[], [sampleUser, hexAdmin]⟩).1.code = 200
    ∧ ((updateUserStatus hexIds hexAdmin "00000000000000000000000A" (some false)
          ⟨[], [sampleUser, hexAdmin]⟩).2.findUser (some hexAdmin.id)).map
            (fun u => u.isActive) = some false := by
  decide

/-! ## The claims on the access guards -/

/-- C21: `requireAdmin` answers 401 when the request carries no user, answers 403
when it carries a user whose role is not `admin`, and calls `next`, sending no
answer, exactly when it carries a user whose role is `admin`. -/
theorem requireAdmin_outcomes (user : Option AuthUser) :
    (user = none → requireAdmin user = .refuse 401 "Authentication required")
    ∧ (∀ u, user = some u → u.role ≠ "admin" →
        requireAdmin user = .refuse 403 "Admin access required")
    ∧ (requireAdmin user = .next ↔ ∃ u, user = some u ∧ u.role = "admin") := by
  refine ⟨?_, ?_, ?_⟩
  · intro h
    rw [h]
    rfl
  · intro u h hr
    rw [h]
    simp [requireAdmin, hr]
  · cases user with
    | none => simp [requireAdmin]
    | some u =>
      by_cases hr : u.role = "admin"
      · simp [requireAdmin, hr]
      · simp [requireAdmin, hr]

theorem requireAdmin_outcomes_witness :
    requireAdmin none = .refuse 401 "Authentication required"
    ∧ requireAdmin (some citizenAuth) = .refuse 403 "Admin access required"
    ∧ requireAdmin (some adminAuth) = .next :=
  ⟨(requireAdmin_outcomes none).1 rfl,
   (requireAdmin_outcomes (some citizenAuth)).2.1 citizenAuth rfl (by decide),
   (requireAdmin_outcomes (some adminAuth)).2.2.2 ⟨adminAuth, rfl, rfl⟩⟩

/-- C22: for a request that carries a user, `requireAdminOrSelf` calls `next` if
and only if the role of the user is `admin` or the id string of the user is the
user id of the path (`params.userId`, or else `params.id`), and it answers 403 in
every other case. -/
theorem requireAdminOrSelf_outcomes (u : AuthUser) (paramUserId paramId : Option String) :
    (requireAdminOrSelf (some u) paramUserId paramId = .next
      ↔ (u.role = "admin" ∨ some u.id = orElse paramUserId paramId))
    ∧ (¬ (u.role = "admin" ∨ some u.id = orElse paramUserId paramId) →
        requireAdminOrSelf (some u) paramUserId paramId = .refuse 403 "Access denied")
    ∧ (∀ x, paramUserId = some x → x ≠ "" → orElse paramUserId paramId = some x)
    ∧ (paramUserId = none → orElse paramUserId paramId = paramId) := by
  refine ⟨?_, ?_, ?_, ?_⟩
  · by_cases h : u.role = "admin" ∨ some u.id = orElse paramUserId paramId
    · simp [requireAdminOrSelf, h]
    · simp [requireAdminOrSelf, h]
  · intro h
    simp [requireAdminOrSelf, h]
  · intro x h hx
    rw [h]
    simp [orElse, hx]
  · intro h
    rw [h]
    rfl

theorem requireAdminOrSelf_outcomes_witness :
    requireAdminOrSelf (some citizenAuth) (some "507f1f77bcf86cd799439012") none = .next
    ∧ requireAdminOrSelf (some citizenAuth) (some "507f1f77bcf86cd799439011") none
        = .refuse 403 "Access denied"
    ∧ requireAdminOrSelf (some adminAuth) (some "507f1f77bcf86cd799439012") none = .next :=
  ⟨(requireAdminOrSelf_outcomes citizenAuth (some "507f1f77bcf86cd799439012") none).1.2
      (Or.inr (by decide)),
   (requireAdminOrSelf_outcomes citizenAuth (some "507f1f77bcf86cd799439011") none).2.1
      (by decide),
   (requireAdminOrSelf_outcomes adminAuth (some "507f1f77bcf86cd799439012") none).1.2
      (Or.inl rfl)⟩

/-! ## The claim on the time frame of the analytics -/

/-- C27: the start date of `getReportsAnalytics` is the call time less 86400000 ms
for the time frame `24h`, less 7, 30 and 90 times 86400000 ms for `7d`, `30d` and
`90d`; for a missing time frame and for every other value it is the one of `7d`;
and it is the date from which the two aggregations count. -/
theorem startDate_timeframes (now : Nat) :
    startDate now (some "24h") = (now : Int) - 86400000
    ∧ startDate now (some "7d") = (now : Int) - 7 * 86400000
    ∧ startDate now (some "30d") = (now : Int) - 30 * 86400000
    ∧ startDate now (some "90d") = (now : Int) - 90 * 86400000
    ∧ startDate now none = startDate now (some "7d")
    ∧ (∀ tf, tf ≠ "24h" → tf ≠ "7d" → tf ≠ "30d" → tf ≠ "90d" →
        startDate now (some tf) = startDate now (some "7d"))
    ∧ (∀ tf s, (getReportsAnalytics now tf s).trendData = trendData (startDate now tf) s.reports
        ∧ (getReportsAnalytics now tf s).statusDistribution
            = statusDistribution (startDate now tf) s.reports) := by
  refine ⟨?_, ?_, ?_, ?_, rfl, ?_, fun _ _ => ⟨rfl, rfl⟩⟩
  · simp only [startDate, Option.getD_some]
    omega
  · simp only [startDate, Option.getD_some]
    omega
  · simp only [startDate, Option.getD_some]
    omega
  · simp only [startDate, Option.getD_some]
    omega
  · intro tf h1 h2 h3 h4
    simp only [startDate, Option.getD_some]

theorem startDate_timeframes_witness :
    startDate 1000000000 (some "24h") = 913600000
    ∧ startDate 1000000000 (some "1y") = startDate 1000000000 (some "7d")
    ∧ startDate 1000000000 (some "7d") = 395200000 :=
  ⟨by rw [(startDate_timeframes 1000000000).1]; rfl,
   (startDate_timeframes 1000000000).2.2.2.2.2.1 "1y" (by decide) (by decide) (by decide)
     (by decide),
   by rw [(startDate_timeframes 1000000000).2.1]; rfl⟩

/-! ## The claim on the tokens -/

/-- C29: a token of `generateRefreshToken` is rejected by `verifyToken` and a token
of `generateToken` is rejected by `verifyRefreshToken`, at every time; a token that
has not expired is accepted by the verifier of its own kind, which returns it;
and whatever makes `verifyToken` reject, the error is `Invalid or expired token`. -/
theorem token_kinds (env : Env) (issued now : Nat) :
    (∀ userId, verifyToken env now (some (generateRefreshToken env issued userId))
        = .error "Invalid or expired token")
    ∧ (∀ payload, verifyRefreshToken env now (some (generateToken env issued payload))
        = .error "Invalid or expired refresh token")
    ∧ (∀ payload, now < issued + env.expire.getD sevenDays →
        verifyToken env now (some (generateToken env issued payload))
          = .ok (generateToken env issued payload))
    ∧ (∀ userId, now < issued + thirtyDays →
        verifyRefreshToken env now (some (generateRefreshToken env issued userId))
          = .ok (generateRefreshToken env issued userId))
    ∧ (∀ token e, verifyToken env now token = .error e → e = "Invalid or expired token") := by
  refine ⟨?_, ?_, ?_, ?_, ?_⟩
  · intro userId
    simp only [verifyToken, verify, generateRefreshToken, sign]
    split_ifs <;> first | rfl | simp_all
  · intro payload
    simp only [verifyRefreshToken, verify, generateToken, sign]
    split_ifs <;> first | rfl | simp_all
  · intro payload h
    have h2 : ¬ issued + env.expire.getD sevenDays ≤ now := by omega
    simp [verifyToken, verify, generateToken, sign, h2]
  · intro userId h
    have h2 : ¬ issued + thirtyDays ≤ now := by omega
    simp [verifyRefreshToken, verify, generateRefreshToken, sign, h2]
  · intro token e h
    simp only [verifyToken] at h
    split at h
    · cases h
    · cases h
      rfl

theorem token_kinds_witness :
    verifyToken sampleEnv 10 (some (generateRefreshToken sampleEnv 0 "u1"))
        = .error "Invalid or expired token"
    ∧ verifyToken sampleEnv 10 (some (generateToken sampleEnv 0 [("userId", "u1")]))
        = .ok (generateToken sampleEnv 0 [("userId", "u1")])
    ∧ verifyToken sampleEnv sevenDays (some (generateToken sampleEnv 0 [("userId", "u1")]))
        = .error "Invalid or expired token" :=
  ⟨(token_kinds sampleEnv 0 10).1 "u1",
   (token_kinds sampleEnv 0 10).2.2.1 [("userId", "u1")] (by decide),
   by rfl⟩

/-! ## The claim on `hasNextPage` -/

theorem lt_ceil_iff (n d p : Nat) (hd : 1 ≤ d) : p < (n + d - 1) / d ↔ p * d < n := by
  rw [Nat.lt_iff_add_one_le, Nat.le_div_iff_mul_le (by omega), Nat.add_mul]
  generalize p * d = k
  omega

/-- C30: for a page and a limit that are at least 1 and `N` matching reports,
`hasNextPage` is true if and only if `page * limit < N`, and false otherwise;
`page * limit < N` says that the sorted matching list has a report after the
returned page; and a page above `totalPages` is empty. -/
theorem getReports_hasNextPage (q : ListQuery) (s : Store) (page limit N : Nat)
    (hp : q.page.getD 1 = page) (hl : q.limit.getD 10 = limit)
    (hp1 : 1 ≤ page) (hl1 : 1 ≤ limit) (hN : countDocuments q.filter s = N) :
    ((getReports q s).pagination.lookup "hasNextPage" = some (.bool true) ↔ page * limit < N)
    ∧ ((getReports q s).pagination.lookup "hasNextPage" = some (.bool false) ↔ N ≤ page * limit)
    ∧ (page * limit < N ↔
        ((findSorted q.filter q.sortPath q.dir s).drop ((page - 1) * limit)).drop limit ≠ [])
    ∧ ((getReports q s).pagination.lookup "totalPages" = some (.num ((N + limit - 1) / limit)))
    ∧ ((N + limit - 1) / limit < page → (getReports q s).reports = []) := by
  have hlim : limit ≠ 0 := by omega
  have hlen : (findSorted q.filter q.sortPath q.dir s).length = N := by
    rw [findSorted_length, hN]
  have hnext : (getReports q s).pagination.lookup "hasNextPage"
      = some (.bool (decide (page < (N + limit - 1) / limit))) := by
    rw [getReports_eq q s (by omega), hp, hl, hN]
    simp only [pageBelow, if_neg hlim]
    rfl
  have hiff := lt_ceil_iff N limit page hl1
  refine ⟨?_, ?_, ?_, ?_, ?_⟩
  · rw [hnext]
    simp [hiff]
  · rw [hnext]
    simp [hiff]
  · rw [List.drop_drop, ne_eq, List.drop_eq_nil_iff, hlen]
    have hmul : (page - 1) * limit + limit = page * limit := by
      obtain ⟨k, hk⟩ : ∃ k, page = k + 1 := ⟨page - 1, by omega⟩
      subst hk
      simp [Nat.add_mul]
    rw [hmul]
    omega
  · rw [getReports_eq q s (by omega), hl, hN]
    simp only [ceilDiv, if_neg hlim]
    rfl
  · intro hgt
    rw [getReports_eq q s (by omega), hp, hl]
    simp only [skipLimit, if_neg hlim]
    have hb := (ceil_bounds N limit hl1).1
    have hle : (N + limit - 1) / limit * limit ≤ (page - 1) * limit :=
      Nat.mul_le_mul_right _ (by omega)
    have hdrop : (findSorted q.filter q.sortPath q.dir s).drop ((page - 1) * limit) = [] := by
      rw [List.drop_eq_nil_iff, hlen]
      omega
    rw [hdrop]
    simp

theorem getReports_hasNextPage_witness :
    countDocuments (pageQuery 2 10).filter (storeOf 25) = 25
    ∧ (getReports (pageQuery 2 10) (storeOf 25)).pagination.lookup "hasNextPage"
        = some (.bool true)
    ∧ (getReports (pageQuery 4 10) (storeOf 25)).reports = [] :=
  ⟨by decide,
   (getReports_hasNextPage (pageQuery 2 10) (storeOf 25) 2 10 25 rfl rfl (by decide) (by decide)
      (by decide)).1.2 (by decide),
   (getReports_hasNextPage (pageQuery 4 10) (storeOf 25) 4 10 25 rfl rfl (by decide) (by decide)
      (by decide)).2.2.2.2 (by decide)⟩

/-! ## Lemmas on the aggregations -/

theorem length_filter_key {α : Type} [DecidableEq α] (key : Report → α) (l : List Report)
    (k : α) : (l.filter (fun r => key r = k)).length = (l.map key).count k := by
  induction l with
  | nil => rfl
  | cons x xs ih =>
    by_cases h : key x = k
    · simp [List.filter_cons, h, ih]
    · rw [List.map_cons, List.count_cons_of_ne (fun hk => h hk.symm), ← ih]
      simp [List.filter_cons, h]

theorem mem_firstKeys {α : Type} [DecidableEq α] (ks : List α) (k : α) :
    k ∈ firstKeys ks ↔ k ∈ ks := by
  simp [firstKeys]

theorem nodup_firstKeys {α : Type} [DecidableEq α] (ks : List α) : (firstKeys ks).Nodup := by
  simp only [firstKeys, List.nodup_reverse]
  exact List.nodup_dedup _

theorem sum_count_firstKeys {α : Type} [DecidableEq α] (ks : List α) :
    ((firstKeys ks).map (fun k => ks.count k)).sum = ks.length := by
  have h := List.sum_map_count_dedup_eq_length ks.reverse
  simp only [List.count_reverse, List.length_reverse] at h
  simp only [firstKeys, List.map_reverse, List.sum_reverse]
  exact h

theorem groupBy_fst {α : Type} [DecidableEq α] (key : Report → α) (l : List Report) :
    (groupBy key l).map Prod.fst = firstKeys (l.map key) := by
  simp only [groupBy, List.map_map]
  exact List.map_id _

theorem mem_groupBy {α : Type} [DecidableEq α] (key : Report → α) (l : List Report)
    (g : α × List Report) (h : g ∈ groupBy key l) :
    g.1 ∈ l.map key ∧ g.2 = l.filter (fun r => key r = g.1) := by
  simp only [groupBy, List.mem_map, mem_firstKeys] at h
  obtain ⟨k, hk, rfl⟩ := h
  exact ⟨List.mem_map.2 hk, rfl⟩

theorem groupBy_sum {α : Type} [DecidableEq α] (key : Report → α) (l : List Report) :
    ((groupBy key l).map (fun g => g.2.length)).sum = l.length := by
  simp only [groupBy, List.map_map]
  have h : ((fun g : α × List Report => g.2.length) ∘
      fun k => (k, l.filter (fun r => key r = k))) = fun k => (l.map key).count k := by
    funext k
    exact length_filter_key key l k
  rw [h, sum_count_firstKeys, List.length_map]

/-- An entry of a sorted list of groups is made of one of the groups. -/
theorem mem_sorted_groups {α β : Type} [DecidableEq α] (key : Report → α)
    (mk : α × List Report → β) (rel : β → β → Prop) [DecidableRel rel] (l : List Report)
    (e : β) (he : e ∈ ((groupBy key l).map mk).insertionSort rel) :
    ∃ k, k ∈ l.map key ∧ e = mk (k, l.filter (fun r => key r = k)) := by
  rw [(List.perm_insertionSort rel _).mem_iff, List.mem_map] at he
  obtain ⟨g, hg, rfl⟩ := he
  obtain ⟨h1, h2⟩ := mem_groupBy key l g hg
  refine ⟨g.1, h1, ?_⟩
  rw [← h2]

/-- The keys of a sorted list of groups are the keys that occur, each once. -/
theorem sorted_groups_keys {α β : Type} [DecidableEq α] (key : Report → α)
    (mk : α × List Report → β) (rel : β → β → Prop) [DecidableRel rel] (l : List Report)
    (idf : β → α) (hid : ∀ g, idf (mk g) = g.1) :
    ((((groupBy key l).map mk).insertionSort rel).map idf).Nodup
    ∧ ∀ k, k ∈ (((groupBy key l).map mk).insertionSort rel).map idf ↔ ∃ r ∈ l, key r = k := by
  have hperm : ((((groupBy key l).map mk).insertionSort rel).map idf).Perm
      (firstKeys (l.map key)) := by
    have h1 := (List.perm_insertionSort rel ((groupBy key l).map mk)).map idf
    have h2 : ((groupBy key l).map mk).map idf = firstKeys (l.map key) := by
      rw [List.map_map, ← groupBy_fst]
      apply List.map_congr_left
      intro g _
      exact hid g
    rw [h2] at h1
    exact h1
  refine ⟨hperm.nodup_iff.2 (nodup_firstKeys _), ?_⟩
  intro k
  rw [hperm.mem_iff, mem_firstKeys, List.mem_map]

/-- The sizes of the groups of a sorted list of groups add up to the number of reports. -/
theorem sorted_groups_sum {α β : Type} [DecidableEq α] (key : Report → α)
    (mk : α × List Report → β) (rel : β → β → Prop) [DecidableRel rel] (l : List Report)
    (cnt : β → Nat) (hc : ∀ g, cnt (mk g) = g.2.length) :
    ((((groupBy key l).map mk).insertionSort rel).map cnt).sum = l.length := by
  have h1 := ((List.perm_insertionSort rel ((groupBy key l).map mk)).map cnt).sum_eq
  rw [h1, List.map_map, ← groupBy_sum key l]
  congr 1
  apply List.map_congr_left
  intro g _
  exact hc g

/-- With every status in the enumeration, the four counts add up to the number of reports. -/
theorem countStatus_sum (l : List Report) (h : ∀ r ∈ l, r.status ∈ statuses) :
    countStatus "pending" l + countStatus "in_progress" l + countStatus "resolved" l
      + countStatus "rejected" l = l.length := by
  induction l with
  | nil => rfl
  | cons x xs ih =>
    have hx := h x (List.mem_cons_self _ _)
    have ih2 := ih (fun r hr => h r (List.mem_cons_of_mem _ hr))
    simp only [countStatus] at ih2 ⊢
    simp only [statuses, List.mem_cons, List.mem_singleton, List.not_mem_nil, or_false] at hx
    rcases hx with hx | hx | hx | hx <;> simp [List.countP_cons, hx] <;> omega

theorem overview_eq (s : Store) :
    (getReportsStats s).overview
      = ⟨s.reports.length, countStatus "pending" s.reports, countStatus "in_progress" s.reports,
          countStatus "resolved" s.reports, countStatus "rejected" s.reports⟩ := by
  by_cases h : s.reports = []
  · simp [getReportsStats, statsAggregate, h, countStatus]
  · simp [getReportsStats, statsAggregate, h]

theorem count_desc_total {β : Type} (cnt : β → Nat) :
    IsTotal β (fun a b => cnt b ≤ cnt a) :=
  ⟨fun a b => le_total (cnt b) (cnt a)⟩

theorem count_desc_trans {β : Type} (cnt : β → Nat) :
    IsTrans β (fun a b => cnt b ≤ cnt a) :=
  ⟨fun _ _ _ h1 h2 => le_trans h2 h1⟩

/-! ## The claim on `getReportsStats` -/

/-- C23: the overview of `getReportsStats` has the number of reports as `total`
and the numbers of reports of each status as `pending`, `inProgress`, `resolved`
and `rejected` (all 0 for an empty store); when every stored status is one of the
four, they add up to `total`. The category breakdown has one entry for each
category that occurs, its count is the number of reports of the category, the
entries are in non-increasing order of count and the counts add up to `total`. -/
theorem getReportsStats_counts (s : Store) :
    (getReportsStats s).overview.total = s.reports.length
    ∧ (getReportsStats s).overview.pending
        = (s.reports.filter (fun r => r.status = "pending")).length
    ∧ (getReportsStats s).overview.inProgress
        = (s.reports.filter (fun r => r.status = "in_progress")).length
    ∧ (getReportsStats s).overview.resolved
        = (s.reports.filter (fun r => r.status = "resolved")).length
    ∧ (getReportsStats s).overview.rejected
        = (s.reports.filter (fun r => r.status = "rejected")).length
    ∧ (s.reports = [] → (getReportsStats s).overview = ⟨0, 0, 0, 0, 0⟩)
    ∧ ((∀ r ∈ s.reports, r.status ∈ statuses) →
        (getReportsStats s).overview.pending + (getReportsStats s).overview.inProgress
          + (getReportsStats s).overview.resolved + (getReportsStats s).overview.rejected
          = (getReportsStats s).overview.total)
    ∧ ((getReportsStats s).categoryBreakdown.map (fun e => e.id)).Nodup
    ∧ (∀ c, c ∈ (getReportsStats s).categoryBreakdown.map (fun e => e.id)
        ↔ ∃ r ∈ s.reports, r.category = c)
    ∧ (∀ e ∈ (getReportsStats s).categoryBreakdown,
        e.count = (s.reports.filter (fun r => r.category = e.id)).length)
    ∧ (getReportsStats s).categoryBreakdown.Pairwise (fun a b => b.count ≤ a.count)
    ∧ ((getReportsStats s).categoryBreakdown.map (fun e => e.count)).sum
        = (getReportsStats s).overview.total := by
  rw [overview_eq]
  have hkeys := sorted_groups_keys (fun r => r.category)
    (fun g => (⟨g.1, g.2.length⟩ : CategoryCount)) (fun a b => b.count ≤ a.count) s.reports
    (fun e => e.id) (fun _ => rfl)
  refine ⟨rfl, ?_, ?_, ?_, ?_, ?_, ?_, hkeys.1, hkeys.2, ?_, ?_, ?_⟩
  · simp only [countStatus, List.countP_eq_length_filter]
  · simp only [countStatus, List.countP_eq_length_filter]
  · simp only [countStatus, List.countP_eq_length_filter]
  · simp only [countStatus, List.countP_eq_length_filter]
  · intro h
    rw [h]
    rfl
  · intro h
    exact countStatus_sum s.reports h
  · intro e he
    obtain ⟨k, -, rfl⟩ := mem_sorted_groups (fun r => r.category)
      (fun g => (⟨g.1, g.2.length⟩ : CategoryCount)) (fun a b => b.count ≤ a.count) s.reports e he
    rfl
  · have := count_desc_total (fun e : CategoryCount => e.count)
    have := count_desc_trans (fun e : CategoryCount => e.count)
    exact List.sorted_insertionSort _ _
  · exact sorted_groups_sum (fun r => r.category)
      (fun g => (⟨g.1, g.2.length⟩ : CategoryCount)) (fun a b => b.count ≤ a.count) s.reports
      (fun e => e.count) (fun _ => rfl)

/-! ## The claims on `getDashboardStats` -/

theorem resolvedMatch_none (l : List Report) (h : ∀ r ∈ l, r.resolvedAt = none) :
    resolvedMatch l = [] := by
  simp only [resolvedMatch, List.filter_eq_nil_iff]
  intro r hr
  simp [h r hr]

theorem avg_eq (startOfToday : Nat) (s : Store) :
    (getDashboardStats startOfToday s).avgResolutionTime
      = if resolvedMatch s.reports = [] then 0
        else ((resolvedMatch s.reports).map (fun r => (resolutionMs r : ℚ) / (dayMs : ℚ))).sum
          / ((resolvedMatch s.reports).length : ℚ) := by
  by_cases h : resolvedMatch s.reports = []
  · simp [getDashboardStats, avgAggregate, h]
  · simp [getDashboardStats, avgAggregate, h]

/-- C24 (amended): `avgResolutionTime` is 0 when no report has the status
`resolved` together with a `resolvedAt`, in particular when no report has a
`resolvedAt`; otherwise it is the arithmetic mean, over the reports that have the
status `resolved` and a `resolvedAt`, of `resolvedAt - createdAt` in milliseconds
divided by 86400000; two such reports that took 1 day and 3 days give 2. -/
theorem avgResolutionTime_mean (startOfToday : Nat) (s : Store) :
    ((∀ r ∈ s.reports, r.resolvedAt = none) →
      (getDashboardStats startOfToday s).avgResolutionTime = 0)
    ∧ (resolvedMatch s.reports = [] → (getDashboardStats startOfToday s).avgResolutionTime = 0)
    ∧ (resolvedMatch s.reports ≠ [] →
        (getDashboardStats startOfToday s).avgResolutionTime
          = ((resolvedMatch s.reports).map (fun r => (resolutionMs r : ℚ) / 86400000)).sum
            / ((resolvedMatch s.reports).length : ℚ))
    ∧ (∀ r ∈ resolvedMatch s.reports, r ∈ s.reports ∧ r.status = "resolved"
        ∧ ∃ t, r.resolvedAt = some t ∧ resolutionMs r = (t : Int) - (r.createdAt : Int))
    ∧ (∀ r ∈ s.reports, r.status = "resolved" → r.resolvedAt ≠ none → r ∈ resolvedMatch s.reports)
    ∧ (∀ r1 r2, resolvedMatch s.reports = [r1, r2] → resolutionMs r1 = 86400000 →
        resolutionMs r2 = 3 * 86400000 →
        (getDashboardStats startOfToday s).avgResolutionTime = 2) := by
  have hday : (dayMs : ℚ) = 86400000 := by norm_num [dayMs]
  refine ⟨?_, ?_, ?_, ?_, ?_, ?_⟩
  · intro h
    rw [avg_eq, if_pos (resolvedMatch_none _ h)]
  · intro h
    rw [avg_eq, if_pos h]
  · intro h
    rw [avg_eq, if_neg h, hday]
  · intro r hr
    simp only [resolvedMatch, List.mem_filter, Bool.and_eq_true, decide_eq_true_eq] at hr
    obtain ⟨hm, hst, hres⟩ := hr
    refine ⟨hm, hst, ?_⟩
    cases hra : r.resolvedAt with
    | none => simp [hra] at hres
    | some t => exact ⟨t, rfl, by simp [resolutionMs, hra]⟩
  · intro r hr hst hres
    simp only [resolvedMatch, List.mem_filter, Bool.and_eq_true, decide_eq_true_eq]
    refine ⟨hr, hst, ?_⟩
    cases hra : r.resolvedAt with
    | none => exact absurd hra hres
    | some t => rfl
  · intro r1 r2 hm h1 h2
    rw [avg_eq, hm, hday, if_neg (List.cons_ne_nil _ _)]
    simp only [List.map_cons, List.map_nil, List.sum_cons, List.sum_nil, h1, h2,
      List.length_cons, List.length_nil]
    norm_num

/-- Two resolved reports that took 1 day and 3 days: the average is 2. -/
theorem avgResolutionTime_mean_witness :
    resolvedMatch [resolvedAfter 1 1000 1, resolvedAfter 2 2000 3]
        = [resolvedAfter 1 1000 1, resolvedAfter 2 2000 3]
    ∧ resolutionMs (resolvedAfter 1 1000 1) = 86400000
    ∧ resolutionMs (resolvedAfter 2 2000 3) = 3 * 86400000
    ∧ (getDashboardStats 0 ⟨[resolvedAfter 1 1000 1, resolvedAfter 2 2000 3], []⟩).avgResolutionTime
        = 2 :=
  ⟨by decide, by decide, by decide,
    (avgResolutionTime_mean 0 ⟨[resolvedAfter 1 1000 1, resolvedAfter 2 2000 3], []⟩).2.2.2.2.2
      (resolvedAfter 1 1000 1) (resolvedAfter 2 2000 3) (by decide) (by decide) (by decide)⟩

/-- C24 as stated fails: after a report was resolved three days after its
creation and then rejected, a report has a `resolvedAt`, the one difference
`resolvedAt - createdAt` is three days, and `avgResolutionTime` is 0, not 3. -/
theorem avgResolutionTime_mean_counterexample :
    (run sampleLib (Store.empty []) withdrawn).reports.map
        (fun r => (r.status, r.resolvedAt, resolutionMs r))
      = [("rejected", some (3 * 86400000), 3 * 86400000)]
    ∧ (∃ r ∈ (run sampleLib (Store.empty []) withdrawn).reports, r.resolvedAt ≠ none)
    ∧ (getDashboardStats 0 (run sampleLib (Store.empty []) withdrawn)).avgResolutionTime = 0
    ∧ (getDashboardStats 0 (run sampleLib (Store.empty []) withdrawn)).avgResolutionTime
        ≠ 3 := by
  have h : resolvedMatch (run sampleLib (Store.empty []) withdrawn).reports = [] := by decide
  have h0 : (getDashboardStats 0 (run sampleLib (Store.empty []) withdrawn)).avgResolutionTime
      = 0 := by
    rw [avg_eq, if_pos h]
  refine ⟨by decide, by decide, h0, ?_⟩
  rw [h0]
  norm_num

theorem resolvedMatch_filter (l : List Report) :
    resolvedMatch (l.filter (fun r => r.status = "resolved")) = resolvedMatch l := by
  simp only [resolvedMatch, List.filter_filter]
  apply List.filter_congr
  intro r _
  by_cases h : r.status = "resolved" <;> simp [h]

/-- C25 (amended): the average resolution time of `getDashboardStats` is taken
over the reports whose current status is `resolved` and that have a `resolvedAt`:
it is the average of the store without the reports of every other status, and it
is 0 when no report has the status `resolved`, whatever `resolvedAt` they have. -/
theorem avgResolutionTime_current_status (startOfToday : Nat) (s : Store) :
    (getDashboardStats startOfToday s).avgResolutionTime
      = (getDashboardStats startOfToday
          ⟨s.reports.filter (fun r => r.status = "resolved"), s.users⟩).avgResolutionTime
    ∧ ((∀ r ∈ s.reports, r.status ≠ "resolved") →
        (getDashboardStats startOfToday s).avgResolutionTime = 0) := by
  constructor
  · rw [avg_eq, avg_eq, resolvedMatch_filter]
  · intro h
    have hm : resolvedMatch s.reports = [] := by
      simp only [resolvedMatch, List.filter_eq_nil_iff]
      intro r hr
      simp [h r hr]
    rw [avg_eq, if_pos hm]

theorem avgResolutionTime_current_status_witness :
    (∀ r ∈ (run sampleLib (Store.empty []) reopened).reports, r.status ≠ "resolved")
    ∧ (getDashboardStats 0 (run sampleLib (Store.empty []) reopened)).avgResolutionTime = 0 :=
  ⟨by decide,
    (avgResolutionTime_current_status 0 (run sampleLib (Store.empty []) reopened)).2 (by decide)⟩

/-- C25 as stated fails: a report that was resolved after one day and then set
back to `pending` keeps its `resolvedAt`, and the average is 0, not 1. -/
theorem avgResolutionTime_current_status_counterexample :
    (run sampleLib (Store.empty []) reopened).reports.map
        (fun r => (r.status, r.createdAt, r.resolvedAt)) = [("pending", 0, some 86400000)]
    ∧ (getDashboardStats 0 (run sampleLib (Store.empty []) reopened)).avgResolutionTime = 0 := by
  refine ⟨by decide, ?_⟩
  have h : resolvedMatch (run sampleLib (Store.empty []) reopened).reports = [] := by decide
  rw [avg_eq, if_pos h]

theorem countStatus_pair_le (l : List Report) :
    countStatus "pending" l + countStatus "resolved" l ≤ l.length := by
  induction l with
  | nil => simp [countStatus]
  | cons x xs ih =>
    simp only [countStatus] at ih ⊢
    by_cases h1 : x.status = "pending"
    · simp [List.countP_cons, h1]
      omega
    · by_cases h2 : x.status = "resolved"
      · simp [List.countP_cons, h2]
        omega
      · simp [List.countP_cons, h1, h2]
        omega

/-- C26: `categoryStats` has one entry for each category that occurs; its `count`
is the number of reports of the category, its `pending` and `resolved` are the
numbers of those with status `pending` and `resolved`, so that their sum is at
most `count`; the entries are in non-increasing order of `count` and the counts
add up to `totalReports`. -/
theorem categoryStats_counts (startOfToday : Nat) (s : Store) :
    ((getDashboardStats startOfToday s).categoryStats.map (fun e => e.id)).Nodup
    ∧ (∀ c, c ∈ (getDashboardStats startOfToday s).categoryStats.map (fun e => e.id)
        ↔ ∃ r ∈ s.reports, r.category = c)
    ∧ (∀ e ∈ (getDashboardStats startOfToday s).categoryStats,
        e.count = (s.reports.filter (fun r => r.category = e.id)).length
        ∧ e.pending = ((s.reports.filter (fun r => r.category = e.id)).filter
            (fun r => r.status = "pending")).length
        ∧ e.resolved = ((s.reports.filter (fun r => r.category = e.id)).filter
            (fun r => r.status = "resolved")).length
        ∧ e.pending + e.resolved ≤ e.count)
    ∧ (getDashboardStats startOfToday s).categoryStats.Pairwise (fun a b => b.count ≤ a.count)
    ∧ ((getDashboardStats startOfToday s).categoryStats.map (fun e => e.count)).sum
        = (getDashboardStats startOfToday s).totalReports := by
  have hkeys := sorted_groups_keys (fun r => r.category)
    (fun g => (⟨g.1, g.2.length, countStatus "pending" g.2, countStatus "resolved" g.2⟩ :
      CategoryStat)) (fun a b => b.count ≤ a.count) s.reports (fun e => e.id) (fun _ => rfl)
  refine ⟨hkeys.1, hkeys.2, ?_, ?_, ?_⟩
  · intro e he
    obtain ⟨k, -, rfl⟩ := mem_sorted_groups (fun r => r.category)
      (fun g => (⟨g.1, g.2.length, countStatus "pending" g.2, countStatus "resolved" g.2⟩ :
        CategoryStat)) (fun a b => b.count ≤ a.count) s.reports e he
    refine ⟨rfl, ?_, ?_, countStatus_pair_le _⟩
    · simp only [countStatus, List.countP_eq_length_filter]
    · simp only [countStatus, List.countP_eq_length_filter]
  · have := count_desc_total (fun e : CategoryStat => e.count)
    have := count_desc_trans (fun e : CategoryStat => e.count)
    exact List.sorted_insertionSort _ _
  · exact sorted_groups_sum (fun r => r.category)
      (fun g => (⟨g.1, g.2.length, countStatus "pending" g.2, countStatus "resolved" g.2⟩ :
        CategoryStat)) (fun a b => b.count ≤ a.count) s.reports (fun e => e.count) (fun _ => rfl)

/-! ## The claim on the trend of the analytics -/

theorem mem_createdSince (start : Int) (l : List Report) (r : Report) :
    r ∈ createdSince start l ↔ r ∈ l ∧ start ≤ (r.createdAt : Int) := by
  simp [createdSince, List.mem_filter]

theorem date_asc_total : IsTotal TrendEntry (fun a b => a.date ≤ b.date) :=
  ⟨fun a b => le_total a.date b.date⟩

theorem date_asc_trans : IsTrans TrendEntry (fun a b => a.date ≤ b.date) :=
  ⟨fun _ _ _ h1 h2 => le_trans h1 h2⟩

theorem countStatus_le (st : String) (l : List Report) : countStatus st l ≤ l.length :=
  List.countP_le_length _

/-- C28: for every start date, `trendData` has exactly one entry for each UTC day
on which a report with `createdAt` at or after the start date was created, and no
other entry; the `total` of an entry is the number of these reports of the day
and its `resolved` the number of them with status `resolved`, at most `total`;
the entries are in strictly ascending order of the day; and the totals add up to
the sum of the counts of `statusDistribution`, the number of reports since the
start date. -/
theorem trendData_days (start : Int) (s : Store) :
    (trendData start s.reports).Pairwise (fun a b => a.date < b.date)
    ∧ (∀ d, d ∈ (trendData start s.reports).map (fun e => e.date)
        ↔ ∃ r ∈ s.reports, start ≤ (r.createdAt : Int) ∧ utcDay r.createdAt = d)
    ∧ (∀ e ∈ trendData start s.reports,
        e.total = ((createdSince start s.reports).filter
            (fun r => utcDay r.createdAt = e.date)).length
        ∧ 1 ≤ e.total
        ∧ e.resolved = (((createdSince start s.reports).filter
            (fun r => utcDay r.createdAt = e.date)).filter (fun r => r.status = "resolved")).length
        ∧ e.resolved ≤ e.total)
    ∧ ((trendData start s.reports).map (fun e => e.total)).sum
        = ((statusDistribution start s.reports).map (fun e => e.count)).sum
    ∧ ((trendData start s.reports).map (fun e => e.total)).sum
        = (createdSince start s.reports).length
    ∧ (∀ now tf, (getReportsAnalytics now tf s).trendData
          = trendData (startDate now tf) s.reports
        ∧ (getReportsAnalytics now tf s).statusDistribution
          = statusDistribution (startDate now tf) s.reports) := by
  have hkeys := sorted_groups_keys (fun r => utcDay r.createdAt)
    (fun g => (⟨g.1, g.2.length, countStatus "resolved" g.2⟩ : TrendEntry))
    (fun a b => a.date ≤ b.date) (createdSince start s.reports) (fun e => e.date) (fun _ => rfl)
  have hsum := sorted_groups_sum (fun r => utcDay r.createdAt)
    (fun g => (⟨g.1, g.2.length, countStatus "resolved" g.2⟩ : TrendEntry))
    (fun a b => a.date ≤ b.date) (createdSince start s.reports) (fun e => e.total) (fun _ => rfl)
  have hdist : ((statusDistribution start s.reports).map (fun e => e.count)).sum
      = (createdSince start s.reports).length := by
    rw [← groupBy_sum (fun r => r.status) (createdSince start s.reports)]
    simp only [statusDistribution, List.map_map]
    rfl
  refine ⟨?_, ?_, ?_, ?_, hsum, fun _ _ => ⟨rfl, rfl⟩⟩
  · have hsorted : (trendData start s.reports).Pairwise (fun a b => a.date ≤ b.date) := by
      have := date_asc_total
      have := date_asc_trans
      exact List.sorted_insertionSort _ _
    have hne : (trendData start s.reports).Pairwise (fun a b => a.date ≠ b.date) :=
      List.pairwise_map.1 hkeys.1
    exact (hsorted.and hne).imp (fun h => lt_of_le_of_ne h.1 h.2)
  · intro d
    have h := hkeys.2 d
    simp only [trendData]
    rw [h]
    constructor
    · rintro ⟨r, hr, hd⟩
      exact ⟨r, ((mem_createdSince _ _ _).1 hr).1, ((mem_createdSince _ _ _).1 hr).2, hd⟩
    · rintro ⟨r, hr, hs, hd⟩
      exact ⟨r, (mem_createdSince _ _ _).2 ⟨hr, hs⟩, hd⟩
  · intro e he
    obtain ⟨k, hk, rfl⟩ := mem_sorted_groups (fun r => utcDay r.createdAt)
      (fun g => (⟨g.1, g.2.length, countStatus "resolved" g.2⟩ : TrendEntry))
      (fun a b => a.date ≤ b.date) (createdSince start s.reports) e he
    refine ⟨rfl, ?_, ?_, countStatus_le _ _⟩
    · obtain ⟨r, hr, hkr⟩ := List.mem_map.1 hk
      have hm : r ∈ (createdSince start s.reports).filter (fun r => utcDay r.createdAt = k) := by
        simp [List.mem_filter, hr, hkr]
      exact List.length_pos_of_mem hm
    · simp only [countStatus, List.countP_eq_length_filter]
  · rw [hdist]
    exact hsum

/-- Three reports of two days, counted from the epoch on. -/
theorem trendData_days_witness :
    trendData 0 trendStore.reports = [⟨0, 2, 1⟩, ⟨1, 1, 0⟩]
    ∧ (trendData 0 trendStore.reports).Pairwise (fun a b => a.date < b.date)
    ∧ ((trendData 0 trendStore.reports).map (fun e => e.total)).sum = 3 :=
  ⟨by decide, (trendData_days 0 trendStore).1,
    (trendData_days 0 trendStore).2.2.2.2.1.trans (by decide)⟩

/-! ## The aggregations on a sample store -/

/-- The statistics of the three reports of the sample: two potholes, one water
leak, one report resolved. -/
theorem getReportsStats_counts_witness :
    (getReportsStats trendStore).overview = ⟨3, 2, 0, 1, 0⟩
    ∧ (getReportsStats trendStore).categoryBreakdown = [⟨"pothole", 2⟩, ⟨"water_leak", 1⟩]
    ∧ (getReportsStats trendStore).overview.pending + (getReportsStats trendStore).overview.inProgress
        + (getReportsStats trendStore).overview.resolved
        + (getReportsStats trendStore).overview.rejected
        = (getReportsStats trendStore).overview.total :=
  ⟨by decide, by decide, (getReportsStats_counts trendStore).2.2.2.2.2.2.1 (by decide)⟩

theorem categoryStats_counts_witness :
    (getDashboardStats 0 trendStore).categoryStats
        = [⟨"pothole", 2, 2, 0⟩, ⟨"water_leak", 1, 0, 1⟩]
    ∧ ((getDashboardStats 0 trendStore).categoryStats.map (fun e => e.count)).sum
        = (getDashboardStats 0 trendStore).totalReports :=
  ⟨by decide, (categoryStats_counts 0 trendStore).2.2.2.2⟩

end CityLink
